import Mathlib

/-!
# gramarye-chunk-renderer: the chunk render system

A shallow embedding of `src/chunk_render_system.c` and the properties of its specification.

Conventions of the embedding.

* C `int` values are integers (`Int`); `/` on `int` is `Int.tdiv` (truncation toward zero).
  Signed overflow is undefined in C, so the embedding describes every run in which the
  intermediate `int` values are representable.
* `size_t` counts are natural numbers; the `uint64_t` frame counter is a natural number reduced
  modulo `2 ^ 64` where the code increments it.
* `float` values that the code builds from integers (`(float)(localX * tileSize)`, ...) are kept as
  those integers; the one float comparison of the code, the footprint test, is read over the reals
  (see `within_render_radius`).
* A `ChunkRenderData*` obtained from the chunk table is the table cell of its key: a write through
  the pointer is a `Table_put` at that key.
* A `for` loop is a fold over its iteration sequence, computed when the loop is entered (no loop
  body writes the variables of its own bounds).
* The function of a collaborator that is not part of this repository (table, tilemap, atlas,
  renderer, entity store, chunk manager) is modelled from the specification.
-/

namespace Gramarye

/-! ## Data model -/

/-- Modelled from the spec: the key type `IntCoord` of `hash/int_coord_hash.h`, an integer pair
with structural equality. -/
structure IntCoord where
  x : Int
  y : Int
deriving DecidableEq, Repr

/-- Modelled from the spec: the opaque entity identifier of `gramarye_ecs/entity.h`; the code
compares its `high` and `low` words. -/
structure EntityId where
  high : Nat
  low : Nat
deriving DecidableEq, Repr

/-- Modelled from the spec: the tagged union `Observer` of `tilemap/chunk_observer.h`, with the
variants `OBSERVER_ENTITY` and `OBSERVER_MANUAL`. -/
inductive Observer where
  | entity (entityId : EntityId)
  | manual (tileX : Int) (tileY : Int)
deriving DecidableEq, Repr

/-- Modelled from the spec: an off-screen surface handle of the rendering backend, with the pixel
size it was requested with and whether the backend has a texture for it
(`Renderer_get_render_texture_texture` returns non-null). -/
structure RenderTexture where
  width : Int
  height : Int
  hasTexture : Bool
deriving DecidableEq, Repr

/-- Modelled from the spec: the cache entry `ChunkRenderData` of `tilemap/chunk_render_data.h`. -/
structure ChunkRenderData where
  chunkX : Int
  chunkY : Int
  renderTexture : Option RenderTexture
  isDirty : Bool
  isLoaded : Bool
  lastUpdateFrame : Nat
deriving DecidableEq, Repr

/-- Modelled from the spec: a tile of the tilemap; the code reads its `tile_id`. -/
structure Tile where
  tile_id : Nat
deriving DecidableEq, Repr

/-- Modelled from the spec: the tilemap, `tileAt(tileX, tileY) -> optional TileId`, as the finite
list of its present tiles. -/
structure Tilemap where
  tiles : List (IntCoord × Tile)
deriving DecidableEq, Repr

/-- Modelled from the spec: a rectangle of the rendering interface (`RenderRect`, `Rectangle`). -/
structure RenderRect where
  x : Int
  y : Int
  width : Int
  height : Int
deriving DecidableEq, Repr

/-- Modelled from the spec: the texture atlas, `rectFor(tileId) -> source rectangle`, as the list
of its rectangles; a tile id without one gets the zero rectangle. -/
structure Atlas where
  rects : List (Nat × RenderRect)
deriving DecidableEq, Repr

/-- Modelled from the spec: the rendering backend. Its calls are recorded by the functions that
issue them; it has no state the render system reads. -/
structure Renderer where
  backend : Nat
deriving DecidableEq, Repr

/-- Modelled from the spec: a camera handle of the rendering backend. -/
structure CameraHandle where
  camera : Nat
deriving DecidableEq, Repr

/-- Modelled from the spec: a viewport-fit handle of the rendering backend. -/
structure AspectFitHandle where
  aspectFit : Nat
deriving DecidableEq, Repr

/-- Modelled from the spec: a colour of the rendering interface. -/
structure RenderColor where
  r : Nat
  g : Nat
  b : Nat
  a : Nat
deriving DecidableEq, Repr

/-- Modelled from the spec: a draw command of the rendering interface, for the two command types
that `render_chunk_tiles` builds: `RENDER_COMMAND_TYPE_RECTANGLE` and `RENDER_COMMAND_TYPE_TEXTURE`
(drawn from the atlas texture with the given source rectangle). -/
inductive RenderCommand where
  | rectangle (bounds : RenderRect) (color : RenderColor)
  | texture (bounds : RenderRect) (color : RenderColor) (srcRect : RenderRect)
deriving DecidableEq, Repr

/-- Modelled from the spec: the calls that `render_chunk_tiles` makes to the rendering backend. -/
inductive RendererCall where
  | begin_render_texture (target : RenderTexture)
  | execute_command (cmd : RenderCommand)
  | end_render_texture
deriving DecidableEq, Repr

/-- Modelled from the spec: the position component of `core/position.h`, in tile units. -/
structure Position where
  x : Int
  y : Int
deriving DecidableEq, Repr

/-- Modelled from the spec: a component type identifier of `gramarye_ecs/component.h`. -/
abbrev ComponentTypeId := Nat

/-- Modelled from the spec: the entity-component store, `lookup(entityId) -> optional (x, y)`, as
the list of the position components it holds. -/
structure ECS where
  positions : List ((EntityId × ComponentTypeId) × Position)
deriving DecidableEq, Repr

/-- Modelled from the spec: the external chunk manager, `isDirty(chunkX, chunkY) -> bool` and
`clearDirty()`, as the list of the chunk coordinates it holds dirty. -/
structure ChunkManagerSystem where
  dirty : List IntCoord
deriving DecidableEq, Repr

/-- The struct `ChunkRenderSystem` of `chunk_render_system.h`. The arena is not represented
(allocation does not fail); `observers` holds the first `observerCount` slots of the array. -/
structure ChunkRenderSystem where
  chunks : List (IntCoord × ChunkRenderData)
  observers : List Observer
  observerCapacity : Nat
  chunkSize : Int
  tileSize : Int
  renderRadius : Int
  simulationRadius : Int
  tilemap : Option Tilemap
  atlas : Option Atlas
  renderer : Option Renderer
  currentFrame : Nat
deriving DecidableEq, Repr

/-- The field `observerCount`. -/
def ChunkRenderSystem.observerCount (system : ChunkRenderSystem) : Nat :=
  system.observers.length

/-! ## Collaborators -/

/-- Modelled from the spec: `Table_get` of `table.h`, the value stored under a key. -/
def Table_get {β : Type} : List (IntCoord × β) → IntCoord → Option β
  | [], _ => none
  | (k, v) :: rest, key => if k = key then some v else Table_get rest key

/-- Modelled from the spec: `Table_put` of `table.h`, which stores a value under a key, replacing
the value the key had. -/
def Table_put {β : Type} : List (IntCoord × β) → IntCoord → β → List (IntCoord × β)
  | [], key, value => [(key, value)]
  | (k, v) :: rest, key, value =>
    if k = key then (key, value) :: rest else (k, v) :: Table_put rest key value

/-- Modelled from the spec: `Tilemap_get_tile`, the tile at a tile coordinate, if any. -/
def Tilemap_get_tile (tilemap : Tilemap) (tileX tileY : Int) : Option Tile :=
  Table_get tilemap.tiles ⟨tileX, tileY⟩

/-- Modelled from the spec: `Atlas_getRect`, the source rectangle of a tile id. -/
def Atlas_getRect (atlas : Atlas) (tile_id : Nat) : RenderRect :=
  match atlas.rects.lookup tile_id with
  | some r => r
  | none => ⟨0, 0, 0, 0⟩

/-- Modelled from the spec: `Position_get`, the position component of an entity, if it has one. -/
def Position_get (ecs : ECS) (entityId : EntityId) (positionTypeId : ComponentTypeId) :
    Option Position :=
  ecs.positions.lookup (entityId, positionTypeId)

/-- Modelled from the spec: `Renderer_create_render_texture`, which hands out a surface of the
requested pixel size. -/
def Renderer_create_render_texture (_renderer : Renderer) (width height : Int) : RenderTexture :=
  { width := width, height := height, hasTexture := true }

/-- Modelled from the spec: `Renderer_get_render_texture_texture`, the texture of a surface; null
for a null surface. -/
def Renderer_get_render_texture_texture (_renderer : Renderer)
    (renderTexture : Option RenderTexture) : Option RenderTexture :=
  match renderTexture with
  | some t => if t.hasTexture then some t else none
  | none => none

/-- The chunk manager query `ChunkManagerSystem_is_chunk_dirty`. With `HAS_CHUNK_MANAGER` it is the
manager's own (modelled from the spec); without, it is the fallback of lines 17-20, which returns
`false`. -/
def ChunkManagerSystem_is_chunk_dirty (HAS_CHUNK_MANAGER : Bool) (system : ChunkManagerSystem)
    (chunkX chunkY : Int) : Bool :=
  if HAS_CHUNK_MANAGER then system.dirty.contains ⟨chunkX, chunkY⟩ else false

/-- The chunk manager notification `ChunkManagerSystem_clear_dirty`. With `HAS_CHUNK_MANAGER` it is
the manager's own (modelled from the spec); without, it is the fallback of lines 21-23, which does
nothing. -/
def ChunkManagerSystem_clear_dirty (HAS_CHUNK_MANAGER : Bool) (system : ChunkManagerSystem) :
    ChunkManagerSystem :=
  if HAS_CHUNK_MANAGER then { system with dirty := [] } else system

/-! ## Colours -/

/-- The function `color_white`. -/
def color_white : RenderColor := ⟨255, 255, 255, 255⟩

/-- The function `color_black`. -/
def color_black : RenderColor := ⟨0, 0, 0, 255⟩

/-! ## Coordinate mapper -/

/-- The function `get_chunk_coord` (lines 45-56). -/
def get_chunk_coord (system : ChunkRenderSystem) (tileX tileY : Int) : Int × Int :=
  let outChunkX :=
    if tileX ≥ 0 then Int.tdiv tileX system.chunkSize
    else Int.tdiv (tileX - system.chunkSize + 1) system.chunkSize
  let outChunkY :=
    if tileY ≥ 0 then Int.tdiv tileY system.chunkSize
    else Int.tdiv (tileY - system.chunkSize + 1) system.chunkSize
  (outChunkX, outChunkY)

/-- The function `get_local_coord` (lines 58-63). -/
def get_local_coord (system : ChunkRenderSystem) (tileX tileY : Int) : Int × Int :=
  let (chunkX, chunkY) := get_chunk_coord system tileX tileY
  (tileX - chunkX * system.chunkSize, tileY - chunkY * system.chunkSize)

/-- The function `ChunkRenderSystem_get_chunk_coord` (lines 394-398). -/
def ChunkRenderSystem_get_chunk_coord (system : ChunkRenderSystem) (tileX tileY : Int) :
    Int × Int :=
  get_chunk_coord system tileX tileY

/-- The function `ChunkRenderSystem_get_tile_coord` (lines 400-406). -/
def ChunkRenderSystem_get_tile_coord (system : ChunkRenderSystem) (chunkX chunkY : Int)
    (localX localY : Int) : Int × Int :=
  (chunkX * system.chunkSize + localX, chunkY * system.chunkSize + localY)

/-! ## Chunk cache and rasterizer -/

/-- The entry that `get_or_create_chunk` builds for a chunk without one (lines 70-82). -/
def new_chunk (system : ChunkRenderSystem) (chunkX chunkY : Int) : ChunkRenderData :=
  let chunkPixelSize := system.chunkSize * system.tileSize
  { chunkX := chunkX
    chunkY := chunkY
    isDirty := true
    isLoaded := false
    lastUpdateFrame := 0
    renderTexture :=
      match system.renderer with
      | some renderer =>
        some (Renderer_create_render_texture renderer chunkPixelSize chunkPixelSize)
      | none => none }

/-- The function `get_or_create_chunk` (lines 65-91): the system after the call and the entry the
returned pointer refers to, which is the table cell of `(chunkX, chunkY)`. -/
def get_or_create_chunk (system : ChunkRenderSystem) (chunkX chunkY : Int) :
    ChunkRenderSystem × ChunkRenderData :=
  let coord : IntCoord := ⟨chunkX, chunkY⟩
  match Table_get system.chunks coord with
  | some chunk => (system, chunk)
  | none =>
    let chunk := new_chunk system chunkX chunkY
    ({ system with chunks := Table_put system.chunks ⟨chunkX, chunkY⟩ chunk }, chunk)

/-- The texture command that `render_chunk_tiles` issues for the local coordinate
`(localX, localY)` of a chunk (lines 111-138), if the tilemap has a tile there. -/
def render_tile_command (system : ChunkRenderSystem) (tilemap : Tilemap) (atlas : Atlas)
    (chunk : ChunkRenderData) (localX localY : Int) : Option RenderCommand :=
  let startTileX := chunk.chunkX * system.chunkSize
  let startTileY := chunk.chunkY * system.chunkSize
  let tileX := startTileX + localX
  let tileY := startTileY + localY
  match Tilemap_get_tile tilemap tileX tileY with
  | some tile =>
    let sourceRect := Atlas_getRect atlas tile.tile_id
    let destRect : RenderRect :=
      ⟨localX * system.tileSize, localY * system.tileSize, system.tileSize, system.tileSize⟩
    some (RenderCommand.texture destRect color_white sourceRect)
  | none => none

/-- The two nested loops of `render_chunk_tiles` (lines 109-140): the texture commands in the
order they are issued, rows `localY` outside, columns `localX` inside. -/
def render_tile_commands (system : ChunkRenderSystem) (tilemap : Tilemap) (atlas : Atlas)
    (chunk : ChunkRenderData) : List RenderCommand :=
  (List.range system.chunkSize.toNat).foldl
    (fun cmds (localY : Nat) =>
      (List.range system.chunkSize.toNat).foldl
        (fun cmds (localX : Nat) =>
          match render_tile_command system tilemap atlas chunk (localX : Int) (localY : Int) with
          | some cmd => cmds ++ [cmd]
          | none => cmds)
        cmds)
    []

/-- The function `render_chunk_tiles` (lines 93-146) on a non-null entry: the entry after the call
and the backend calls made, in order; no call is made when the guard of line 94 returns. -/
def render_chunk_tiles (system : ChunkRenderSystem) (chunk : ChunkRenderData) :
    ChunkRenderData × List RendererCall :=
  match system.tilemap, system.atlas, system.renderer, chunk.renderTexture with
  | some tilemap, some atlas, some _, some renderTexture =>
    let chunkPixelSize := system.chunkSize * system.tileSize
    let clearCmd := RenderCommand.rectangle ⟨0, 0, chunkPixelSize, chunkPixelSize⟩ color_black
    let calls :=
      [RendererCall.begin_render_texture renderTexture, RendererCall.execute_command clearCmd]
        ++ (render_tile_commands system tilemap atlas chunk).map RendererCall.execute_command
        ++ [RendererCall.end_render_texture]
    ({ chunk with isDirty := false, isLoaded := true, lastUpdateFrame := system.currentFrame },
      calls)
  | _, _, _, _ => (chunk, [])

/-! ## Observer registry -/

/-- The function `get_observer_tile_pos` (lines 148-166). -/
def get_observer_tile_pos (_system : ChunkRenderSystem) (observer : Observer) (ecs : ECS)
    (positionTypeId : ComponentTypeId) : Int × Int :=
  match observer with
  | Observer.entity entityId =>
    match Position_get ecs entityId positionTypeId with
    | some pos => (pos.x, pos.y)
    | none => (0, 0)
  | Observer.manual tileX tileY => (tileX, tileY)

/-- The function `ChunkRenderSystem_init` (lines 168-191). -/
def ChunkRenderSystem_init (tilemap : Option Tilemap) (atlas : Option Atlas)
    (renderer : Option Renderer) (tileSize chunkSize renderRadius simulationRadius : Int) :
    ChunkRenderSystem :=
  { chunks := []
    observers := []
    observerCapacity := 16
    chunkSize := chunkSize
    tileSize := tileSize
    renderRadius := renderRadius
    simulationRadius := simulationRadius
    tilemap := tilemap
    atlas := atlas
    renderer := renderer
    currentFrame := 0 }

/-- The test of the scan loops of the entity observer functions (lines 198-200, 243-245). -/
def is_entity_observer (entity : EntityId) (observer : Observer) : Bool :=
  match observer with
  | Observer.entity entityId => entityId.high == entity.high && entityId.low == entity.low
  | Observer.manual _ _ => false

/-- The test of the scan loops of the manual observer functions (lines 220-222, 255-257). -/
def is_manual_observer (tileX tileY : Int) (observer : Observer) : Bool :=
  match observer with
  | Observer.entity _ => false
  | Observer.manual x y => x == tileX && y == tileY

/-- The growth step shared by the two add functions (lines 205-211, 227-233): the capacity after
it. -/
def grow_capacity (system : ChunkRenderSystem) : Nat :=
  if system.observerCount ≥ system.observerCapacity then system.observerCapacity * 2
  else system.observerCapacity

/-- The function `ChunkRenderSystem_add_entity_observer` (lines 193-216). -/
def ChunkRenderSystem_add_entity_observer (system : ChunkRenderSystem) (_ecs : ECS)
    (entity : EntityId) (_positionTypeId : ComponentTypeId) : ChunkRenderSystem :=
  if system.observers.any (is_entity_observer entity) then system
  else
    { system with
      observerCapacity := grow_capacity system
      observers := system.observers ++ [Observer.entity entity] }

/-- The function `ChunkRenderSystem_add_manual_observer` (lines 218-239). -/
def ChunkRenderSystem_add_manual_observer (system : ChunkRenderSystem) (tileX tileY : Int) :
    ChunkRenderSystem :=
  if system.observers.any (is_manual_observer tileX tileY) then system
  else
    { system with
      observerCapacity := grow_capacity system
      observers := system.observers ++ [Observer.manual tileX tileY] }

/-- The removal step shared by the two remove functions (lines 246-248, 258-260): slot `i` takes
the last observer and the count drops by one. -/
def swap_remove (observers : List Observer) (i : Nat) : List Observer :=
  match observers.getLast? with
  | some last => (observers.set i last).dropLast
  | none => observers

/-- The function `ChunkRenderSystem_remove_entity_observer` (lines 241-251). -/
def ChunkRenderSystem_remove_entity_observer (system : ChunkRenderSystem) (entity : EntityId) :
    ChunkRenderSystem :=
  match system.observers.findIdx? (is_entity_observer entity) with
  | some i => { system with observers := swap_remove system.observers i }
  | none => system

/-- The function `ChunkRenderSystem_remove_manual_observer` (lines 253-263). -/
def ChunkRenderSystem_remove_manual_observer (system : ChunkRenderSystem) (tileX tileY : Int) :
    ChunkRenderSystem :=
  match system.observers.findIdx? (is_manual_observer tileX tileY) with
  | some i => { system with observers := swap_remove system.observers i }
  | none => system

/-! ## Frame orchestrator -/

/-- The iteration sequence of `for (int d = lo; d <= hi; d++)`. -/
def int_range (lo hi : Int) : List Int :=
  (List.range (hi + 1 - lo).toNat).map (fun (k : Nat) => lo + (k : Int))

/-- The footprint test `sqrtf((float)(dx * dx + dy * dy)) <= (float)renderRadius` of lines 283-284
and 339-340, read over the reals: the square root of `n` is at most `r` exactly when `r` is not
negative and `n` is at most `r * r` (`within_render_radius_iff_sqrt`). Single-precision
arithmetic agrees with this reading as long as `dx * dx + dy * dy < 2 ^ 24` and
`renderRadius < 2 ^ 12`, where both conversions are exact and the rounded square root of a
number above `r * r` stays above `r`. -/
def within_render_radius (renderRadius dx dy : Int) : Bool :=
  decide (0 ≤ renderRadius ∧ dx * dx + dy * dy ≤ renderRadius * renderRadius)

/-- One invocation of `render_chunk_tiles` by the update pass: the key of the table cell it was
invoked on and the backend calls it made (none when its guard returned). -/
structure RenderCall where
  coord : IntCoord
  calls : List RendererCall
deriving DecidableEq, Repr

/-- The decision of lines 287-300, under either setting of the compile-time flag
`HAS_CHUNK_MANAGER`. -/
def needs_render (HAS_CHUNK_MANAGER : Bool) (chunkManager : Option ChunkManagerSystem)
    (chunk : ChunkRenderData) (chunkX chunkY : Int) : Bool :=
  let needsRender := !chunk.isLoaded
  if HAS_CHUNK_MANAGER then
    match chunkManager with
    | some manager =>
      if ChunkManagerSystem_is_chunk_dirty HAS_CHUNK_MANAGER manager chunkX chunkY then true
      else needsRender
    | none => if chunk.isDirty then true else needsRender
  else
    if chunk.isDirty then true else needsRender

/-- The body of the footprint test in `ChunkRenderSystem_update` (lines 285-305) for the chunk
`(chunkX, chunkY)`; the state is the system and the invocations of `render_chunk_tiles` so far. -/
def update_chunk (HAS_CHUNK_MANAGER : Bool) (chunkManager : Option ChunkManagerSystem)
    (state : ChunkRenderSystem × List RenderCall) (chunkX chunkY : Int) :
    ChunkRenderSystem × List RenderCall :=
  let created := get_or_create_chunk state.1 chunkX chunkY
  if needs_render HAS_CHUNK_MANAGER chunkManager created.2 chunkX chunkY then
    let rendered := render_chunk_tiles created.1 created.2
    ({ created.1 with
        chunks := Table_put created.1.chunks ⟨chunkX, chunkY⟩ { rendered.1 with isDirty := false } },
      state.2 ++ [⟨⟨chunkX, chunkY⟩, rendered.2⟩])
  else (created.1, state.2)

/-- The body of the observer loop of `ChunkRenderSystem_update` (lines 272-308). -/
def update_observer (HAS_CHUNK_MANAGER : Bool) (ecs : ECS) (positionTypeId : ComponentTypeId)
    (chunkManager : Option ChunkManagerSystem) (state : ChunkRenderSystem × List RenderCall)
    (observer : Observer) : ChunkRenderSystem × List RenderCall :=
  let system := state.1
  let observerTile := get_observer_tile_pos system observer ecs positionTypeId
  let observerChunk := get_chunk_coord system observerTile.1 observerTile.2
  (int_range (-system.renderRadius) system.renderRadius).foldl
    (fun state dy =>
      (int_range (-system.renderRadius) system.renderRadius).foldl
        (fun state dx =>
          if within_render_radius system.renderRadius dx dy then
            update_chunk HAS_CHUNK_MANAGER chunkManager state
              (observerChunk.1 + dx) (observerChunk.2 + dy)
          else state)
        state)
    state

/-- What a call of `ChunkRenderSystem_update` leaves: the system, the chunk manager, and the
invocations of `render_chunk_tiles` it made, in order. -/
structure UpdateResult where
  system : ChunkRenderSystem
  chunkManager : Option ChunkManagerSystem
  renderCalls : List RenderCall
deriving DecidableEq, Repr

/-- The function `ChunkRenderSystem_update` (lines 265-316), under either setting of the
compile-time flag `HAS_CHUNK_MANAGER`. -/
def ChunkRenderSystem_update (HAS_CHUNK_MANAGER : Bool) (system : ChunkRenderSystem) (ecs : ECS)
    (positionTypeId : ComponentTypeId) (chunkManager : Option ChunkManagerSystem) :
    UpdateResult :=
  let system := { system with currentFrame := (system.currentFrame + 1) % 2 ^ 64 }
  let state :=
    system.observers.foldl (update_observer HAS_CHUNK_MANAGER ecs positionTypeId chunkManager)
      (system, [])
  { system := state.1
    renderCalls := state.2
    chunkManager :=
      if HAS_CHUNK_MANAGER then
        match chunkManager with
        | some manager => some (ChunkManagerSystem_clear_dirty HAS_CHUNK_MANAGER manager)
        | none => none
      else chunkManager }

/-- The number of times an update invoked `render_chunk_tiles` on the cell of `coord`. -/
def invocation_count (renderCalls : List RenderCall) (coord : IntCoord) : Nat :=
  renderCalls.countP (fun call => call.coord = coord)

/-- The number of times an update rasterized the cell of `coord`: the invocations of
`render_chunk_tiles` on it that passed the guard and drew into its surface. -/
def rasterization_count (renderCalls : List RenderCall) (coord : IntCoord) : Nat :=
  renderCalls.countP (fun call => call.coord = coord ∧ call.calls ≠ [])

/-- The composite draw of lines 354-386 for one chunk: the chunk coordinate, its world-space
origin, the pixel size of the cached surface and the surface whose texture is drawn. The screen
position and the zoom and scale factors come from the backend and are not represented. -/
structure CompositeDraw where
  coord : IntCoord
  chunkWorldX : Int
  chunkWorldY : Int
  chunkPixelSize : Int
  texture : RenderTexture
deriving DecidableEq, Repr

/-- The body of the footprint test in `ChunkRenderSystem_render` (lines 341-387) for the chunk
`(chunkX, chunkY)`; the state is the table `renderedChunks` and the composite draws so far. -/
def render_chunk (system : ChunkRenderSystem) (renderer : Renderer)
    (state : List (IntCoord × Nat) × List CompositeDraw) (chunkX chunkY : Int) :
    List (IntCoord × Nat) × List CompositeDraw :=
  let coord : IntCoord := ⟨chunkX, chunkY⟩
  match Table_get state.1 coord with
  | some _ => state
  | none =>
    let renderedChunks := Table_put state.1 ⟨chunkX, chunkY⟩ 1
    match Table_get system.chunks coord with
    | some chunk =>
      if chunk.isLoaded then
        match Renderer_get_render_texture_texture renderer chunk.renderTexture with
        | some textureHandle =>
          (renderedChunks, state.2 ++ [
            { coord := coord
              chunkWorldX := chunkX * system.chunkSize * system.tileSize
              chunkWorldY := chunkY * system.chunkSize * system.tileSize
              chunkPixelSize := system.chunkSize * system.tileSize
              texture := textureHandle }])
        | none => (renderedChunks, state.2)
      else (renderedChunks, state.2)
    | none => (renderedChunks, state.2)

/-- The body of the observer loop of `ChunkRenderSystem_render` (lines 328-390). -/
def render_observer (system : ChunkRenderSystem) (renderer : Renderer) (ecs : ECS)
    (positionTypeId : ComponentTypeId) (state : List (IntCoord × Nat) × List CompositeDraw)
    (observer : Observer) : List (IntCoord × Nat) × List CompositeDraw :=
  let observerTile := get_observer_tile_pos system observer ecs positionTypeId
  let observerChunk := get_chunk_coord system observerTile.1 observerTile.2
  (int_range (-system.renderRadius) system.renderRadius).foldl
    (fun state dy =>
      (int_range (-system.renderRadius) system.renderRadius).foldl
        (fun state dx =>
          if within_render_radius system.renderRadius dx dy then
            render_chunk system renderer state (observerChunk.1 + dx) (observerChunk.2 + dy)
          else state)
        state)
    state

/-- The function `ChunkRenderSystem_render` (lines 318-392) on a non-null system: the system after
the call, which the function does not write, and the composite draws it issued, in order. -/
def ChunkRenderSystem_render (system : ChunkRenderSystem) (ecs : ECS)
    (positionTypeId : ComponentTypeId) (camera : Option CameraHandle)
    (aspectFit : Option AspectFitHandle) : ChunkRenderSystem × List CompositeDraw :=
  match system.renderer, camera, aspectFit with
  | some renderer, some _, some _ =>
    (system,
      (system.observers.foldl (render_observer system renderer ecs positionTypeId) ([], [])).2)
  | _, _, _ => (system, [])

/-- The function `ChunkRenderSystem_mark_chunk_dirty` (lines 427-438) on a non-null system. -/
def ChunkRenderSystem_mark_chunk_dirty (system : ChunkRenderSystem) (tileX tileY : Int) :
    ChunkRenderSystem :=
  let chunkCoord := get_chunk_coord system tileX tileY
  let coord : IntCoord := ⟨chunkCoord.1, chunkCoord.2⟩
  match Table_get system.chunks coord with
  | some chunk =>
    { system with chunks := Table_put system.chunks coord { chunk with isDirty := true } }
  | none => system

/-- The function `ChunkRenderSystem_cleanup` (lines 440-442). -/
def ChunkRenderSystem_cleanup (system : ChunkRenderSystem) : ChunkRenderSystem :=
  system

/-- The states a build with the given `HAS_CHUNK_MANAGER` setting reaches from
`ChunkRenderSystem_init` by calls of the public operations. -/
inductive Reachable (HAS_CHUNK_MANAGER : Bool) : ChunkRenderSystem → Prop where
  | init (tilemap : Option Tilemap) (atlas : Option Atlas) (renderer : Option Renderer)
      (tileSize chunkSize renderRadius simulationRadius : Int) :
      Reachable HAS_CHUNK_MANAGER
        (ChunkRenderSystem_init tilemap atlas renderer tileSize chunkSize renderRadius
          simulationRadius)
  | add_entity_observer {system : ChunkRenderSystem} (ecs : ECS) (entity : EntityId)
      (positionTypeId : ComponentTypeId) :
      Reachable HAS_CHUNK_MANAGER system →
      Reachable HAS_CHUNK_MANAGER
        (ChunkRenderSystem_add_entity_observer system ecs entity positionTypeId)
  | add_manual_observer {system : ChunkRenderSystem} (tileX tileY : Int) :
      Reachable HAS_CHUNK_MANAGER system →
      Reachable HAS_CHUNK_MANAGER (ChunkRenderSystem_add_manual_observer system tileX tileY)
  | remove_entity_observer {system : ChunkRenderSystem} (entity : EntityId) :
      Reachable HAS_CHUNK_MANAGER system →
      Reachable HAS_CHUNK_MANAGER (ChunkRenderSystem_remove_entity_observer system entity)
  | remove_manual_observer {system : ChunkRenderSystem} (tileX tileY : Int) :
      Reachable HAS_CHUNK_MANAGER system →
      Reachable HAS_CHUNK_MANAGER (ChunkRenderSystem_remove_manual_observer system tileX tileY)
  | update {system : ChunkRenderSystem} (ecs : ECS) (positionTypeId : ComponentTypeId)
      (chunkManager : Option ChunkManagerSystem) :
      Reachable HAS_CHUNK_MANAGER system →
      Reachable HAS_CHUNK_MANAGER
        (ChunkRenderSystem_update HAS_CHUNK_MANAGER system ecs positionTypeId chunkManager).system
  | render {system : ChunkRenderSystem} (ecs : ECS) (positionTypeId : ComponentTypeId)
      (camera : Option CameraHandle) (aspectFit : Option AspectFitHandle) :
      Reachable HAS_CHUNK_MANAGER system →
      Reachable HAS_CHUNK_MANAGER
        (ChunkRenderSystem_render system ecs positionTypeId camera aspectFit).1
  | mark_chunk_dirty {system : ChunkRenderSystem} (tileX tileY : Int) :
      Reachable HAS_CHUNK_MANAGER system →
      Reachable HAS_CHUNK_MANAGER (ChunkRenderSystem_mark_chunk_dirty system tileX tileY)
  | cleanup {system : ChunkRenderSystem} :
      Reachable HAS_CHUNK_MANAGER system →
      Reachable HAS_CHUNK_MANAGER (ChunkRenderSystem_cleanup system)

/-- The offsets `(dx, dy)` that the two offset loops of a scan keep, in the order the loops reach
them: rows `dy` outside, columns `dx` inside. -/
def footprint_offsets (renderRadius : Int) : List (Int × Int) :=
  (int_range (-renderRadius) renderRadius).flatMap fun dy =>
    (int_range (-renderRadius) renderRadius).filterMap fun dx =>
      if within_render_radius renderRadius dx dy then some (dx, dy) else none

/-- The chunk coordinates that a scan reaches for one observer, in order. -/
def observer_visits (system : ChunkRenderSystem) (ecs : ECS) (positionTypeId : ComponentTypeId)
    (observer : Observer) : List IntCoord :=
  (footprint_offsets system.renderRadius).map fun d =>
    ⟨(get_chunk_coord system (get_observer_tile_pos system observer ecs positionTypeId).1
        (get_observer_tile_pos system observer ecs positionTypeId).2).1 + d.1,
      (get_chunk_coord system (get_observer_tile_pos system observer ecs positionTypeId).1
        (get_observer_tile_pos system observer ecs positionTypeId).2).2 + d.2⟩

/-- The chunk coordinates that a scan reaches for the registered observers, in order, with
repetitions. -/
def scan_visits (system : ChunkRenderSystem) (ecs : ECS) (positionTypeId : ComponentTypeId) :
    List IntCoord :=
  system.observers.flatMap (observer_visits system ecs positionTypeId)

/-- The step of the update scan at a chunk coordinate. -/
def update_step (HAS_CHUNK_MANAGER : Bool) (chunkManager : Option ChunkManagerSystem)
    (state : ChunkRenderSystem × List RenderCall) (coord : IntCoord) :
    ChunkRenderSystem × List RenderCall :=
  update_chunk HAS_CHUNK_MANAGER chunkManager state coord.x coord.y

/-- The step of the render scan at a chunk coordinate. -/
def render_step (system : ChunkRenderSystem) (renderer : Renderer)
    (state : List (IntCoord × Nat) × List CompositeDraw) (coord : IntCoord) :
    List (IntCoord × Nat) × List CompositeDraw :=
  render_chunk system renderer state coord.x coord.y

/-- The circular footprint of the specification: the chunk coordinates that are the chunk of a
registered observer offset by some `(dx, dy)` with `dx` and `dy` in
`[-renderRadius, renderRadius]` and `dx * dx + dy * dy ≤ renderRadius * renderRadius`. -/
def in_footprint (system : ChunkRenderSystem) (ecs : ECS) (positionTypeId : ComponentTypeId)
    (coord : IntCoord) : Prop :=
  ∃ observer ∈ system.observers, ∃ dx dy : Int,
    -system.renderRadius ≤ dx ∧ dx ≤ system.renderRadius ∧
    -system.renderRadius ≤ dy ∧ dy ≤ system.renderRadius ∧
    dx * dx + dy * dy ≤ system.renderRadius * system.renderRadius ∧
    coord.x =
      (get_chunk_coord system (get_observer_tile_pos system observer ecs positionTypeId).1
        (get_observer_tile_pos system observer ecs positionTypeId).2).1 + dx ∧
    coord.y =
      (get_chunk_coord system (get_observer_tile_pos system observer ecs positionTypeId).1
        (get_observer_tile_pos system observer ecs positionTypeId).2).2 + dy

/-- The number of composite draws of a render pass for a chunk coordinate. -/
def composite_count (draws : List CompositeDraw) (coord : IntCoord) : Nat :=
  draws.countP (fun draw => draw.coord = coord)

/-- Whether a chunk coordinate has a cache entry that is loaded and whose surface has a texture
handle. -/
def is_drawable (system : ChunkRenderSystem) (renderer : Renderer) (coord : IntCoord) : Bool :=
  match Table_get system.chunks coord with
  | some chunk =>
    chunk.isLoaded && (Renderer_get_render_texture_texture renderer chunk.renderTexture).isSome
  | none => false

/-- The property of a state that every loaded cache entry has a backing surface and was loaded with
tilemap, atlas and renderer present. -/
def loaded_entries_rasterizable (system : ChunkRenderSystem) : Prop :=
  ∀ (coord : IntCoord) (chunk : ChunkRenderData),
    Table_get system.chunks coord = some chunk → chunk.isLoaded = true →
      system.tilemap.isSome = true ∧ system.atlas.isSome = true ∧
      system.renderer.isSome = true ∧ chunk.renderTexture.isSome = true

/-- One call of a public operation on an initialised system, in a build with the given
`HAS_CHUNK_MANAGER` setting: the state before the call and the state after it. -/
inductive Step (HAS_CHUNK_MANAGER : Bool) : ChunkRenderSystem → ChunkRenderSystem → Prop where
  | add_entity_observer (system : ChunkRenderSystem) (ecs : ECS) (entity : EntityId)
      (positionTypeId : ComponentTypeId) :
      Step HAS_CHUNK_MANAGER system
        (ChunkRenderSystem_add_entity_observer system ecs entity positionTypeId)
  | add_manual_observer (system : ChunkRenderSystem) (tileX tileY : Int) :
      Step HAS_CHUNK_MANAGER system (ChunkRenderSystem_add_manual_observer system tileX tileY)
  | remove_entity_observer (system : ChunkRenderSystem) (entity : EntityId) :
      Step HAS_CHUNK_MANAGER system (ChunkRenderSystem_remove_entity_observer system entity)
  | remove_manual_observer (system : ChunkRenderSystem) (tileX tileY : Int) :
      Step HAS_CHUNK_MANAGER system (ChunkRenderSystem_remove_manual_observer system tileX tileY)
  | update (system : ChunkRenderSystem) (ecs : ECS) (positionTypeId : ComponentTypeId)
      (chunkManager : Option ChunkManagerSystem) :
      Step HAS_CHUNK_MANAGER system
        (ChunkRenderSystem_update HAS_CHUNK_MANAGER system ecs positionTypeId chunkManager).system
  | render (system : ChunkRenderSystem) (ecs : ECS) (positionTypeId : ComponentTypeId)
      (camera : Option CameraHandle) (aspectFit : Option AspectFitHandle) :
      Step HAS_CHUNK_MANAGER system
        (ChunkRenderSystem_render system ecs positionTypeId camera aspectFit).1
  | mark_chunk_dirty (system : ChunkRenderSystem) (tileX tileY : Int) :
      Step HAS_CHUNK_MANAGER system (ChunkRenderSystem_mark_chunk_dirty system tileX tileY)
  | cleanup (system : ChunkRenderSystem) :
      Step HAS_CHUNK_MANAGER system (ChunkRenderSystem_cleanup system)

/-- The remove operation that matches an observer: `ChunkRenderSystem_remove_entity_observer` with
its entity id for an entity observer, `ChunkRenderSystem_remove_manual_observer` with its tile
coordinate for a manual one. -/
def remove_observer (system : ChunkRenderSystem) (observer : Observer) : ChunkRenderSystem :=
  match observer with
  | Observer.entity entityId => ChunkRenderSystem_remove_entity_observer system entityId
  | Observer.manual tileX tileY => ChunkRenderSystem_remove_manual_observer system tileX tileY

/-- The property of a state that every cache entry has a backing surface when the renderer is
present, and has its dirty flag set or is loaded when tilemap, atlas and renderer are present. -/
def entries_dirty_or_loaded (system : ChunkRenderSystem) : Prop :=
  ∀ (coord : IntCoord) (chunk : ChunkRenderData),
    Table_get system.chunks coord = some chunk →
      (system.renderer.isSome = true → chunk.renderTexture.isSome = true) ∧
      (system.tilemap.isSome = true → system.atlas.isSome = true →
        system.renderer.isSome = true → chunk.isDirty = true ∨ chunk.isLoaded = true)

/-- The local coordinates `(lx, ly)` of a chunk, `lx` and `ly` in `[0, chunkSize)`, in the order
of the specification of the rasterizer: rows `ly` outside, columns `lx` inside. -/
def chunk_local_coords (chunkSize : Int) : List (Int × Int) :=
  (List.range chunkSize.toNat).flatMap fun (ly : Nat) =>
    (List.range chunkSize.toNat).map fun (lx : Nat) => ((lx : Int), (ly : Int))

/-- The states reached from `ChunkRenderSystem_init` by calls of the four observer operations. -/
inductive RegistryReachable : ChunkRenderSystem → Prop where
  | init (tilemap : Option Tilemap) (atlas : Option Atlas) (renderer : Option Renderer)
      (tileSize chunkSize renderRadius simulationRadius : Int) :
      RegistryReachable
        (ChunkRenderSystem_init tilemap atlas renderer tileSize chunkSize renderRadius
          simulationRadius)
  | add_entity_observer {system : ChunkRenderSystem} (ecs : ECS) (entity : EntityId)
      (positionTypeId : ComponentTypeId) :
      RegistryReachable system →
      RegistryReachable (ChunkRenderSystem_add_entity_observer system ecs entity positionTypeId)
  | add_manual_observer {system : ChunkRenderSystem} (tileX tileY : Int) :
      RegistryReachable system →
      RegistryReachable (ChunkRenderSystem_add_manual_observer system tileX tileY)
  | remove_entity_observer {system : ChunkRenderSystem} (entity : EntityId) :
      RegistryReachable system →
      RegistryReachable (ChunkRenderSystem_remove_entity_observer system entity)
  | remove_manual_observer {system : ChunkRenderSystem} (tileX tileY : Int) :
      RegistryReachable system →
      RegistryReachable (ChunkRenderSystem_remove_manual_observer system tileX tileY)

/-- The registry invariant: the registered observers are pairwise different, there are at most
`observerCapacity` of them, and `observerCapacity` is `16 * 2 ^ k` for some `k`. -/
def registry_invariant (system : ChunkRenderSystem) : Prop :=
  system.observers.Nodup ∧ system.observerCount ≤ system.observerCapacity ∧
    ∃ k : Nat, system.observerCapacity = 16 * 2 ^ k

/-! ## Example states -/

/-- The configuration of the example of the specification: `chunkSize = 64`, `tileSize = 16`,
`renderRadius = 1`, here without tilemap, atlas and renderer. -/
def example_system : ChunkRenderSystem :=
  ChunkRenderSystem_init none none none 16 64 1 10

/-- An example tilemap with two tiles. -/
def small_tilemap : Tilemap :=
  ⟨[(⟨0, 0⟩, ⟨3⟩), (⟨-1, -1⟩, ⟨4⟩)]⟩

/-- An example atlas with the rectangles of two tile ids. -/
def small_atlas : Atlas :=
  ⟨[(3, ⟨0, 0, 16, 16⟩), (4, ⟨16, 0, 16, 16⟩)]⟩

/-- An example configuration with all collaborators present: `chunkSize = 2`, `tileSize = 16`,
`renderRadius = 1`. -/
def small_system : ChunkRenderSystem :=
  ChunkRenderSystem_init (some small_tilemap) (some small_atlas) (some ⟨0⟩) 16 2 1 10

/-- The state of `small_system` with two manual observers, at the tiles `(0, 0)` and `(1, 0)`, which
lie in the same chunk `(0, 0)`. -/
def two_observers : ChunkRenderSystem :=
  ChunkRenderSystem_add_manual_observer (ChunkRenderSystem_add_manual_observer small_system 0 0) 1 0

/-- The state of `two_observers` after one update pass without chunk manager: the five chunks of
the footprint are loaded. -/
def two_observers_loaded : ChunkRenderSystem :=
  (ChunkRenderSystem_update true two_observers ⟨[]⟩ 0 none).system

/-- The state of `example_system` with one manual observer at the tile `(0, 0)`. -/
def example_observed : ChunkRenderSystem :=
  ChunkRenderSystem_add_manual_observer example_system 0 0

/-- The state of `small_system` with the render radius `-1` and one manual observer at the tile
`(0, 0)`. -/
def negative_radius_observed : ChunkRenderSystem :=
  ChunkRenderSystem_add_manual_observer
    (ChunkRenderSystem_init (some small_tilemap) (some small_atlas) (some ⟨0⟩) 16 2 (-1) 10) 0 0

/-- The state of `two_observers` whose cache holds an entry for the chunk `(0, 0)` that has no
backing surface, as the entry of a chunk for which the backend handed out none. -/
def surfaceless_observed : ChunkRenderSystem :=
  { two_observers with
    chunks := [(⟨0, 0⟩,
      { chunkX := 0, chunkY := 0, renderTexture := none, isDirty := true, isLoaded := false,
        lastUpdateFrame := 0 })] }

/-- The entry of a chunk of `small_system` that was rasterized in frame 1 and is clean. -/
def loaded_entry (chunkX chunkY : Int) : ChunkRenderData :=
  { chunkX := chunkX, chunkY := chunkY, renderTexture := some ⟨32, 32, true⟩, isDirty := false,
    isLoaded := true, lastUpdateFrame := 1 }

/-- The state of `two_observers_loaded` after the tile `(0, 0)` was marked dirty: the entry of
the chunk `(0, 0)` is loaded and has its dirty flag set. -/
def two_observers_marked : ChunkRenderSystem :=
  ChunkRenderSystem_mark_chunk_dirty two_observers_loaded 0 0

/-- The state of `two_observers` with the entity `(0, 7)` added as third observer. -/
def three_observers : ChunkRenderSystem :=
  ChunkRenderSystem_add_entity_observer two_observers ⟨[]⟩ ⟨0, 7⟩ 0

/-- The state of `small_system` with sixteen manual observers, at the tiles `(0, 0)` to `(15, 0)`:
the observer array is full. -/
def full_registry : ChunkRenderSystem :=
  (List.range 16).foldl
    (fun system (i : Nat) => ChunkRenderSystem_add_manual_observer system (i : Int) 0)
    small_system

/-! ## Theorems -/

/-! ### Coordinate mapper -/

/-- C1: for a positive chunk size and every tile coordinate, negative ones included, the chunk
coordinate of `get_chunk_coord` and the local coordinate of `get_local_coord`, given to
`ChunkRenderSystem_get_tile_coord`, give back the tile coordinate. -/
theorem tile_coord_round_trip (system : ChunkRenderSystem) (tileX tileY : Int)
    (_hsize : 0 < system.chunkSize) :
    ChunkRenderSystem_get_tile_coord system
      (get_chunk_coord system tileX tileY).1 (get_chunk_coord system tileX tileY).2
      (get_local_coord system tileX tileY).1 (get_local_coord system tileX tileY).2
      = (tileX, tileY) := by
  simp only [ChunkRenderSystem_get_tile_coord, get_local_coord]
  ext <;> simp

/-- The example of C1: with `chunkSize = 64` the tile `(-1, -1)` lies in chunk `(-1, -1)` at the
local coordinate `(63, 63)`, and these give back `(-1, -1)`. -/
theorem tile_coord_round_trip_witness :
    0 < example_system.chunkSize ∧
    get_chunk_coord example_system (-1) (-1) = (-1, -1) ∧
    get_local_coord example_system (-1) (-1) = (63, 63) ∧
    ChunkRenderSystem_get_tile_coord example_system
      (get_chunk_coord example_system (-1) (-1)).1 (get_chunk_coord example_system (-1) (-1)).2
      (get_local_coord example_system (-1) (-1)).1 (get_local_coord example_system (-1) (-1)).2
      = (-1, -1) :=
  ⟨by decide, by decide, by decide, tile_coord_round_trip example_system (-1) (-1) (by decide)⟩

theorem Table_get_put_same {β : Type} (t : List (IntCoord × β)) (k : IntCoord) (v : β) :
    Table_get (Table_put t k v) k = some v := by
  induction t with
  | nil => simp [Table_put, Table_get]
  | cons hd tl ih =>
    obtain ⟨k', v'⟩ := hd
    by_cases h : k' = k
    · simp [Table_put, Table_get, h]
    · simp [Table_put, Table_get, h, ih]

theorem Table_get_put_other {β : Type} (t : List (IntCoord × β)) (k k' : IntCoord) (v : β)
    (hne : k ≠ k') : Table_get (Table_put t k v) k' = Table_get t k' := by
  induction t with
  | nil => simp [Table_put, Table_get, hne]
  | cons hd tl ih =>
    obtain ⟨k0, v0⟩ := hd
    by_cases h : k0 = k
    · subst h
      simp [Table_put, Table_get, hne]
    · by_cases h' : k0 = k'
      · subst h'
        simp [Table_put, Table_get, h]
      · simp [Table_put, Table_get, h, h', ih]

theorem mem_int_range (lo hi d : Int) : d ∈ int_range lo hi ↔ lo ≤ d ∧ d ≤ hi := by
  unfold int_range
  constructor
  · intro h
    obtain ⟨k, hk, rfl⟩ := List.mem_map.1 h
    rw [List.mem_range] at hk
    omega
  · rintro ⟨h1, h2⟩
    exact List.mem_map.2 ⟨(d - lo).toNat, List.mem_range.2 (by omega), by omega⟩

theorem within_render_radius_iff_sqrt (renderRadius dx dy : Int) :
    within_render_radius renderRadius dx dy = true ↔
      Real.sqrt (((dx * dx + dy * dy : Int) : ℝ)) ≤ ((renderRadius : Int) : ℝ) := by
  simp only [within_render_radius, decide_eq_true_eq]
  rw [Real.sqrt_le_iff]
  constructor
  · rintro ⟨h1, h2⟩
    refine ⟨by exact_mod_cast h1, ?_⟩
    rw [sq]
    exact_mod_cast h2
  · rintro ⟨h1, h2⟩
    refine ⟨by exact_mod_cast h1, ?_⟩
    rw [sq] at h2
    exact_mod_cast h2

theorem foldl_filterMap_if {σ α β : Type} (l : List α) (p : α → Bool) (g : α → β)
    (f : σ → β → σ) (st : σ) :
    l.foldl (fun st a => if p a then f st (g a) else st) st
      = (l.filterMap (fun a => if p a then some (g a) else none)).foldl f st := by
  induction l generalizing st with
  | nil => rfl
  | cons a l ih =>
    by_cases h : p a
    · simp [List.filterMap_cons, h, ih]
    · simp [List.filterMap_cons, h, ih]

theorem foldl_flatMap_eq {σ α β : Type} (l : List α) (g : α → List β) (f : σ → β → σ) (st : σ) :
    (l.flatMap g).foldl f st = l.foldl (fun st a => (g a).foldl f st) st := by
  induction l generalizing st with
  | nil => rfl
  | cons a l ih => simp [List.flatMap_cons, List.foldl_append, ih]

theorem foldl_offsets {σ : Type} (r : Int) (f : σ → Int → Int → σ) (st : σ) :
    (int_range (-r) r).foldl
      (fun st dy =>
        (int_range (-r) r).foldl
          (fun st dx => if within_render_radius r dx dy then f st dx dy else st) st) st
      = (footprint_offsets r).foldl (fun st d => f st d.1 d.2) st := by
  unfold footprint_offsets
  rw [foldl_flatMap_eq]
  congr 1
  funext st dy
  exact foldl_filterMap_if (int_range (-r) r) (fun dx => within_render_radius r dx dy)
    (fun dx => (dx, dy)) (fun st d => f st d.1 d.2) st

theorem mem_footprint_offsets (r dx dy : Int) :
    (dx, dy) ∈ footprint_offsets r ↔
      -r ≤ dx ∧ dx ≤ r ∧ -r ≤ dy ∧ dy ≤ r ∧ dx * dx + dy * dy ≤ r * r := by
  unfold footprint_offsets
  rw [List.mem_flatMap]
  constructor
  · rintro ⟨dy', hdy, hmem⟩
    rw [List.mem_filterMap] at hmem
    obtain ⟨dx', hdx, heq⟩ := hmem
    rw [mem_int_range] at hdy hdx
    by_cases hw : within_render_radius r dx' dy' = true
    · simp only [hw, if_true, Option.some.injEq, Prod.mk.injEq] at heq
      obtain ⟨rfl, rfl⟩ := heq
      simp only [within_render_radius, decide_eq_true_eq] at hw
      exact ⟨hdx.1, hdx.2, hdy.1, hdy.2, hw.2⟩
    · simp [hw] at heq
  · rintro ⟨h1, h2, h3, h4, h5⟩
    refine ⟨dy, (mem_int_range _ _ _).2 ⟨h3, h4⟩, ?_⟩
    rw [List.mem_filterMap]
    refine ⟨dx, (mem_int_range _ _ _).2 ⟨h1, h2⟩, ?_⟩
    have hw : within_render_radius r dx dy = true := by
      simp only [within_render_radius, decide_eq_true_eq]
      exact ⟨by omega, h5⟩
    simp [hw]

theorem mem_scan_visits (system : ChunkRenderSystem) (ecs : ECS)
    (positionTypeId : ComponentTypeId) (coord : IntCoord) :
    coord ∈ scan_visits system ecs positionTypeId ↔ in_footprint system ecs positionTypeId coord := by
  unfold scan_visits in_footprint observer_visits
  rw [List.mem_flatMap]
  constructor
  · rintro ⟨o, ho, hmem⟩
    rw [List.mem_map] at hmem
    obtain ⟨⟨dx, dy⟩, hd, rfl⟩ := hmem
    rw [mem_footprint_offsets] at hd
    exact ⟨o, ho, dx, dy, hd.1, hd.2.1, hd.2.2.1, hd.2.2.2.1, hd.2.2.2.2, rfl, rfl⟩
  · rintro ⟨o, ho, dx, dy, h1, h2, h3, h4, h5, hx, hy⟩
    refine ⟨o, ho, ?_⟩
    rw [List.mem_map]
    refine ⟨(dx, dy), (mem_footprint_offsets _ _ _).2 ⟨h1, h2, h3, h4, h5⟩, ?_⟩
    cases coord
    simp only [IntCoord.mk.injEq]
    exact ⟨hx.symm, hy.symm⟩

/-! ### One step of the update scan -/

theorem get_or_create_chunk_of_some (s : ChunkRenderSystem) (x y : Int) (e : ChunkRenderData)
    (h : Table_get s.chunks ⟨x, y⟩ = some e) : get_or_create_chunk s x y = (s, e) := by
  simp [get_or_create_chunk, h]

theorem get_or_create_chunk_of_none (s : ChunkRenderSystem) (x y : Int)
    (h : Table_get s.chunks ⟨x, y⟩ = none) :
    get_or_create_chunk s x y
      = ({ s with chunks := Table_put s.chunks ⟨x, y⟩ (new_chunk s x y) }, new_chunk s x y) := by
  simp [get_or_create_chunk, h]

theorem get_or_create_chunk_system (s : ChunkRenderSystem) (x y : Int) :
    (get_or_create_chunk s x y).1 = { s with chunks := (get_or_create_chunk s x y).1.chunks } := by
  cases h : Table_get s.chunks ⟨x, y⟩ with
  | none => rw [get_or_create_chunk_of_none s x y h]
  | some e => rw [get_or_create_chunk_of_some s x y e h]

theorem get_or_create_chunk_entry (s : ChunkRenderSystem) (x y : Int) :
    (get_or_create_chunk s x y).2 = (Table_get s.chunks ⟨x, y⟩).getD (new_chunk s x y) := by
  cases h : Table_get s.chunks ⟨x, y⟩ with
  | none => rw [get_or_create_chunk_of_none s x y h]; rfl
  | some e => rw [get_or_create_chunk_of_some s x y e h]; rfl

theorem get_or_create_chunk_get_same (s : ChunkRenderSystem) (x y : Int) :
    Table_get (get_or_create_chunk s x y).1.chunks ⟨x, y⟩ = some (get_or_create_chunk s x y).2 := by
  cases h : Table_get s.chunks ⟨x, y⟩ with
  | none => rw [get_or_create_chunk_of_none s x y h]; exact Table_get_put_same _ _ _
  | some e => rw [get_or_create_chunk_of_some s x y e h]; exact h

theorem get_or_create_chunk_get_other (s : ChunkRenderSystem) (x y : Int) (k : IntCoord)
    (hne : (⟨x, y⟩ : IntCoord) ≠ k) :
    Table_get (get_or_create_chunk s x y).1.chunks k = Table_get s.chunks k := by
  cases h : Table_get s.chunks ⟨x, y⟩ with
  | none => rw [get_or_create_chunk_of_none s x y h]; exact Table_get_put_other _ _ _ _ hne
  | some e => rw [get_or_create_chunk_of_some s x y e h]

theorem render_chunk_tiles_config (s : ChunkRenderSystem) (T : List (IntCoord × ChunkRenderData))
    (e : ChunkRenderData) :
    render_chunk_tiles { s with chunks := T } e = render_chunk_tiles s e := rfl

theorem update_chunk_of_needs (HAS : Bool) (mgr : Option ChunkManagerSystem)
    (st : ChunkRenderSystem × List RenderCall) (x y : Int)
    (h : needs_render HAS mgr (get_or_create_chunk st.1 x y).2 x y = true) :
    update_chunk HAS mgr st x y =
      ({ st.1 with
          chunks := Table_put (get_or_create_chunk st.1 x y).1.chunks ⟨x, y⟩
            { (render_chunk_tiles st.1 (get_or_create_chunk st.1 x y).2).1 with
              isDirty := false } },
        st.2 ++ [⟨⟨x, y⟩, (render_chunk_tiles st.1 (get_or_create_chunk st.1 x y).2).2⟩]) := by
  unfold update_chunk
  simp only [h, if_true]
  rw [get_or_create_chunk_system st.1 x y]
  rfl

theorem update_chunk_of_not_needs (HAS : Bool) (mgr : Option ChunkManagerSystem)
    (st : ChunkRenderSystem × List RenderCall) (x y : Int)
    (h : needs_render HAS mgr (get_or_create_chunk st.1 x y).2 x y = false) :
    update_chunk HAS mgr st x y = ((get_or_create_chunk st.1 x y).1, st.2) := by
  unfold update_chunk
  simp [h]

theorem update_chunk_system (HAS : Bool) (mgr : Option ChunkManagerSystem)
    (st : ChunkRenderSystem × List RenderCall) (x y : Int) :
    (update_chunk HAS mgr st x y).1
      = { st.1 with chunks := (update_chunk HAS mgr st x y).1.chunks } := by
  cases h : needs_render HAS mgr (get_or_create_chunk st.1 x y).2 x y with
  | true => rw [update_chunk_of_needs HAS mgr st x y h]
  | false =>
    rw [update_chunk_of_not_needs HAS mgr st x y h]
    exact get_or_create_chunk_system _ _ _

theorem update_chunk_get_other (HAS : Bool) (mgr : Option ChunkManagerSystem)
    (st : ChunkRenderSystem × List RenderCall) (x y : Int) (k : IntCoord)
    (hne : (⟨x, y⟩ : IntCoord) ≠ k) :
    Table_get (update_chunk HAS mgr st x y).1.chunks k = Table_get st.1.chunks k := by
  cases h : needs_render HAS mgr (get_or_create_chunk st.1 x y).2 x y with
  | true =>
    rw [update_chunk_of_needs HAS mgr st x y h]
    simp only []
    rw [Table_get_put_other _ _ _ _ hne, get_or_create_chunk_get_other _ _ _ _ hne]
  | false =>
    rw [update_chunk_of_not_needs HAS mgr st x y h]
    exact get_or_create_chunk_get_other _ _ _ _ hne

theorem update_chunk_get_same (HAS : Bool) (mgr : Option ChunkManagerSystem)
    (st : ChunkRenderSystem × List RenderCall) (x y : Int) :
    Table_get (update_chunk HAS mgr st x y).1.chunks ⟨x, y⟩ =
      some (if needs_render HAS mgr (get_or_create_chunk st.1 x y).2 x y then
          { (render_chunk_tiles st.1 (get_or_create_chunk st.1 x y).2).1 with isDirty := false }
        else (get_or_create_chunk st.1 x y).2) := by
  cases h : needs_render HAS mgr (get_or_create_chunk st.1 x y).2 x y with
  | true =>
    rw [update_chunk_of_needs HAS mgr st x y h]
    simp only [if_true]
    exact Table_get_put_same _ _ _
  | false =>
    rw [update_chunk_of_not_needs HAS mgr st x y h]
    simp only [Bool.false_eq_true, if_false]
    exact get_or_create_chunk_get_same _ _ _

theorem update_chunk_calls (HAS : Bool) (mgr : Option ChunkManagerSystem)
    (st : ChunkRenderSystem × List RenderCall) (x y : Int) :
    (update_chunk HAS mgr st x y).2 =
      st.2 ++ (if needs_render HAS mgr (get_or_create_chunk st.1 x y).2 x y then
          [⟨⟨x, y⟩, (render_chunk_tiles st.1 (get_or_create_chunk st.1 x y).2).2⟩]
        else []) := by
  cases h : needs_render HAS mgr (get_or_create_chunk st.1 x y).2 x y with
  | true => rw [update_chunk_of_needs HAS mgr st x y h]; simp
  | false => rw [update_chunk_of_not_needs HAS mgr st x y h]; simp

/-! ### The update scan as one fold -/

theorem update_observer_eq (HAS : Bool) (ecs : ECS) (pid : ComponentTypeId)
    (mgr : Option ChunkManagerSystem) (st : ChunkRenderSystem × List RenderCall) (o : Observer) :
    update_observer HAS ecs pid mgr st o
      = (observer_visits st.1 ecs pid o).foldl (update_step HAS mgr) st := by
  unfold update_observer observer_visits
  simp only []
  rw [foldl_offsets st.1.renderRadius
    (fun acc dx dy => update_chunk HAS mgr acc
      ((get_chunk_coord st.1 (get_observer_tile_pos st.1 o ecs pid).1
        (get_observer_tile_pos st.1 o ecs pid).2).1 + dx)
      ((get_chunk_coord st.1 (get_observer_tile_pos st.1 o ecs pid).1
        (get_observer_tile_pos st.1 o ecs pid).2).2 + dy)) st]
  rw [List.foldl_map]
  rfl

theorem foldl_update_step_system (HAS : Bool) (mgr : Option ChunkManagerSystem)
    (vs : List IntCoord) (st : ChunkRenderSystem × List RenderCall) :
    (vs.foldl (update_step HAS mgr) st).1
      = { st.1 with chunks := (vs.foldl (update_step HAS mgr) st).1.chunks } := by
  induction vs generalizing st with
  | nil => rfl
  | cons v vs ih =>
    rw [List.foldl_cons, ih (update_step HAS mgr st v)]
    unfold update_step
    rw [update_chunk_system HAS mgr st v.x v.y]

theorem foldl_update_observer_eq (HAS : Bool) (ecs : ECS) (pid : ComponentTypeId)
    (mgr : Option ChunkManagerSystem) (s0 : ChunkRenderSystem) (obs : List Observer)
    (st : ChunkRenderSystem × List RenderCall)
    (hst : st.1 = { s0 with chunks := st.1.chunks }) :
    obs.foldl (update_observer HAS ecs pid mgr) st
      = (obs.flatMap (observer_visits s0 ecs pid)).foldl (update_step HAS mgr) st := by
  induction obs generalizing st with
  | nil => rfl
  | cons o obs ih =>
    rw [List.foldl_cons, List.flatMap_cons, List.foldl_append, update_observer_eq]
    have hv : observer_visits st.1 ecs pid o = observer_visits s0 ecs pid o := by
      rw [hst]; rfl
    rw [hv]
    apply ih
    rw [foldl_update_step_system HAS mgr (observer_visits s0 ecs pid o) st, hst]

/-- The update pass is one fold of the scan step over the visited chunk coordinates. -/
theorem ChunkRenderSystem_update_eq (HAS : Bool) (s : ChunkRenderSystem) (ecs : ECS)
    (pid : ComponentTypeId) (mgr : Option ChunkManagerSystem) :
    (ChunkRenderSystem_update HAS s ecs pid mgr).system
        = ((scan_visits s ecs pid).foldl (update_step HAS mgr)
            ({ s with currentFrame := (s.currentFrame + 1) % 2 ^ 64 }, [])).1 ∧
    (ChunkRenderSystem_update HAS s ecs pid mgr).renderCalls
        = ((scan_visits s ecs pid).foldl (update_step HAS mgr)
            ({ s with currentFrame := (s.currentFrame + 1) % 2 ^ 64 }, [])).2 := by
  unfold ChunkRenderSystem_update
  simp only []
  rw [foldl_update_observer_eq HAS ecs pid mgr
    { s with currentFrame := (s.currentFrame + 1) % 2 ^ 64 } s.observers _ rfl]
  exact ⟨rfl, rfl⟩

/-! ### The rasterizer and the scan step at a coordinate -/

theorem render_chunk_tiles_of_guard (s : ChunkRenderSystem) (e : ChunkRenderData)
    (h1 : s.tilemap.isSome = true) (h2 : s.atlas.isSome = true) (h3 : s.renderer.isSome = true)
    (h4 : e.renderTexture.isSome = true) :
    (render_chunk_tiles s e).1
        = { e with isDirty := false, isLoaded := true, lastUpdateFrame := s.currentFrame } ∧
    (render_chunk_tiles s e).2 ≠ [] := by
  obtain ⟨tm, htm⟩ := Option.isSome_iff_exists.1 h1
  obtain ⟨a, ha⟩ := Option.isSome_iff_exists.1 h2
  obtain ⟨r, hr⟩ := Option.isSome_iff_exists.1 h3
  obtain ⟨t, ht⟩ := Option.isSome_iff_exists.1 h4
  unfold render_chunk_tiles
  rw [htm, ha, hr, ht]
  simp

theorem render_chunk_tiles_cases (s : ChunkRenderSystem) (e : ChunkRenderData) :
    ((render_chunk_tiles s e).1 = e ∧ (render_chunk_tiles s e).2 = []) ∨
    (s.tilemap.isSome = true ∧ s.atlas.isSome = true ∧ s.renderer.isSome = true ∧
      e.renderTexture.isSome = true ∧
      (render_chunk_tiles s e).1
        = { e with isDirty := false, isLoaded := true, lastUpdateFrame := s.currentFrame } ∧
      (render_chunk_tiles s e).2 ≠ []) := by
  by_cases h1 : s.tilemap.isSome = true
  · by_cases h2 : s.atlas.isSome = true
    · by_cases h3 : s.renderer.isSome = true
      · by_cases h4 : e.renderTexture.isSome = true
        · exact Or.inr ⟨h1, h2, h3, h4, render_chunk_tiles_of_guard s e h1 h2 h3 h4⟩
        · left
          unfold render_chunk_tiles
          cases h : e.renderTexture with
          | some t => simp [h] at h4
          | none => cases s.tilemap <;> cases s.atlas <;> cases s.renderer <;> simp
      · left
        unfold render_chunk_tiles
        cases h : s.renderer with
        | some t => simp [h] at h3
        | none => cases s.tilemap <;> cases s.atlas <;> cases e.renderTexture <;> simp
    · left
      unfold render_chunk_tiles
      cases h : s.atlas with
      | some t => simp [h] at h2
      | none => cases s.tilemap <;> cases s.renderer <;> cases e.renderTexture <;> simp
  · left
    unfold render_chunk_tiles
    cases h : s.tilemap with
    | some t => simp [h] at h1
    | none => cases s.atlas <;> cases s.renderer <;> cases e.renderTexture <;> simp

theorem render_chunk_tiles_renderTexture (s : ChunkRenderSystem) (e : ChunkRenderData) :
    (render_chunk_tiles s e).1.renderTexture = e.renderTexture := by
  rcases render_chunk_tiles_cases s e with h | h
  · rw [h.1]
  · rw [h.2.2.2.2.1]

theorem render_chunk_tiles_isLoaded (s : ChunkRenderSystem) (e : ChunkRenderData)
    (h : e.isLoaded = true) : (render_chunk_tiles s e).1.isLoaded = true := by
  rcases render_chunk_tiles_cases s e with h' | h'
  · rw [h'.1]; exact h
  · rw [h'.2.2.2.2.1]

theorem IntCoord_eta (v : IntCoord) : (⟨v.x, v.y⟩ : IntCoord) = v := by
  cases v; rfl

theorem update_step_get_other (HAS : Bool) (mgr : Option ChunkManagerSystem)
    (st : ChunkRenderSystem × List RenderCall) (v k : IntCoord) (hne : v ≠ k) :
    Table_get (update_step HAS mgr st v).1.chunks k = Table_get st.1.chunks k := by
  unfold update_step
  apply update_chunk_get_other
  rw [IntCoord_eta]
  exact hne

theorem update_step_get_same (HAS : Bool) (mgr : Option ChunkManagerSystem)
    (st : ChunkRenderSystem × List RenderCall) (v : IntCoord) :
    Table_get (update_step HAS mgr st v).1.chunks v =
      some (if needs_render HAS mgr
            ((Table_get st.1.chunks v).getD (new_chunk st.1 v.x v.y)) v.x v.y then
          { (render_chunk_tiles st.1
              ((Table_get st.1.chunks v).getD (new_chunk st.1 v.x v.y))).1 with
            isDirty := false }
        else (Table_get st.1.chunks v).getD (new_chunk st.1 v.x v.y)) := by
  have h := update_chunk_get_same HAS mgr st v.x v.y
  rw [get_or_create_chunk_entry, IntCoord_eta] at h
  exact h

theorem update_step_calls (HAS : Bool) (mgr : Option ChunkManagerSystem)
    (st : ChunkRenderSystem × List RenderCall) (v : IntCoord) :
    (update_step HAS mgr st v).2 =
      st.2 ++ (if needs_render HAS mgr
            ((Table_get st.1.chunks v).getD (new_chunk st.1 v.x v.y)) v.x v.y then
          [⟨v, (render_chunk_tiles st.1
              ((Table_get st.1.chunks v).getD (new_chunk st.1 v.x v.y))).2⟩]
        else []) := by
  have h := update_chunk_calls HAS mgr st v.x v.y
  rw [get_or_create_chunk_entry, IntCoord_eta] at h
  exact h

theorem update_step_system (HAS : Bool) (mgr : Option ChunkManagerSystem)
    (st : ChunkRenderSystem × List RenderCall) (v : IntCoord) :
    (update_step HAS mgr st v).1
      = { st.1 with chunks := (update_step HAS mgr st v).1.chunks } :=
  update_chunk_system HAS mgr st v.x v.y

theorem invocation_count_append (l : List RenderCall) (c : RenderCall) (k : IntCoord) :
    invocation_count (l ++ [c]) k = invocation_count l k + (if c.coord = k then 1 else 0) := by
  unfold invocation_count
  rw [List.countP_append, List.countP_singleton]
  simp

theorem rasterization_count_append (l : List RenderCall) (c : RenderCall) (k : IntCoord) :
    rasterization_count (l ++ [c]) k
      = rasterization_count l k + (if c.coord = k ∧ c.calls ≠ [] then 1 else 0) := by
  unfold rasterization_count
  rw [List.countP_append, List.countP_singleton]
  simp

theorem rasterization_count_le_invocation_count (l : List RenderCall) (k : IntCoord) :
    rasterization_count l k ≤ invocation_count l k := by
  unfold rasterization_count invocation_count
  apply List.countP_mono_left
  intro c _ h
  simp only [decide_eq_true_eq] at h ⊢
  exact h.1

/-! ### Invariants of the update scan -/

/-- The scan leaves alone the cell of a coordinate it does not visit. -/
theorem foldl_update_step_untouched (HAS : Bool) (mgr : Option ChunkManagerSystem)
    (vs : List IntCoord) (st : ChunkRenderSystem × List RenderCall) (k : IntCoord)
    (hk : k ∉ vs) :
    Table_get (vs.foldl (update_step HAS mgr) st).1.chunks k = Table_get st.1.chunks k ∧
    invocation_count (vs.foldl (update_step HAS mgr) st).2 k = invocation_count st.2 k ∧
    rasterization_count (vs.foldl (update_step HAS mgr) st).2 k
      = rasterization_count st.2 k := by
  induction vs generalizing st with
  | nil => exact ⟨rfl, rfl, rfl⟩
  | cons v vs ih =>
    rw [List.mem_cons, not_or] at hk
    have hv : v ≠ k := fun h => hk.1 h.symm
    rw [List.foldl_cons]
    obtain ⟨h1, h2, h3⟩ := ih (update_step HAS mgr st v) hk.2
    rw [h1, h2, h3, update_step_get_other HAS mgr st v k hv, update_step_calls]
    refine ⟨rfl, ?_⟩
    split
    · rw [invocation_count_append, rasterization_count_append]; simp [hv]
    · simp

/-- The scan leaves alone an entry that the decision rule does not send to the rasterizer, however
often it visits it. -/
theorem foldl_update_step_clean (HAS : Bool) (mgr : Option ChunkManagerSystem)
    (vs : List IntCoord) (st : ChunkRenderSystem × List RenderCall) (k : IntCoord)
    (e : ChunkRenderData) (he : Table_get st.1.chunks k = some e)
    (hclean : needs_render HAS mgr e k.x k.y = false) :
    Table_get (vs.foldl (update_step HAS mgr) st).1.chunks k = some e ∧
    invocation_count (vs.foldl (update_step HAS mgr) st).2 k = invocation_count st.2 k ∧
    rasterization_count (vs.foldl (update_step HAS mgr) st).2 k
      = rasterization_count st.2 k := by
  induction vs generalizing st with
  | nil => exact ⟨he, rfl, rfl⟩
  | cons v vs ih =>
    rw [List.foldl_cons]
    by_cases hv : v = k
    · subst hv
      have hget : Table_get (update_step HAS mgr st v).1.chunks v = some e := by
        rw [update_step_get_same, he]
        simp [hclean]
      have hcalls : (update_step HAS mgr st v).2 = st.2 := by
        rw [update_step_calls, he]
        simp [hclean]
      obtain ⟨h1, h2, h3⟩ := ih (update_step HAS mgr st v) hget
      rw [h1, h2, h3, hcalls]
      exact ⟨rfl, rfl, rfl⟩
    · have hget : Table_get (update_step HAS mgr st v).1.chunks k = some e := by
        rw [update_step_get_other HAS mgr st v k hv]; exact he
      obtain ⟨h1, h2, h3⟩ := ih (update_step HAS mgr st v) hget
      rw [h1, h2, h3, update_step_calls]
      refine ⟨rfl, ?_⟩
      split
      · rw [invocation_count_append, rasterization_count_append]; simp [hv]
      · simp

/-- The invocations recorded by the scan only grow. -/
theorem foldl_update_step_count_mono (HAS : Bool) (mgr : Option ChunkManagerSystem)
    (vs : List IntCoord) (st : ChunkRenderSystem × List RenderCall) (k : IntCoord) :
    invocation_count st.2 k ≤ invocation_count (vs.foldl (update_step HAS mgr) st).2 k ∧
    rasterization_count st.2 k ≤ rasterization_count (vs.foldl (update_step HAS mgr) st).2 k := by
  induction vs generalizing st with
  | nil => exact ⟨le_refl _, le_refl _⟩
  | cons v vs ih =>
    rw [List.foldl_cons]
    obtain ⟨h1, h2⟩ := ih (update_step HAS mgr st v)
    have h3 : invocation_count st.2 k ≤ invocation_count (update_step HAS mgr st v).2 k ∧
        rasterization_count st.2 k ≤ rasterization_count (update_step HAS mgr st v).2 k := by
      rw [update_step_calls]
      split
      · rw [invocation_count_append, rasterization_count_append]
        exact ⟨Nat.le_add_right _ _, Nat.le_add_right _ _⟩
      · simp
    exact ⟨le_trans h3.1 h1, le_trans h3.2 h2⟩

theorem needs_render_of_not_loaded (HAS : Bool) (mgr : Option ChunkManagerSystem)
    (e : ChunkRenderData) (x y : Int) (h : e.isLoaded = false) :
    needs_render HAS mgr e x y = true := by
  unfold needs_render
  cases HAS <;> cases mgr <;> simp [h]

theorem needs_render_of_clean (HAS : Bool) (e : ChunkRenderData) (x y : Int)
    (h1 : e.isLoaded = true) (h2 : e.isDirty = false) :
    needs_render HAS none e x y = false := by
  unfold needs_render
  cases HAS <;> simp [h1, h2]

theorem needs_render_of_dirty (HAS : Bool) (e : ChunkRenderData) (x y : Int)
    (h : e.isDirty = true) : needs_render HAS none e x y = true := by
  unfold needs_render
  cases HAS <;> simp [h]

theorem new_chunk_config (s : ChunkRenderSystem) (T : List (IntCoord × ChunkRenderData))
    (x y : Int) : new_chunk { s with chunks := T } x y = new_chunk s x y := rfl

/-- A loaded entry stays loaded through the scan. -/
theorem foldl_update_step_isLoaded (HAS : Bool) (mgr : Option ChunkManagerSystem)
    (vs : List IntCoord) (st : ChunkRenderSystem × List RenderCall) (k : IntCoord)
    (h : ∃ e, Table_get st.1.chunks k = some e ∧ e.isLoaded = true) :
    ∃ e, Table_get (vs.foldl (update_step HAS mgr) st).1.chunks k = some e ∧
      e.isLoaded = true := by
  induction vs generalizing st with
  | nil => exact h
  | cons v vs ih =>
    rw [List.foldl_cons]
    apply ih
    obtain ⟨e, he, hl⟩ := h
    by_cases hv : v = k
    · subst hv
      rw [update_step_get_same, he]
      simp only [Option.getD_some]
      split
      · exact ⟨_, rfl, render_chunk_tiles_isLoaded st.1 e hl⟩
      · exact ⟨_, rfl, hl⟩
    · rw [update_step_get_other HAS mgr st v k hv]
      exact ⟨e, he, hl⟩

/-- With tilemap, atlas and renderer present, the scan loads every coordinate it visits whose
entry, if it had one, has a backing surface. -/
theorem foldl_update_step_loads (HAS : Bool) (mgr : Option ChunkManagerSystem)
    (vs : List IntCoord) (st : ChunkRenderSystem × List RenderCall) (k : IntCoord)
    (h1 : st.1.tilemap.isSome = true) (h2 : st.1.atlas.isSome = true)
    (h3 : st.1.renderer.isSome = true) (hk : k ∈ vs)
    (hsurf : ∀ e, Table_get st.1.chunks k = some e → e.renderTexture.isSome = true) :
    ∃ e, Table_get (vs.foldl (update_step HAS mgr) st).1.chunks k = some e ∧
      e.isLoaded = true := by
  induction vs generalizing st with
  | nil => simp at hk
  | cons v vs ih =>
    rw [List.foldl_cons]
    by_cases hv : v = k
    · subst hv
      apply foldl_update_step_isLoaded
      rw [update_step_get_same]
      have hsurf0 : ((Table_get st.1.chunks v).getD (new_chunk st.1 v.x v.y)).renderTexture.isSome
          = true := by
        cases hget : Table_get st.1.chunks v with
        | some e => simpa using hsurf e hget
        | none =>
          obtain ⟨r, hr⟩ := Option.isSome_iff_exists.1 h3
          simp [new_chunk, hr]
      cases hl : ((Table_get st.1.chunks v).getD (new_chunk st.1 v.x v.y)).isLoaded with
      | true =>
        split
        · exact ⟨_, rfl, render_chunk_tiles_isLoaded st.1 _ hl⟩
        · exact ⟨_, rfl, hl⟩
      | false =>
        rw [needs_render_of_not_loaded HAS mgr _ v.x v.y hl]
        simp only [if_true]
        refine ⟨_, rfl, ?_⟩
        rw [(render_chunk_tiles_of_guard st.1 _ h1 h2 h3 hsurf0).1]
    · rw [List.mem_cons] at hk
      have hk' : k ∈ vs := by
        rcases hk with h | h
        · exact absurd h.symm hv
        · exact h
      have hsys := update_step_system HAS mgr st v
      apply ih (update_step HAS mgr st v) _ _ _ hk'
      · intro e he
        rw [update_step_get_other HAS mgr st v k hv] at he
        exact hsurf e he
      · rw [hsys]; exact h1
      · rw [hsys]; exact h2
      · rw [hsys]; exact h3

/-- A visited entry that the decision rule sends to the rasterizer gets an invocation. -/
theorem foldl_update_step_invoked (HAS : Bool) (mgr : Option ChunkManagerSystem)
    (vs : List IntCoord) (st : ChunkRenderSystem × List RenderCall) (k : IntCoord)
    (hk : k ∈ vs)
    (hneeds : needs_render HAS mgr
      ((Table_get st.1.chunks k).getD (new_chunk st.1 k.x k.y)) k.x k.y = true) :
    invocation_count st.2 k < invocation_count (vs.foldl (update_step HAS mgr) st).2 k := by
  induction vs generalizing st with
  | nil => simp at hk
  | cons v vs ih =>
    rw [List.foldl_cons]
    by_cases hv : v = k
    · subst hv
      have hmono := (foldl_update_step_count_mono HAS mgr vs (update_step HAS mgr st v) v).1
      have hstep : invocation_count (update_step HAS mgr st v).2 v
          = invocation_count st.2 v + 1 := by
        rw [update_step_calls, hneeds]
        simp only [if_true]
        rw [invocation_count_append]
        simp
      omega
    · rw [List.mem_cons] at hk
      have hk' : k ∈ vs := by
        rcases hk with h | h
        · exact absurd h.symm hv
        · exact h
      have hsys := update_step_system HAS mgr st v
      have hstep : invocation_count st.2 k ≤ invocation_count (update_step HAS mgr st v).2 k :=
        (foldl_update_step_count_mono HAS mgr [v] st k).1
      have := ih (update_step HAS mgr st v) hk' (by
        rw [update_step_get_other HAS mgr st v k hv, hsys, new_chunk_config]
        exact hneeds)
      omega

/-- Without a chunk manager, a visited entry with its dirty flag set, its surface present and
tilemap, atlas and renderer present is rasterized exactly once by the scan, which leaves it loaded
and clean. -/
theorem foldl_update_step_once (HAS : Bool) (vs : List IntCoord)
    (st : ChunkRenderSystem × List RenderCall) (k : IntCoord) (e : ChunkRenderData)
    (he : Table_get st.1.chunks k = some e) (hdirty : e.isDirty = true)
    (h1 : st.1.tilemap.isSome = true) (h2 : st.1.atlas.isSome = true)
    (h3 : st.1.renderer.isSome = true) (h4 : e.renderTexture.isSome = true) (hk : k ∈ vs) :
    rasterization_count (vs.foldl (update_step HAS none) st).2 k
        = rasterization_count st.2 k + 1 ∧
    invocation_count (vs.foldl (update_step HAS none) st).2 k = invocation_count st.2 k + 1 ∧
    Table_get (vs.foldl (update_step HAS none) st).1.chunks k
        = some { e with isDirty := false, isLoaded := true,
                        lastUpdateFrame := st.1.currentFrame } := by
  induction vs generalizing st with
  | nil => simp at hk
  | cons v vs ih =>
    rw [List.foldl_cons]
    by_cases hv : v = k
    · subst hv
      have hneeds := needs_render_of_dirty HAS e v.x v.y hdirty
      obtain ⟨hr1, hr2⟩ := render_chunk_tiles_of_guard st.1 e h1 h2 h3 h4
      have hget : Table_get (update_step HAS none st v).1.chunks v
          = some { e with isDirty := false, isLoaded := true,
                          lastUpdateFrame := st.1.currentFrame } := by
        rw [update_step_get_same, he]
        simp only [Option.getD_some, hneeds, if_true, hr1]
      have hcalls : (update_step HAS none st v).2
          = st.2 ++ [⟨v, (render_chunk_tiles st.1 e).2⟩] := by
        rw [update_step_calls, he]
        simp only [Option.getD_some, hneeds, if_true]
      obtain ⟨c1, c2, c3⟩ := foldl_update_step_clean HAS none vs (update_step HAS none st v) v _
        hget (needs_render_of_clean HAS _ v.x v.y rfl rfl)
      rw [c1, c2, c3, hcalls, rasterization_count_append, invocation_count_append]
      simp [hr2]
    · rw [List.mem_cons] at hk
      have hk' : k ∈ vs := by
        rcases hk with h | h
        · exact absurd h.symm hv
        · exact h
      have hsys := update_step_system HAS none st v
      have hget : Table_get (update_step HAS none st v).1.chunks k = some e := by
        rw [update_step_get_other HAS none st v k hv]; exact he
      obtain ⟨i1, i2, i3⟩ := ih (update_step HAS none st v) hget
        (by rw [hsys]; exact h1) (by rw [hsys]; exact h2) (by rw [hsys]; exact h3) hk'
      have hfr : (update_step HAS none st v).1.currentFrame = st.1.currentFrame := by
        rw [hsys]
      rw [i1, i2, i3, hfr, update_step_calls]
      refine ⟨?_, ?_, rfl⟩
      · split
        · rw [rasterization_count_append]; simp [hv]
        · simp
      · split
        · rw [invocation_count_append]; simp [hv]
        · simp

/-! ### Reachable states -/

theorem update_step_rasterizable (HAS : Bool) (mgr : Option ChunkManagerSystem)
    (st : ChunkRenderSystem × List RenderCall) (v : IntCoord)
    (h : loaded_entries_rasterizable st.1) :
    loaded_entries_rasterizable (update_step HAS mgr st v).1 := by
  intro k e he hl
  have hsys := update_step_system HAS mgr st v
  have hfields : (update_step HAS mgr st v).1.tilemap = st.1.tilemap ∧
      (update_step HAS mgr st v).1.atlas = st.1.atlas ∧
      (update_step HAS mgr st v).1.renderer = st.1.renderer := by
    rw [hsys]; exact ⟨rfl, rfl, rfl⟩
  rw [hfields.1, hfields.2.1, hfields.2.2]
  by_cases hv : v = k
  · subst hv
    rw [update_step_get_same] at he
    have hold : ∀ e0, (Table_get st.1.chunks v).getD (new_chunk st.1 v.x v.y) = e0 →
        e0.isLoaded = true →
        st.1.tilemap.isSome = true ∧ st.1.atlas.isSome = true ∧
          st.1.renderer.isSome = true ∧ e0.renderTexture.isSome = true := by
      intro e0 he0 hl0
      cases hget : Table_get st.1.chunks v with
      | some e1 =>
        rw [hget] at he0
        simp only [Option.getD_some] at he0
        subst he0
        exact h v e1 hget hl0
      | none =>
        rw [hget] at he0
        simp only [Option.getD_none] at he0
        subst he0
        simp [new_chunk] at hl0
    split at he
    · simp only [Option.some.injEq] at he
      subst he
      rcases render_chunk_tiles_cases st.1
        ((Table_get st.1.chunks v).getD (new_chunk st.1 v.x v.y)) with hc | hc
      · rw [hc.1] at hl ⊢
        exact hold ((Table_get st.1.chunks v).getD (new_chunk st.1 v.x v.y)) rfl hl
      · rw [hc.2.2.2.2.1]
        exact ⟨hc.1, hc.2.1, hc.2.2.1, hc.2.2.2.1⟩
    · simp only [Option.some.injEq] at he
      subst he
      exact hold _ rfl hl
  · rw [update_step_get_other HAS mgr st v k hv] at he
    exact h k e he hl

theorem foldl_update_step_rasterizable (HAS : Bool) (mgr : Option ChunkManagerSystem)
    (vs : List IntCoord) (st : ChunkRenderSystem × List RenderCall)
    (h : loaded_entries_rasterizable st.1) :
    loaded_entries_rasterizable (vs.foldl (update_step HAS mgr) st).1 := by
  induction vs generalizing st with
  | nil => exact h
  | cons v vs ih =>
    rw [List.foldl_cons]
    exact ih _ (update_step_rasterizable HAS mgr st v h)

theorem mark_chunk_dirty_get (s : ChunkRenderSystem) (tileX tileY : Int) (k : IntCoord) :
    Table_get (ChunkRenderSystem_mark_chunk_dirty s tileX tileY).chunks k =
      if k = ⟨(get_chunk_coord s tileX tileY).1, (get_chunk_coord s tileX tileY).2⟩ then
        (Table_get s.chunks k).map (fun chunk => { chunk with isDirty := true })
      else Table_get s.chunks k := by
  unfold ChunkRenderSystem_mark_chunk_dirty
  simp only []
  cases hget : Table_get s.chunks
      ⟨(get_chunk_coord s tileX tileY).1, (get_chunk_coord s tileX tileY).2⟩ with
  | none =>
    simp only []
    split
    · next h => rw [h, hget]; rfl
    · rfl
  | some e =>
    simp only []
    split
    · next h => rw [h, hget, Table_get_put_same]; rfl
    · next h => exact Table_get_put_other _ _ _ _ (fun h' => h h'.symm)

theorem mark_chunk_dirty_system (s : ChunkRenderSystem) (tileX tileY : Int) :
    ChunkRenderSystem_mark_chunk_dirty s tileX tileY
      = { s with chunks := (ChunkRenderSystem_mark_chunk_dirty s tileX tileY).chunks } := by
  unfold ChunkRenderSystem_mark_chunk_dirty
  simp only []
  cases Table_get s.chunks
      ⟨(get_chunk_coord s tileX tileY).1, (get_chunk_coord s tileX tileY).2⟩ <;> rfl

theorem add_entity_observer_chunks (s : ChunkRenderSystem) (ecs : ECS) (entity : EntityId)
    (pid : ComponentTypeId) :
    ChunkRenderSystem_add_entity_observer s ecs entity pid =
      { s with
        observers := (ChunkRenderSystem_add_entity_observer s ecs entity pid).observers
        observerCapacity :=
          (ChunkRenderSystem_add_entity_observer s ecs entity pid).observerCapacity } := by
  unfold ChunkRenderSystem_add_entity_observer
  split <;> rfl

theorem add_manual_observer_chunks (s : ChunkRenderSystem) (tileX tileY : Int) :
    ChunkRenderSystem_add_manual_observer s tileX tileY =
      { s with
        observers := (ChunkRenderSystem_add_manual_observer s tileX tileY).observers
        observerCapacity :=
          (ChunkRenderSystem_add_manual_observer s tileX tileY).observerCapacity } := by
  unfold ChunkRenderSystem_add_manual_observer
  split <;> rfl

theorem remove_entity_observer_chunks (s : ChunkRenderSystem) (entity : EntityId) :
    ChunkRenderSystem_remove_entity_observer s entity =
      { s with observers := (ChunkRenderSystem_remove_entity_observer s entity).observers } := by
  unfold ChunkRenderSystem_remove_entity_observer
  split <;> rfl

theorem remove_manual_observer_chunks (s : ChunkRenderSystem) (tileX tileY : Int) :
    ChunkRenderSystem_remove_manual_observer s tileX tileY =
      { s with
        observers := (ChunkRenderSystem_remove_manual_observer s tileX tileY).observers } := by
  unfold ChunkRenderSystem_remove_manual_observer
  split <;> rfl

theorem render_system (s : ChunkRenderSystem) (ecs : ECS) (pid : ComponentTypeId)
    (camera : Option CameraHandle) (aspectFit : Option AspectFitHandle) :
    (ChunkRenderSystem_render s ecs pid camera aspectFit).1 = s := by
  unfold ChunkRenderSystem_render
  split <;> rfl

/-- In every reachable state a loaded entry has its surface, and tilemap, atlas and renderer are
present. -/
theorem reachable_rasterizable (HAS : Bool) (s : ChunkRenderSystem) (h : Reachable HAS s) :
    loaded_entries_rasterizable s := by
  induction h with
  | init tilemap atlas renderer tileSize chunkSize renderRadius simulationRadius =>
    intro k e he
    simp [ChunkRenderSystem_init, Table_get] at he
  | add_entity_observer ecs entity pid _ ih =>
    rw [add_entity_observer_chunks]; exact ih
  | add_manual_observer tileX tileY _ ih =>
    rw [add_manual_observer_chunks]; exact ih
  | remove_entity_observer entity _ ih =>
    rw [remove_entity_observer_chunks]; exact ih
  | remove_manual_observer tileX tileY _ ih =>
    rw [remove_manual_observer_chunks]; exact ih
  | update ecs pid mgr _ ih =>
    rw [(ChunkRenderSystem_update_eq HAS _ ecs pid mgr).1]
    apply foldl_update_step_rasterizable
    exact ih
  | render ecs pid camera aspectFit _ ih =>
    rw [render_system]; exact ih
  | @mark_chunk_dirty s0 tileX tileY _ ih =>
    intro k e he hl
    rw [mark_chunk_dirty_system]
    rw [mark_chunk_dirty_get] at he
    split at he
    · cases hget : Table_get s0.chunks k with
      | none => rw [hget] at he; simp at he
      | some e0 =>
        rw [hget] at he
        simp only [Option.map_some', Option.some.injEq] at he
        subst he
        exact ih k e0 hget hl
    · exact ih k e he hl
  | cleanup _ ih => exact ih

/-! ### The update pass -/

theorem in_footprint_of_offset (s : ChunkRenderSystem) (ecs : ECS) (pid : ComponentTypeId)
    (observer : Observer) (dx dy : Int) (hobs : observer ∈ s.observers)
    (hradius : 0 ≤ s.renderRadius)
    (hdist : dx * dx + dy * dy ≤ s.renderRadius * s.renderRadius) :
    in_footprint s ecs pid
      ⟨(get_chunk_coord s (get_observer_tile_pos s observer ecs pid).1
          (get_observer_tile_pos s observer ecs pid).2).1 + dx,
        (get_chunk_coord s (get_observer_tile_pos s observer ecs pid).1
          (get_observer_tile_pos s observer ecs pid).2).2 + dy⟩ := by
  refine ⟨observer, hobs, dx, dy, ?_, ?_, ?_, ?_, hdist, rfl, rfl⟩
  · nlinarith [sq_nonneg dy, sq_nonneg (dx + s.renderRadius)]
  · nlinarith [sq_nonneg dy, sq_nonneg (dx - s.renderRadius)]
  · nlinarith [sq_nonneg dx, sq_nonneg (dy + s.renderRadius)]
  · nlinarith [sq_nonneg dx, sq_nonneg (dy - s.renderRadius)]

/-- C4 (as stated, refuted): the update pass does not load the chunk of an observer when the
renderer is absent (the rasterizer returns at its guard), it visits no chunk when the render
radius is negative although `0 * 0 + 0 * 0 ≤ renderRadius * renderRadius`, and it leaves unloaded a
cached entry without backing surface. -/
theorem update_leaves_unloaded :
    (Observer.manual 0 0 ∈ example_observed.observers ∧
      (0 : Int) * 0 + 0 * 0 ≤ example_observed.renderRadius * example_observed.renderRadius ∧
      get_chunk_coord example_observed 0 0 = (0, 0) ∧
      (Table_get (ChunkRenderSystem_update true example_observed ⟨[]⟩ 0 none).system.chunks
        ⟨0 + 0, 0 + 0⟩).map (fun e => e.isLoaded) = some false) ∧
    (Observer.manual 0 0 ∈ negative_radius_observed.observers ∧
      (0 : Int) * 0 + 0 * 0
        ≤ negative_radius_observed.renderRadius * negative_radius_observed.renderRadius ∧
      get_chunk_coord negative_radius_observed 0 0 = (0, 0) ∧
      Table_get (ChunkRenderSystem_update true negative_radius_observed ⟨[]⟩ 0 none).system.chunks
        ⟨0 + 0, 0 + 0⟩ = none) ∧
    (Observer.manual 0 0 ∈ surfaceless_observed.observers ∧
      (0 : Int) * 0 + 0 * 0
        ≤ surfaceless_observed.renderRadius * surfaceless_observed.renderRadius ∧
      get_chunk_coord surfaceless_observed 0 0 = (0, 0) ∧
      (Table_get (ChunkRenderSystem_update true surfaceless_observed ⟨[]⟩ 0 none).system.chunks
        ⟨0 + 0, 0 + 0⟩).map (fun e => e.isLoaded) = some false) := by
  refine ⟨⟨?_, ?_, ?_, ?_⟩, ⟨?_, ?_, ?_, ?_⟩, ⟨?_, ?_, ?_, ?_⟩⟩ <;> decide

/-- C4 (amended): in a state with tilemap, atlas and renderer present and a render radius that is
not negative, for every registered observer and every offset `(dx, dy)` from its chunk with
`dx * dx + dy * dy ≤ renderRadius * renderRadius`, if the entry cached for that chunk coordinate,
when there is one, has a backing surface, then after one update pass the cache has an entry for
the coordinate and the entry is loaded. -/
theorem update_loads_footprint (HAS : Bool) (s : ChunkRenderSystem) (ecs : ECS)
    (pid : ComponentTypeId) (mgr : Option ChunkManagerSystem) (observer : Observer)
    (dx dy : Int) (hobs : observer ∈ s.observers)
    (htilemap : s.tilemap.isSome = true) (hatlas : s.atlas.isSome = true)
    (hrenderer : s.renderer.isSome = true) (hradius : 0 ≤ s.renderRadius)
    (hdist : dx * dx + dy * dy ≤ s.renderRadius * s.renderRadius)
    (hsurface : ∀ e,
      Table_get s.chunks
        ⟨(get_chunk_coord s (get_observer_tile_pos s observer ecs pid).1
            (get_observer_tile_pos s observer ecs pid).2).1 + dx,
          (get_chunk_coord s (get_observer_tile_pos s observer ecs pid).1
            (get_observer_tile_pos s observer ecs pid).2).2 + dy⟩ = some e →
      e.renderTexture.isSome = true) :
    ∃ e,
      Table_get (ChunkRenderSystem_update HAS s ecs pid mgr).system.chunks
        ⟨(get_chunk_coord s (get_observer_tile_pos s observer ecs pid).1
            (get_observer_tile_pos s observer ecs pid).2).1 + dx,
          (get_chunk_coord s (get_observer_tile_pos s observer ecs pid).1
            (get_observer_tile_pos s observer ecs pid).2).2 + dy⟩ = some e ∧
      e.isLoaded = true := by
  have hfoot := in_footprint_of_offset s ecs pid observer dx dy hobs hradius hdist
  rw [← mem_scan_visits] at hfoot
  rw [(ChunkRenderSystem_update_eq HAS s ecs pid mgr).1]
  exact foldl_update_step_loads HAS mgr _ _ _ htilemap hatlas hrenderer hfoot hsurface

/-- The instance of C4 (amended) at `two_observers`, the observer at the tile `(1, 0)` and the
offset `(0, -1)`: the chunk `(0, -1)` is loaded after the update pass. -/
theorem update_loads_footprint_witness :
    Observer.manual 1 0 ∈ two_observers.observers ∧
    get_chunk_coord two_observers 1 0 = (0, 0) ∧
    Table_get two_observers.chunks ⟨0, -1⟩ = none ∧
    ∃ e,
      Table_get (ChunkRenderSystem_update true two_observers ⟨[]⟩ 0 none).system.chunks
        ⟨0 + 0, 0 + -1⟩ = some e ∧
      e.isLoaded = true :=
  ⟨by decide, by decide, by decide,
    update_loads_footprint true two_observers ⟨[]⟩ 0 none (Observer.manual 1 0) 0 (-1)
      (by decide) (by decide) (by decide) (by decide) (by decide) (by decide)
      (by
        intro e he
        have hnone : Table_get two_observers.chunks ⟨0, -1⟩ = none := by decide
        have he' : Table_get two_observers.chunks ⟨0, -1⟩ = some e := he
        rw [hnone] at he'
        cases he')⟩

/-- An update pass neither invokes the rasterizer on nor changes a cached entry that the decision
rule does not send to the rasterizer. -/
theorem update_clean_entry (HAS : Bool) (s : ChunkRenderSystem) (ecs : ECS)
    (pid : ComponentTypeId) (mgr : Option ChunkManagerSystem) (k : IntCoord)
    (e : ChunkRenderData) (hentry : Table_get s.chunks k = some e)
    (hneeds : needs_render HAS mgr e k.x k.y = false) :
    rasterization_count (ChunkRenderSystem_update HAS s ecs pid mgr).renderCalls k = 0 ∧
    invocation_count (ChunkRenderSystem_update HAS s ecs pid mgr).renderCalls k = 0 ∧
    Table_get (ChunkRenderSystem_update HAS s ecs pid mgr).system.chunks k = some e := by
  obtain ⟨h1, h2⟩ := ChunkRenderSystem_update_eq HAS s ecs pid mgr
  rw [h1, h2]
  obtain ⟨c1, c2, c3⟩ := foldl_update_step_clean HAS mgr (scan_visits s ecs pid)
    ({ s with currentFrame := (s.currentFrame + 1) % 2 ^ 64 }, []) k e hentry hneeds
  exact ⟨c3, c2, c1⟩

theorem needs_render_of_clean_unreported (HAS : Bool) (mgr : Option ChunkManagerSystem)
    (e : ChunkRenderData) (k : IntCoord) (hloaded : e.isLoaded = true)
    (hclean : e.isDirty = false)
    (hmanager : ∀ m, mgr = some m → ChunkManagerSystem_is_chunk_dirty HAS m k.x k.y = false) :
    needs_render HAS mgr e k.x k.y = false := by
  unfold needs_render
  cases HAS
  · simp [hloaded, hclean]
  · cases mgr with
    | none => simp [hloaded, hclean]
    | some m => simp [hloaded, hmanager m rfl]

/-- C5: an update pass does not rasterize a cached entry that is loaded, has its dirty flag clear
and, when a chunk manager is supplied, is not reported dirty by it: the pass neither invokes the
rasterizer on it nor rasterizes it, and leaves the entry as it was (so `isDirty`, `isLoaded` and
`lastUpdateFrame` are unchanged), whatever the observers are. -/
theorem update_skips_clean_chunk (HAS : Bool) (s : ChunkRenderSystem) (ecs : ECS)
    (pid : ComponentTypeId) (mgr : Option ChunkManagerSystem) (k : IntCoord)
    (e : ChunkRenderData) (hentry : Table_get s.chunks k = some e)
    (hloaded : e.isLoaded = true) (hclean : e.isDirty = false)
    (hmanager : ∀ m, mgr = some m → ChunkManagerSystem_is_chunk_dirty HAS m k.x k.y = false) :
    rasterization_count (ChunkRenderSystem_update HAS s ecs pid mgr).renderCalls k = 0 ∧
    invocation_count (ChunkRenderSystem_update HAS s ecs pid mgr).renderCalls k = 0 ∧
    Table_get (ChunkRenderSystem_update HAS s ecs pid mgr).system.chunks k = some e :=
  update_clean_entry HAS s ecs pid mgr k e hentry
    (needs_render_of_clean_unreported HAS mgr e k hloaded hclean hmanager)

/-- The instance of C5 at `two_observers_loaded`, where the chunk `(0, 0)` is loaded and clean and
lies in the footprint of both observers, with a chunk manager that reports another chunk. -/
theorem update_skips_clean_chunk_witness :
    Table_get two_observers_loaded.chunks ⟨0, 0⟩ = some (loaded_entry 0 0) ∧
    in_footprint two_observers_loaded ⟨[]⟩ 0 ⟨0, 0⟩ ∧
    (rasterization_count
        (ChunkRenderSystem_update true two_observers_loaded ⟨[]⟩ 0
          (some ⟨[⟨5, 5⟩]⟩)).renderCalls ⟨0, 0⟩ = 0 ∧
      invocation_count
        (ChunkRenderSystem_update true two_observers_loaded ⟨[]⟩ 0
          (some ⟨[⟨5, 5⟩]⟩)).renderCalls ⟨0, 0⟩ = 0 ∧
      Table_get
        (ChunkRenderSystem_update true two_observers_loaded ⟨[]⟩ 0
          (some ⟨[⟨5, 5⟩]⟩)).system.chunks ⟨0, 0⟩ = some (loaded_entry 0 0)) :=
  ⟨by decide,
    ⟨Observer.manual 0 0, by decide, 0, 0, by decide, by decide, by decide, by decide,
      by decide, by decide, by decide⟩,
    update_skips_clean_chunk true two_observers_loaded ⟨[]⟩ 0 (some ⟨[⟨5, 5⟩]⟩) ⟨0, 0⟩
      (loaded_entry 0 0) (by decide) (by decide) (by decide)
      (by intro m hm; cases hm; decide)⟩

/-- The example of C9: with `chunkSize = 64`, `tileSize = 16`, `renderRadius = 1`, an empty cache
and one manual observer at the tile `(0, 0)`, the cache after the update pass holds the chunks
`(0, 0)`, `(1, 0)`, `(-1, 0)`, `(0, 1)`, `(0, -1)` and no other; `(1, 1)` is not created. -/
theorem update_creates_exactly_footprint_example :
    example_observed.chunks = [] ∧
    (ChunkRenderSystem_update true example_observed ⟨[]⟩ 0 none).system.chunks.map (fun c => c.1)
      = [⟨0, -1⟩, ⟨-1, 0⟩, ⟨0, 0⟩, ⟨1, 0⟩, ⟨0, 1⟩] ∧
    Table_get (ChunkRenderSystem_update true example_observed ⟨[]⟩ 0 none).system.chunks ⟨1, 1⟩
      = none := by
  refine ⟨?_, ?_, ?_⟩ <;> decide

theorem scan_visits_mark_chunk_dirty (s : ChunkRenderSystem) (tileX tileY : Int) (ecs : ECS)
    (pid : ComponentTypeId) :
    scan_visits (ChunkRenderSystem_mark_chunk_dirty s tileX tileY) ecs pid
      = scan_visits s ecs pid := by
  rw [mark_chunk_dirty_system]; rfl

/-- C6: in a reachable state, for a loaded chunk in the footprint of a registered observer,
marking a tile of the chunk dirty and then running an update pass without chunk manager
rasterizes the chunk exactly once, whatever the number of observers whose footprint holds it, and
leaves it loaded with its dirty flag clear; a further update pass, for any positions of the
observers and any chunk manager that does not report the chunk, rasterizes it zero times. -/
theorem mark_dirty_then_update_rasterizes_once (HAS : Bool) (s : ChunkRenderSystem) (ecs : ECS)
    (pid : ComponentTypeId) (tileX tileY : Int) (e : ChunkRenderData)
    (hreach : Reachable HAS s)
    (hentry : Table_get s.chunks
      ⟨(get_chunk_coord s tileX tileY).1, (get_chunk_coord s tileX tileY).2⟩ = some e)
    (hloaded : e.isLoaded = true)
    (hfoot : in_footprint s ecs pid
      ⟨(get_chunk_coord s tileX tileY).1, (get_chunk_coord s tileX tileY).2⟩) :
    rasterization_count
      (ChunkRenderSystem_update HAS (ChunkRenderSystem_mark_chunk_dirty s tileX tileY)
        ecs pid none).renderCalls
      ⟨(get_chunk_coord s tileX tileY).1, (get_chunk_coord s tileX tileY).2⟩ = 1 ∧
    (∃ e', Table_get
        (ChunkRenderSystem_update HAS (ChunkRenderSystem_mark_chunk_dirty s tileX tileY)
          ecs pid none).system.chunks
        ⟨(get_chunk_coord s tileX tileY).1, (get_chunk_coord s tileX tileY).2⟩ = some e' ∧
      e'.isDirty = false ∧ e'.isLoaded = true) ∧
    (∀ (ecs' : ECS) (pid' : ComponentTypeId) (mgr' : Option ChunkManagerSystem),
      (∀ m, mgr' = some m →
        ChunkManagerSystem_is_chunk_dirty HAS m (get_chunk_coord s tileX tileY).1
          (get_chunk_coord s tileX tileY).2 = false) →
      rasterization_count
        (ChunkRenderSystem_update HAS
          (ChunkRenderSystem_update HAS (ChunkRenderSystem_mark_chunk_dirty s tileX tileY)
            ecs pid none).system ecs' pid' mgr').renderCalls
        ⟨(get_chunk_coord s tileX tileY).1, (get_chunk_coord s tileX tileY).2⟩ = 0) := by
  obtain ⟨r1, r2, r3, r4⟩ := reachable_rasterizable HAS s hreach _ e hentry hloaded
  have hget : Table_get (ChunkRenderSystem_mark_chunk_dirty s tileX tileY).chunks
      ⟨(get_chunk_coord s tileX tileY).1, (get_chunk_coord s tileX tileY).2⟩
      = some { e with isDirty := true } := by
    rw [mark_chunk_dirty_get, if_pos rfl, hentry]; rfl
  have hsys := mark_chunk_dirty_system s tileX tileY
  have hres : (ChunkRenderSystem_mark_chunk_dirty s tileX tileY).tilemap.isSome = true ∧
      (ChunkRenderSystem_mark_chunk_dirty s tileX tileY).atlas.isSome = true ∧
      (ChunkRenderSystem_mark_chunk_dirty s tileX tileY).renderer.isSome = true := by
    rw [hsys]; exact ⟨r1, r2, r3⟩
  have hvis : (⟨(get_chunk_coord s tileX tileY).1, (get_chunk_coord s tileX tileY).2⟩ : IntCoord)
      ∈ scan_visits (ChunkRenderSystem_mark_chunk_dirty s tileX tileY) ecs pid := by
    rw [scan_visits_mark_chunk_dirty, mem_scan_visits]; exact hfoot
  obtain ⟨u1, u2⟩ := ChunkRenderSystem_update_eq HAS
    (ChunkRenderSystem_mark_chunk_dirty s tileX tileY) ecs pid none
  obtain ⟨o1, _, o3⟩ := foldl_update_step_once HAS
    (scan_visits (ChunkRenderSystem_mark_chunk_dirty s tileX tileY) ecs pid)
    ({ ChunkRenderSystem_mark_chunk_dirty s tileX tileY with
        currentFrame :=
          ((ChunkRenderSystem_mark_chunk_dirty s tileX tileY).currentFrame + 1) % 2 ^ 64 }, [])
    ⟨(get_chunk_coord s tileX tileY).1, (get_chunk_coord s tileX tileY).2⟩
    { e with isDirty := true } hget rfl hres.1 hres.2.1 hres.2.2 r4 hvis
  rw [← u1] at o3
  rw [← u2] at o1
  refine ⟨?_, ⟨_, o3, rfl, rfl⟩, ?_⟩
  · rw [o1]; rfl
  · intro ecs' pid' mgr' hmgr
    exact (update_clean_entry HAS _ ecs' pid' mgr' _ _ o3
      (needs_render_of_clean_unreported HAS mgr' _ _ rfl rfl hmgr)).1

theorem two_observers_loaded_reachable : Reachable true two_observers_loaded :=
  Reachable.update ⟨[]⟩ 0 none
    (Reachable.add_manual_observer 1 0
      (Reachable.add_manual_observer 0 0
        (Reachable.init (some small_tilemap) (some small_atlas) (some ⟨0⟩) 16 2 1 10)))

/-- The instance of C6 at `two_observers_loaded` and the tile `(1, 1)` of the chunk `(0, 0)`,
which lies in the footprint of both observers. -/
theorem mark_dirty_then_update_rasterizes_once_witness :
    get_chunk_coord two_observers_loaded 1 1 = (0, 0) ∧
    Table_get two_observers_loaded.chunks ⟨0, 0⟩ = some (loaded_entry 0 0) ∧
    Table_get (ChunkRenderSystem_mark_chunk_dirty two_observers_loaded 1 1).chunks ⟨0, 0⟩
      = some { loaded_entry 0 0 with isDirty := true } ∧
    rasterization_count
      (ChunkRenderSystem_update true (ChunkRenderSystem_mark_chunk_dirty two_observers_loaded 1 1)
        ⟨[]⟩ 0 none).renderCalls
      ⟨(get_chunk_coord two_observers_loaded 1 1).1,
        (get_chunk_coord two_observers_loaded 1 1).2⟩ = 1 :=
  ⟨by decide, by decide, by decide,
    (mark_dirty_then_update_rasterizes_once true two_observers_loaded ⟨[]⟩ 0 1 1
      (loaded_entry 0 0) two_observers_loaded_reachable (by decide) (by decide)
      ⟨Observer.manual 0 0, by decide, 0, 0, by decide, by decide, by decide, by decide,
        by decide, by decide, by decide⟩).1⟩

/-- C7 (the code at the failing input): with the chunk manager compiled in, two observers whose
footprints hold the loaded chunk `(0, 0)` and a chunk manager that reports this chunk dirty, one
update pass rasterizes the chunk twice, once for each observer; after the pass the entry is loaded
and clean and the dirty list of the manager is empty. -/
theorem manager_dirty_chunk_rasterized_twice :
    two_observers_loaded.observers = [Observer.manual 0 0, Observer.manual 1 0] ∧
    Table_get two_observers_loaded.chunks ⟨0, 0⟩ = some (loaded_entry 0 0) ∧
    ChunkManagerSystem_is_chunk_dirty true ⟨[⟨0, 0⟩]⟩ 0 0 = true ∧
    rasterization_count
      (ChunkRenderSystem_update true two_observers_loaded ⟨[]⟩ 0
        (some ⟨[⟨0, 0⟩]⟩)).renderCalls ⟨0, 0⟩ = 2 ∧
    Table_get
      (ChunkRenderSystem_update true two_observers_loaded ⟨[]⟩ 0
        (some ⟨[⟨0, 0⟩]⟩)).system.chunks ⟨0, 0⟩
      = some { loaded_entry 0 0 with lastUpdateFrame := 2 } ∧
    (ChunkRenderSystem_update true two_observers_loaded ⟨[]⟩ 0
      (some ⟨[⟨0, 0⟩]⟩)).chunkManager = some ⟨[]⟩ := by
  refine ⟨?_, ?_, ?_, ?_, ?_, ?_⟩ <;> decide

/-- The decision of lines 287-300 spelled out: the rasterizer is invoked on an entry that is not
loaded, on one the chunk manager reports when the manager is compiled in and supplied, and on one
with its dirty flag set when no chunk manager is consulted. -/
theorem needs_render_iff (HAS : Bool) (mgr : Option ChunkManagerSystem) (e : ChunkRenderData)
    (k : IntCoord) :
    needs_render HAS mgr e k.x k.y = true ↔
      e.isLoaded = false ∨
      (HAS = true ∧ ∃ m, mgr = some m ∧ k ∈ m.dirty) ∨
      ((HAS = false ∨ mgr = none) ∧ e.isDirty = true) := by
  unfold needs_render ChunkManagerSystem_is_chunk_dirty
  rw [IntCoord_eta]
  cases HAS <;> cases mgr <;> cases h1 : e.isLoaded <;> cases h2 : e.isDirty <;> simp

/-- A visited entry that the decision rule sends to the rasterizer is rasterized when tilemap,
atlas, renderer and the surface of the entry are present. -/
theorem foldl_update_step_rasterized (HAS : Bool) (mgr : Option ChunkManagerSystem)
    (vs : List IntCoord) (st : ChunkRenderSystem × List RenderCall) (k : IntCoord)
    (hk : k ∈ vs)
    (h1 : st.1.tilemap.isSome = true) (h2 : st.1.atlas.isSome = true)
    (h3 : st.1.renderer.isSome = true)
    (hsurf : ∀ e, Table_get st.1.chunks k = some e → e.renderTexture.isSome = true)
    (hneeds : needs_render HAS mgr
      ((Table_get st.1.chunks k).getD (new_chunk st.1 k.x k.y)) k.x k.y = true) :
    rasterization_count st.2 k
      < rasterization_count (vs.foldl (update_step HAS mgr) st).2 k := by
  induction vs generalizing st with
  | nil => simp at hk
  | cons v vs ih =>
    rw [List.foldl_cons]
    by_cases hv : v = k
    · subst hv
      have hmono := (foldl_update_step_count_mono HAS mgr vs (update_step HAS mgr st v) v).2
      have hsurf0 : ((Table_get st.1.chunks v).getD (new_chunk st.1 v.x v.y)).renderTexture.isSome
          = true := by
        cases hget : Table_get st.1.chunks v with
        | some e => simpa using hsurf e hget
        | none =>
          obtain ⟨r, hr⟩ := Option.isSome_iff_exists.1 h3
          simp [new_chunk, hr]
      have hstep : rasterization_count (update_step HAS mgr st v).2 v
          = rasterization_count st.2 v + 1 := by
        rw [update_step_calls, hneeds]
        simp only [if_true]
        rw [rasterization_count_append]
        simp [(render_chunk_tiles_of_guard st.1 _ h1 h2 h3 hsurf0).2]
      omega
    · rw [List.mem_cons] at hk
      have hk' : k ∈ vs := by
        rcases hk with h | h
        · exact absurd h.symm hv
        · exact h
      have hsys := update_step_system HAS mgr st v
      have hstep : rasterization_count st.2 k
          ≤ rasterization_count (update_step HAS mgr st v).2 k :=
        (foldl_update_step_count_mono HAS mgr [v] st k).2
      have := ih (update_step HAS mgr st v) hk' (by rw [hsys]; exact h1)
        (by rw [hsys]; exact h2) (by rw [hsys]; exact h3)
        (by
          intro e he
          rw [update_step_get_other HAS mgr st v k hv] at he
          exact hsurf e he)
        (by
          rw [update_step_get_other HAS mgr st v k hv, hsys, new_chunk_config]
          exact hneeds)
      omega

/-- C8 (as stated, refuted): with the chunk manager compiled in and a chunk manager supplied that
reports no chunk, an update pass does not invoke the rasterizer on the loaded entry of the chunk
`(0, 0)`, which has its dirty flag set and lies in the footprint of both observers; the flag is
still set after the pass. -/
theorem update_with_manager_ignores_dirty_flag :
    Table_get two_observers_marked.chunks ⟨0, 0⟩
      = some { loaded_entry 0 0 with isDirty := true } ∧
    get_chunk_coord two_observers_marked 0 0 = (0, 0) ∧
    Observer.manual 0 0 ∈ two_observers_marked.observers ∧
    ChunkManagerSystem_is_chunk_dirty true ⟨[]⟩ 0 0 = false ∧
    invocation_count
      (ChunkRenderSystem_update true two_observers_marked ⟨[]⟩ 0 (some ⟨[]⟩)).renderCalls
      ⟨0, 0⟩ = 0 ∧
    rasterization_count
      (ChunkRenderSystem_update true two_observers_marked ⟨[]⟩ 0 (some ⟨[]⟩)).renderCalls
      ⟨0, 0⟩ = 0 ∧
    Table_get
      (ChunkRenderSystem_update true two_observers_marked ⟨[]⟩ 0 (some ⟨[]⟩)).system.chunks
      ⟨0, 0⟩ = some { loaded_entry 0 0 with isDirty := true } := by
  refine ⟨?_, ?_, ?_, ?_, ?_, ?_, ?_⟩ <;> decide

/-- C8 (amended): for a chunk coordinate in the footprint of a registered observer, an update pass
invokes the rasterizer on the chunk if and only if its entry is absent or not yet loaded, or the
chunk manager is compiled in and supplied and reports the chunk dirty, or no chunk manager is
consulted and the dirty flag of the entry is set; with tilemap, atlas, renderer and the surface of
a cached entry present, this is also when the pass rasterizes the chunk. -/
theorem update_invokes_rasterizer_iff (HAS : Bool) (s : ChunkRenderSystem) (ecs : ECS)
    (pid : ComponentTypeId) (mgr : Option ChunkManagerSystem) (k : IntCoord)
    (hfoot : in_footprint s ecs pid k) :
    (0 < invocation_count (ChunkRenderSystem_update HAS s ecs pid mgr).renderCalls k ↔
      ∀ e, Table_get s.chunks k = some e →
        e.isLoaded = false ∨
        (HAS = true ∧ ∃ m, mgr = some m ∧ k ∈ m.dirty) ∨
        ((HAS = false ∨ mgr = none) ∧ e.isDirty = true)) ∧
    (s.tilemap.isSome = true → s.atlas.isSome = true → s.renderer.isSome = true →
      (∀ e, Table_get s.chunks k = some e → e.renderTexture.isSome = true) →
      (0 < rasterization_count (ChunkRenderSystem_update HAS s ecs pid mgr).renderCalls k ↔
        ∀ e, Table_get s.chunks k = some e →
          e.isLoaded = false ∨
          (HAS = true ∧ ∃ m, mgr = some m ∧ k ∈ m.dirty) ∨
          ((HAS = false ∨ mgr = none) ∧ e.isDirty = true))) := by
  have hvis : k ∈ scan_visits s ecs pid := (mem_scan_visits s ecs pid k).2 hfoot
  have hrule : needs_render HAS mgr
      ((Table_get s.chunks k).getD (new_chunk s k.x k.y)) k.x k.y = true ↔
      ∀ e, Table_get s.chunks k = some e →
        e.isLoaded = false ∨
        (HAS = true ∧ ∃ m, mgr = some m ∧ k ∈ m.dirty) ∨
        ((HAS = false ∨ mgr = none) ∧ e.isDirty = true) := by
    cases hget : Table_get s.chunks k with
    | none =>
      simp only [Option.getD_none]
      constructor
      · intro _ e he; cases he
      · intro _
        exact needs_render_of_not_loaded HAS mgr _ k.x k.y rfl
    | some e0 =>
      simp only [Option.getD_some, Option.some.injEq]
      rw [needs_render_iff]
      constructor
      · intro h e he; subst he; exact h
      · intro h; exact h e0 rfl
  have hzero : needs_render HAS mgr
      ((Table_get s.chunks k).getD (new_chunk s k.x k.y)) k.x k.y = false →
      invocation_count (ChunkRenderSystem_update HAS s ecs pid mgr).renderCalls k = 0 := by
    intro hn
    cases hget : Table_get s.chunks k with
    | none =>
      rw [hget] at hn
      simp only [Option.getD_none] at hn
      rw [needs_render_of_not_loaded HAS mgr _ k.x k.y rfl] at hn
      cases hn
    | some e0 =>
      rw [hget] at hn
      simp only [Option.getD_some] at hn
      rw [(ChunkRenderSystem_update_eq HAS s ecs pid mgr).2]
      exact (foldl_update_step_clean HAS mgr (scan_visits s ecs pid)
        ({ s with currentFrame := (s.currentFrame + 1) % 2 ^ 64 }, []) k e0 hget hn).2.1
  constructor
  · rw [← hrule]
    constructor
    · intro hpos
      by_contra hn
      rw [Bool.not_eq_true] at hn
      rw [hzero hn] at hpos
      exact absurd hpos (by decide)
    · intro hn
      rw [(ChunkRenderSystem_update_eq HAS s ecs pid mgr).2]
      exact lt_of_le_of_lt (Nat.zero_le _)
        (foldl_update_step_invoked HAS mgr (scan_visits s ecs pid)
          ({ s with currentFrame := (s.currentFrame + 1) % 2 ^ 64 }, []) k hvis hn)
  · intro h1 h2 h3 hsurf
    rw [← hrule]
    constructor
    · intro hpos
      by_contra hn
      rw [Bool.not_eq_true] at hn
      have hle := rasterization_count_le_invocation_count
        (ChunkRenderSystem_update HAS s ecs pid mgr).renderCalls k
      rw [hzero hn] at hle
      omega
    · intro hn
      rw [(ChunkRenderSystem_update_eq HAS s ecs pid mgr).2]
      exact lt_of_le_of_lt (Nat.zero_le _)
        (foldl_update_step_rasterized HAS mgr (scan_visits s ecs pid)
          ({ s with currentFrame := (s.currentFrame + 1) % 2 ^ 64 }, []) k hvis h1 h2 h3 hsurf hn)

/-- The instance of C8 (amended) at `two_observers_marked`, the chunk `(0, 0)` and a supplied
chunk manager that reports this chunk: the rasterizer is invoked on it. -/
theorem update_invokes_rasterizer_iff_witness :
    in_footprint two_observers_marked ⟨[]⟩ 0 ⟨0, 0⟩ ∧
    0 < invocation_count
      (ChunkRenderSystem_update true two_observers_marked ⟨[]⟩ 0
        (some ⟨[⟨0, 0⟩]⟩)).renderCalls ⟨0, 0⟩ :=
  ⟨⟨Observer.manual 0 0, by decide, 0, 0, by decide, by decide, by decide, by decide,
      by decide, by decide, by decide⟩,
    (update_invokes_rasterizer_iff true two_observers_marked ⟨[]⟩ 0 (some ⟨[⟨0, 0⟩]⟩) ⟨0, 0⟩
      ⟨Observer.manual 0 0, by decide, 0, 0, by decide, by decide, by decide, by decide,
        by decide, by decide, by decide⟩).1.2
      (fun _ _ => Or.inr (Or.inl ⟨rfl, ⟨[⟨0, 0⟩]⟩, rfl, by decide⟩))⟩

/-! ### The render pass -/

theorem render_observer_eq (s : ChunkRenderSystem) (r : Renderer) (ecs : ECS)
    (pid : ComponentTypeId) (st : List (IntCoord × Nat) × List CompositeDraw) (o : Observer) :
    render_observer s r ecs pid st o
      = (observer_visits s ecs pid o).foldl (render_step s r) st := by
  unfold render_observer observer_visits
  simp only []
  rw [foldl_offsets s.renderRadius
    (fun acc dx dy => render_chunk s r acc
      ((get_chunk_coord s (get_observer_tile_pos s o ecs pid).1
        (get_observer_tile_pos s o ecs pid).2).1 + dx)
      ((get_chunk_coord s (get_observer_tile_pos s o ecs pid).1
        (get_observer_tile_pos s o ecs pid).2).2 + dy)) st]
  rw [List.foldl_map]
  rfl

/-- The render pass is one fold of the scan step over the visited chunk coordinates. -/
theorem ChunkRenderSystem_render_eq (s : ChunkRenderSystem) (r : Renderer) (ecs : ECS)
    (pid : ComponentTypeId) (camera : Option CameraHandle) (aspectFit : Option AspectFitHandle)
    (hr : s.renderer = some r) (hc : camera.isSome = true) (ha : aspectFit.isSome = true) :
    (ChunkRenderSystem_render s ecs pid camera aspectFit).2
      = ((scan_visits s ecs pid).foldl (render_step s r) ([], [])).2 := by
  obtain ⟨c, rfl⟩ := Option.isSome_iff_exists.1 hc
  obtain ⟨a, rfl⟩ := Option.isSome_iff_exists.1 ha
  unfold ChunkRenderSystem_render scan_visits
  rw [hr]
  simp only []
  rw [foldl_flatMap_eq]
  congr 2
  funext st o
  exact render_observer_eq s r ecs pid st o

theorem render_step_of_rendered (s : ChunkRenderSystem) (r : Renderer)
    (st : List (IntCoord × Nat) × List CompositeDraw) (v : IntCoord)
    (h : (Table_get st.1 v).isSome = true) : render_step s r st v = st := by
  obtain ⟨n, hn⟩ := Option.isSome_iff_exists.1 h
  unfold render_step render_chunk
  simp only [IntCoord_eta, hn]

theorem render_step_of_new (s : ChunkRenderSystem) (r : Renderer)
    (st : List (IntCoord × Nat) × List CompositeDraw) (v : IntCoord)
    (h : Table_get st.1 v = none) :
    (render_step s r st v).1 = Table_put st.1 v 1 ∧
    ((is_drawable s r v = true ∧ ∃ d : CompositeDraw, d.coord = v ∧
        (render_step s r st v).2 = st.2 ++ [d]) ∨
      (is_drawable s r v = false ∧ (render_step s r st v).2 = st.2)) := by
  unfold render_step render_chunk is_drawable
  simp only [IntCoord_eta, h]
  cases hget : Table_get s.chunks v with
  | none => exact ⟨rfl, Or.inr ⟨rfl, rfl⟩⟩
  | some e =>
    simp only []
    cases hl : e.isLoaded with
    | false => exact ⟨rfl, Or.inr ⟨rfl, rfl⟩⟩
    | true =>
      simp only [if_true, Bool.true_and]
      cases ht : Renderer_get_render_texture_texture r e.renderTexture with
      | none => exact ⟨rfl, Or.inr ⟨rfl, rfl⟩⟩
      | some t => exact ⟨rfl, Or.inl ⟨rfl, _, rfl, rfl⟩⟩

theorem composite_count_append (l : List CompositeDraw) (d : CompositeDraw) (c : IntCoord) :
    composite_count (l ++ [d]) c = composite_count l c + (if d.coord = c then 1 else 0) := by
  unfold composite_count
  rw [List.countP_append, List.countP_singleton]
  simp

/-- The render scan composites a chunk coordinate once when it has reached it and the chunk is
drawable, and not at all otherwise. -/
theorem foldl_render_step_count (s : ChunkRenderSystem) (r : Renderer) (vs : List IntCoord)
    (st : List (IntCoord × Nat) × List CompositeDraw)
    (hst : ∀ c, composite_count st.2 c
      = if (Table_get st.1 c).isSome = true ∧ is_drawable s r c = true then 1 else 0) :
    (∀ c, composite_count (vs.foldl (render_step s r) st).2 c
      = if (Table_get (vs.foldl (render_step s r) st).1 c).isSome = true ∧
          is_drawable s r c = true then 1 else 0) ∧
    (∀ c, (Table_get (vs.foldl (render_step s r) st).1 c).isSome = true ↔
      (Table_get st.1 c).isSome = true ∨ c ∈ vs) := by
  induction vs generalizing st with
  | nil => exact ⟨hst, by simp⟩
  | cons v vs ih =>
    rw [List.foldl_cons]
    have hstep : (∀ c, composite_count (render_step s r st v).2 c
        = if (Table_get (render_step s r st v).1 c).isSome = true ∧
            is_drawable s r c = true then 1 else 0) ∧
        (∀ c, (Table_get (render_step s r st v).1 c).isSome = true ↔
          (Table_get st.1 c).isSome = true ∨ c = v) := by
      cases hget : Table_get st.1 v with
      | some n =>
        have hsome : (Table_get st.1 v).isSome = true := by rw [hget]; rfl
        rw [render_step_of_rendered s r st v hsome]
        refine ⟨hst, fun c => ?_⟩
        constructor
        · exact fun h => Or.inl h
        · rintro (h | h)
          · exact h
          · rw [h]; exact hsome
      | none =>
        obtain ⟨hrend, hdraws⟩ := render_step_of_new s r st v hget
        have hkeys : ∀ c, (Table_get (render_step s r st v).1 c).isSome = true ↔
            (Table_get st.1 c).isSome = true ∨ c = v := by
          intro c
          rw [hrend]
          by_cases hc : v = c
          · subst hc
            rw [Table_get_put_same]
            simp
          · rw [Table_get_put_other _ _ _ _ hc]
            constructor
            · exact fun h => Or.inl h
            · rintro (h | h)
              · exact h
              · exact absurd h.symm hc
        refine ⟨fun c => ?_, hkeys⟩
        have hkc := hkeys c
        by_cases hc : c = v
        · subst hc
          have h0 : composite_count st.2 c = 0 := by
            rw [hst c, hget]; simp
          have hsome : (Table_get (render_step s r st c).1 c).isSome = true :=
            hkc.2 (Or.inr rfl)
          rcases hdraws with ⟨hd, d, hdc, hd2⟩ | ⟨hd, hd2⟩
          · rw [hd2, composite_count_append, h0, hdc]
            simp [hd, hsome]
          · rw [hd2, h0]
            simp [hd]
        · have hsame : (Table_get (render_step s r st v).1 c).isSome
              = (Table_get st.1 c).isSome := by
            rw [hrend, Table_get_put_other _ _ _ _ (fun h => hc h.symm)]
          rw [hsame, ← hst c]
          rcases hdraws with ⟨_, d, hdc, hd2⟩ | ⟨_, hd2⟩
          · rw [hd2, composite_count_append, hdc]
            have hvc : ¬v = c := fun h => hc h.symm
            simp [hvc]
          · rw [hd2]
    obtain ⟨i1, i2⟩ := ih (render_step s r st v) hstep.1
    refine ⟨i1, fun c => ?_⟩
    rw [i2 c, hstep.2 c, List.mem_cons]
    constructor
    · rintro ((h | h) | h)
      · exact Or.inl h
      · exact Or.inr (Or.inl h)
      · exact Or.inr (Or.inr h)
    · rintro (h | h | h)
      · exact Or.inl (Or.inl h)
      · exact Or.inl (Or.inr h)
      · exact Or.inr h

/-- The number of composite draws of a render pass for a chunk coordinate: one when the
coordinate lies in the footprint of a registered observer and its cache entry is loaded and has a
texture handle, zero otherwise. -/
theorem render_composite_count (s : ChunkRenderSystem) (r : Renderer) (ecs : ECS)
    (pid : ComponentTypeId) (camera : Option CameraHandle) (aspectFit : Option AspectFitHandle)
    (hr : s.renderer = some r) (hc : camera.isSome = true) (ha : aspectFit.isSome = true)
    (c : IntCoord) :
    (in_footprint s ecs pid c ∧ is_drawable s r c = true →
      composite_count (ChunkRenderSystem_render s ecs pid camera aspectFit).2 c = 1) ∧
    (¬(in_footprint s ecs pid c ∧ is_drawable s r c = true) →
      composite_count (ChunkRenderSystem_render s ecs pid camera aspectFit).2 c = 0) := by
  rw [ChunkRenderSystem_render_eq s r ecs pid camera aspectFit hr hc ha]
  obtain ⟨h1, h2⟩ := foldl_render_step_count s r (scan_visits s ecs pid) ([], [])
    (by intro c; simp [composite_count, Table_get])
  rw [h1 c]
  have hiff : (Table_get ((scan_visits s ecs pid).foldl (render_step s r) ([], [])).1 c).isSome
      = true ↔ in_footprint s ecs pid c := by
    rw [h2 c, mem_scan_visits]
    simp [Table_get]
  constructor
  · intro h
    rw [if_pos ⟨hiff.2 h.1, h.2⟩]
  · intro h
    rw [if_neg (fun h' => h ⟨hiff.1 h'.1, h'.2⟩)]

/-- C10: with renderer, camera and viewport bound, one render pass issues at most one composite
draw for each chunk coordinate, whatever the number of observers and however their footprints
overlap, and exactly one for each coordinate in the footprint of a registered observer whose
cache entry is loaded and has a texture handle. -/
theorem render_composites_each_chunk_once (s : ChunkRenderSystem) (ecs : ECS)
    (pid : ComponentTypeId) (camera : Option CameraHandle) (aspectFit : Option AspectFitHandle)
    (r : Renderer) (hr : s.renderer = some r) (hc : camera.isSome = true)
    (ha : aspectFit.isSome = true) :
    (∀ c, composite_count (ChunkRenderSystem_render s ecs pid camera aspectFit).2 c ≤ 1) ∧
    (∀ c e, in_footprint s ecs pid c → Table_get s.chunks c = some e → e.isLoaded = true →
      (Renderer_get_render_texture_texture r e.renderTexture).isSome = true →
      composite_count (ChunkRenderSystem_render s ecs pid camera aspectFit).2 c = 1) := by
  constructor
  · intro c
    obtain ⟨h1, h2⟩ := render_composite_count s r ecs pid camera aspectFit hr hc ha c
    by_cases h : in_footprint s ecs pid c ∧ is_drawable s r c = true
    · rw [h1 h]
    · rw [h2 h]; exact Nat.zero_le 1
  · intro c e hfoot hget hl ht
    apply (render_composite_count s r ecs pid camera aspectFit hr hc ha c).1
    refine ⟨hfoot, ?_⟩
    unfold is_drawable
    rw [hget]
    simp [hl, ht]

/-- The instance of C10 at `two_observers_loaded`, whose two observers lie in the same chunk and
share their whole footprint: the ten visits of the render pass give five composite draws, one for
each loaded chunk. -/
theorem render_composites_each_chunk_once_witness :
    two_observers_loaded.renderer = some ⟨0⟩ ∧
    (scan_visits two_observers_loaded ⟨[]⟩ 0).length = 10 ∧
    (ChunkRenderSystem_render two_observers_loaded ⟨[]⟩ 0 (some ⟨0⟩) (some ⟨0⟩)).2.map
      (fun d => d.coord) = [⟨0, -1⟩, ⟨-1, 0⟩, ⟨0, 0⟩, ⟨1, 0⟩, ⟨0, 1⟩] ∧
    ((∀ c, composite_count
        (ChunkRenderSystem_render two_observers_loaded ⟨[]⟩ 0 (some ⟨0⟩) (some ⟨0⟩)).2 c ≤ 1) ∧
      (∀ c e, in_footprint two_observers_loaded ⟨[]⟩ 0 c →
        Table_get two_observers_loaded.chunks c = some e → e.isLoaded = true →
        (Renderer_get_render_texture_texture ⟨0⟩ e.renderTexture).isSome = true →
        composite_count
          (ChunkRenderSystem_render two_observers_loaded ⟨[]⟩ 0 (some ⟨0⟩) (some ⟨0⟩)).2 c
          = 1)) :=
  ⟨by decide, by decide, by decide,
    render_composites_each_chunk_once two_observers_loaded ⟨[]⟩ 0 (some ⟨0⟩) (some ⟨0⟩) ⟨0⟩
      (by decide) (by decide) (by decide)⟩

/-! ### The chunk manager path -/

theorem needs_render_of_reported (m : ChunkManagerSystem) (e : ChunkRenderData) (k : IntCoord)
    (hk : k ∈ m.dirty) : needs_render true (some m) e k.x k.y = true := by
  rw [needs_render_iff]
  exact Or.inr (Or.inl ⟨rfl, m, rfl, hk⟩)

/-- With the chunk manager compiled in and supplied, tilemap, atlas and renderer present, the
scan rasterizes a chunk that the manager reports dirty at every visit. -/
theorem foldl_update_step_reported (m : ChunkManagerSystem) (vs : List IntCoord)
    (st : ChunkRenderSystem × List RenderCall) (k : IntCoord) (hk : k ∈ m.dirty)
    (h1 : st.1.tilemap.isSome = true) (h2 : st.1.atlas.isSome = true)
    (h3 : st.1.renderer.isSome = true)
    (hsurf : ∀ e, Table_get st.1.chunks k = some e → e.renderTexture.isSome = true) :
    rasterization_count (vs.foldl (update_step true (some m)) st).2 k
      = rasterization_count st.2 k + vs.count k := by
  induction vs generalizing st with
  | nil => simp
  | cons v vs ih =>
    rw [List.foldl_cons]
    have hsys := update_step_system true (some m) st v
    by_cases hv : v = k
    · subst hv
      have hsurf0 : ((Table_get st.1.chunks v).getD (new_chunk st.1 v.x v.y)).renderTexture.isSome
          = true := by
        cases hget : Table_get st.1.chunks v with
        | some e => simpa using hsurf e hget
        | none =>
          obtain ⟨r, hr⟩ := Option.isSome_iff_exists.1 h3
          simp [new_chunk, hr]
      have hneeds := needs_render_of_reported m
        ((Table_get st.1.chunks v).getD (new_chunk st.1 v.x v.y)) v hk
      have hstep : rasterization_count (update_step true (some m) st v).2 v
          = rasterization_count st.2 v + 1 := by
        rw [update_step_calls, hneeds]
        simp only [if_true]
        rw [rasterization_count_append]
        simp [(render_chunk_tiles_of_guard st.1 _ h1 h2 h3 hsurf0).2]
      rw [ih (update_step true (some m) st v) (by rw [hsys]; exact h1) (by rw [hsys]; exact h2)
        (by rw [hsys]; exact h3)
        (by
          intro e he
          rw [update_step_get_same, hneeds] at he
          simp only [if_true, Option.some.injEq] at he
          subst he
          simp only []
          rw [render_chunk_tiles_renderTexture]
          exact hsurf0),
        hstep, List.count_cons_self]
      omega
    · have hstep : rasterization_count (update_step true (some m) st v).2 k
          = rasterization_count st.2 k := by
        rw [update_step_calls]
        split
        · rw [rasterization_count_append]; simp [hv]
        · simp
      rw [ih (update_step true (some m) st v) (by rw [hsys]; exact h1) (by rw [hsys]; exact h2)
        (by rw [hsys]; exact h3)
        (by
          intro e he
          rw [update_step_get_other true (some m) st v k hv] at he
          exact hsurf e he),
        hstep, List.count_cons_of_ne (fun h => hv h.symm)]

/-- With the chunk manager compiled in and supplied, tilemap, atlas and renderer present, an
update pass rasterizes a chunk that the manager reports dirty once for every visit of the scan,
that is once for every observer whose footprint holds the chunk. -/
theorem update_rasterizes_reported_chunk_per_visit (s : ChunkRenderSystem) (ecs : ECS)
    (pid : ComponentTypeId) (m : ChunkManagerSystem) (k : IntCoord) (hk : k ∈ m.dirty)
    (h1 : s.tilemap.isSome = true) (h2 : s.atlas.isSome = true) (h3 : s.renderer.isSome = true)
    (hsurf : ∀ e, Table_get s.chunks k = some e → e.renderTexture.isSome = true) :
    rasterization_count (ChunkRenderSystem_update true s ecs pid (some m)).renderCalls k
      = (scan_visits s ecs pid).count k := by
  rw [(ChunkRenderSystem_update_eq true s ecs pid (some m)).2,
    foldl_update_step_reported m (scan_visits s ecs pid)
      ({ s with currentFrame := (s.currentFrame + 1) % 2 ^ 64 }, []) k hk h1 h2 h3 hsurf]
  simp [rasterization_count]

/-! ### Single operations -/

theorem Reachable_step (HAS : Bool) (s s' : ChunkRenderSystem) (h : Reachable HAS s)
    (hstep : Step HAS s s') : Reachable HAS s' := by
  cases hstep with
  | add_entity_observer ecs entity pid => exact Reachable.add_entity_observer ecs entity pid h
  | add_manual_observer tileX tileY => exact Reachable.add_manual_observer tileX tileY h
  | remove_entity_observer entity => exact Reachable.remove_entity_observer entity h
  | remove_manual_observer tileX tileY => exact Reachable.remove_manual_observer tileX tileY h
  | update ecs pid mgr => exact Reachable.update ecs pid mgr h
  | render ecs pid camera aspectFit => exact Reachable.render ecs pid camera aspectFit h
  | mark_chunk_dirty tileX tileY => exact Reachable.mark_chunk_dirty tileX tileY h
  | cleanup => exact Reachable.cleanup h

theorem update_system (HAS : Bool) (s : ChunkRenderSystem) (ecs : ECS) (pid : ComponentTypeId)
    (mgr : Option ChunkManagerSystem) :
    (ChunkRenderSystem_update HAS s ecs pid mgr).system =
      { s with
        chunks := (ChunkRenderSystem_update HAS s ecs pid mgr).system.chunks
        currentFrame := (s.currentFrame + 1) % 2 ^ 64 } := by
  rw [(ChunkRenderSystem_update_eq HAS s ecs pid mgr).1]
  rw [foldl_update_step_system HAS mgr (scan_visits s ecs pid)
    ({ s with currentFrame := (s.currentFrame + 1) % 2 ^ 64 }, [])]

/-- C18: a call of `ChunkRenderSystem_update` adds one to `currentFrame` modulo `2 ^ 64`, whatever
the observers, the chunks rasterized and the chunk manager are; `ChunkRenderSystem_init` sets it
to `0`, and no other operation changes it. -/
theorem update_increments_frame_counter (HAS : Bool) (s : ChunkRenderSystem) (ecs : ECS)
    (pid : ComponentTypeId) (mgr : Option ChunkManagerSystem) :
    (ChunkRenderSystem_update HAS s ecs pid mgr).system.currentFrame
      = (s.currentFrame + 1) % 2 ^ 64 ∧
    (∀ tilemap atlas renderer tileSize chunkSize renderRadius simulationRadius,
      (ChunkRenderSystem_init tilemap atlas renderer tileSize chunkSize renderRadius
        simulationRadius).currentFrame = 0) ∧
    (∀ entity, (ChunkRenderSystem_add_entity_observer s ecs entity pid).currentFrame
      = s.currentFrame) ∧
    (∀ tileX tileY, (ChunkRenderSystem_add_manual_observer s tileX tileY).currentFrame
      = s.currentFrame) ∧
    (∀ entity, (ChunkRenderSystem_remove_entity_observer s entity).currentFrame
      = s.currentFrame) ∧
    (∀ tileX tileY, (ChunkRenderSystem_remove_manual_observer s tileX tileY).currentFrame
      = s.currentFrame) ∧
    (∀ camera aspectFit, (ChunkRenderSystem_render s ecs pid camera aspectFit).1.currentFrame
      = s.currentFrame) ∧
    (∀ tileX tileY, (ChunkRenderSystem_mark_chunk_dirty s tileX tileY).currentFrame
      = s.currentFrame) ∧
    (ChunkRenderSystem_cleanup s).currentFrame = s.currentFrame := by
  refine ⟨?_, ?_, ?_, ?_, ?_, ?_, ?_, ?_, rfl⟩
  · rw [update_system]
  · intros; rfl
  · intro entity; rw [add_entity_observer_chunks]
  · intro tileX tileY; rw [add_manual_observer_chunks]
  · intro entity; rw [remove_entity_observer_chunks]
  · intro tileX tileY; rw [remove_manual_observer_chunks]
  · intro camera aspectFit; rw [render_system]
  · intro tileX tileY; rw [mark_chunk_dirty_system]

/-- The instance of C18 at `two_observers_loaded`, whose frame counter is `1`, and at a state whose
frame counter is `2 ^ 64 - 1`, where the increment wraps to `0`. -/
theorem update_increments_frame_counter_witness :
    two_observers_loaded.currentFrame = 1 ∧
    (ChunkRenderSystem_update true two_observers_loaded ⟨[]⟩ 0 none).system.currentFrame = 2 ∧
    (ChunkRenderSystem_update true { example_system with currentFrame := 2 ^ 64 - 1 } ⟨[]⟩ 0
      none).system.currentFrame = 0 :=
  ⟨by decide,
    (update_increments_frame_counter true two_observers_loaded ⟨[]⟩ 0 none).1.trans (by decide),
    (update_increments_frame_counter true { example_system with currentFrame := 2 ^ 64 - 1 }
      ⟨[]⟩ 0 none).1.trans (by decide)⟩

/-- C19: `get_observer_tile_pos` returns the stored tile coordinate for a manual observer, and for
an entity observer the position that the position lookup gives, or `(0, 0)` when the lookup gives
none; it is a total function. -/
theorem get_observer_tile_pos_cases (s : ChunkRenderSystem) (ecs : ECS)
    (pid : ComponentTypeId) :
    (∀ tileX tileY, get_observer_tile_pos s (Observer.manual tileX tileY) ecs pid
      = (tileX, tileY)) ∧
    (∀ entityId pos, Position_get ecs entityId pid = some pos →
      get_observer_tile_pos s (Observer.entity entityId) ecs pid = (pos.x, pos.y)) ∧
    (∀ entityId, Position_get ecs entityId pid = none →
      get_observer_tile_pos s (Observer.entity entityId) ecs pid = (0, 0)) := by
  refine ⟨?_, ?_, ?_⟩
  · intro tileX tileY; rfl
  · intro entityId pos h
    simp [get_observer_tile_pos, h]
  · intro entityId h
    simp [get_observer_tile_pos, h]

/-- The instance of C19 at an entity store that holds the position `(5, -3)` for the entity
`(0, 7)` and none for the entity `(0, 8)`. -/
theorem get_observer_tile_pos_cases_witness :
    get_observer_tile_pos example_system (Observer.manual 4 (-9))
      ⟨[((⟨0, 7⟩, 0), ⟨5, -3⟩)]⟩ 0 = (4, -9) ∧
    get_observer_tile_pos example_system (Observer.entity ⟨0, 7⟩)
      ⟨[((⟨0, 7⟩, 0), ⟨5, -3⟩)]⟩ 0 = (5, -3) ∧
    get_observer_tile_pos example_system (Observer.entity ⟨0, 8⟩)
      ⟨[((⟨0, 7⟩, 0), ⟨5, -3⟩)]⟩ 0 = (0, 0) :=
  ⟨(get_observer_tile_pos_cases example_system ⟨[((⟨0, 7⟩, 0), ⟨5, -3⟩)]⟩ 0).1 4 (-9),
    (get_observer_tile_pos_cases example_system ⟨[((⟨0, 7⟩, 0), ⟨5, -3⟩)]⟩ 0).2.1 ⟨0, 7⟩
      ⟨5, -3⟩ (by decide),
    (get_observer_tile_pos_cases example_system ⟨[((⟨0, 7⟩, 0), ⟨5, -3⟩)]⟩ 0).2.2 ⟨0, 8⟩
      (by decide)⟩

theorem Table_put_keys {β : Type} (t : List (IntCoord × β)) (k : IntCoord) (v : β)
    (h : (Table_get t k).isSome = true) :
    (Table_put t k v).map Prod.fst = t.map Prod.fst := by
  induction t with
  | nil => simp [Table_get] at h
  | cons hd tl ih =>
    obtain ⟨k0, v0⟩ := hd
    by_cases hk : k0 = k
    · simp [Table_put, hk]
    · simp only [Table_get, hk, if_false] at h
      simp [Table_put, hk, ih h]

/-- C15: `ChunkRenderSystem_mark_chunk_dirty` sets the dirty flag of the cache entry of the chunk
of the tile, when there is one, and changes nothing else: the other fields of that entry, every
other entry, the keys of the cache, the observers and the frame counter stay as they were; when
the chunk has no entry the call changes nothing and creates no entry. -/
theorem mark_chunk_dirty_sets_flag_only (s : ChunkRenderSystem) (tileX tileY : Int) :
    (∀ e, Table_get s.chunks
        ⟨(get_chunk_coord s tileX tileY).1, (get_chunk_coord s tileX tileY).2⟩ = some e →
      Table_get (ChunkRenderSystem_mark_chunk_dirty s tileX tileY).chunks
        ⟨(get_chunk_coord s tileX tileY).1, (get_chunk_coord s tileX tileY).2⟩
        = some { e with isDirty := true }) ∧
    (∀ k, k ≠ (⟨(get_chunk_coord s tileX tileY).1, (get_chunk_coord s tileX tileY).2⟩
        : IntCoord) →
      Table_get (ChunkRenderSystem_mark_chunk_dirty s tileX tileY).chunks k
        = Table_get s.chunks k) ∧
    (ChunkRenderSystem_mark_chunk_dirty s tileX tileY).chunks.map Prod.fst
      = s.chunks.map Prod.fst ∧
    (ChunkRenderSystem_mark_chunk_dirty s tileX tileY).observers = s.observers ∧
    (ChunkRenderSystem_mark_chunk_dirty s tileX tileY).currentFrame = s.currentFrame ∧
    ChunkRenderSystem_mark_chunk_dirty s tileX tileY
      = { s with chunks := (ChunkRenderSystem_mark_chunk_dirty s tileX tileY).chunks } ∧
    (Table_get s.chunks
        ⟨(get_chunk_coord s tileX tileY).1, (get_chunk_coord s tileX tileY).2⟩ = none →
      ChunkRenderSystem_mark_chunk_dirty s tileX tileY = s) := by
  refine ⟨?_, ?_, ?_, ?_, ?_, mark_chunk_dirty_system s tileX tileY, ?_⟩
  · intro e he
    rw [mark_chunk_dirty_get, if_pos rfl, he]; rfl
  · intro k hk
    rw [mark_chunk_dirty_get, if_neg hk]
  · unfold ChunkRenderSystem_mark_chunk_dirty
    simp only []
    cases hget : Table_get s.chunks
        ⟨(get_chunk_coord s tileX tileY).1, (get_chunk_coord s tileX tileY).2⟩ with
    | none => rfl
    | some e =>
      simp only []
      exact Table_put_keys _ _ _ (by rw [hget]; rfl)
  · rw [mark_chunk_dirty_system]
  · rw [mark_chunk_dirty_system]
  · intro hnone
    unfold ChunkRenderSystem_mark_chunk_dirty
    simp only [hnone]

/-- The instance of C15 at `two_observers_loaded`: marking the tile `(1, 1)` sets the dirty flag
of the entry of the chunk `(0, 0)`, and marking the tile `(40, 40)`, whose chunk `(20, 20)` has no
entry, changes nothing. -/
theorem mark_chunk_dirty_sets_flag_only_witness :
    Table_get two_observers_loaded.chunks ⟨0, 0⟩ = some (loaded_entry 0 0) ∧
    Table_get (ChunkRenderSystem_mark_chunk_dirty two_observers_loaded 1 1).chunks
      ⟨(get_chunk_coord two_observers_loaded 1 1).1, (get_chunk_coord two_observers_loaded 1 1).2⟩
      = some { loaded_entry 0 0 with isDirty := true } ∧
    get_chunk_coord two_observers_loaded 40 40 = (20, 20) ∧
    ChunkRenderSystem_mark_chunk_dirty two_observers_loaded 40 40 = two_observers_loaded :=
  ⟨by decide,
    (mark_chunk_dirty_sets_flag_only two_observers_loaded 1 1).1 (loaded_entry 0 0) (by decide),
    by decide,
    (mark_chunk_dirty_sets_flag_only two_observers_loaded 40 40).2.2.2.2.2.2 (by decide)⟩

/-- C16 (as stated, refuted): without a renderer `get_or_create_chunk` gives the entry it creates
no backing surface. -/
theorem get_or_create_chunk_without_renderer :
    example_system.renderer = none ∧
    Table_get example_system.chunks ⟨0, 0⟩ = none ∧
    (get_or_create_chunk example_system 0 0).2.renderTexture = none := by
  refine ⟨?_, ?_, ?_⟩ <;> decide

/-- C16 (amended): when the cache has an entry for `(chunkX, chunkY)`, `get_or_create_chunk`
returns it and leaves the system as it was; otherwise it stores under the key `(chunkX, chunkY)`
and returns an entry with these coordinates, its dirty flag set, not loaded, last updated in frame
`0`, and with a backing surface of width and height `chunkSize * tileSize` when the renderer is
present and with none when it is absent, and it leaves every other entry and the rest of the
system as they were. -/
theorem get_or_create_chunk_effect (s : ChunkRenderSystem) (chunkX chunkY : Int) :
    (∀ e, Table_get s.chunks ⟨chunkX, chunkY⟩ = some e →
      get_or_create_chunk s chunkX chunkY = (s, e)) ∧
    (Table_get s.chunks ⟨chunkX, chunkY⟩ = none →
      Table_get (get_or_create_chunk s chunkX chunkY).1.chunks ⟨chunkX, chunkY⟩
        = some (get_or_create_chunk s chunkX chunkY).2 ∧
      (get_or_create_chunk s chunkX chunkY).2.chunkX = chunkX ∧
      (get_or_create_chunk s chunkX chunkY).2.chunkY = chunkY ∧
      (get_or_create_chunk s chunkX chunkY).2.isDirty = true ∧
      (get_or_create_chunk s chunkX chunkY).2.isLoaded = false ∧
      (get_or_create_chunk s chunkX chunkY).2.lastUpdateFrame = 0 ∧
      (s.renderer.isSome = true →
        ∃ t, (get_or_create_chunk s chunkX chunkY).2.renderTexture = some t ∧
          t.width = s.chunkSize * s.tileSize ∧ t.height = s.chunkSize * s.tileSize) ∧
      (s.renderer = none → (get_or_create_chunk s chunkX chunkY).2.renderTexture = none) ∧
      (∀ k, k ≠ (⟨chunkX, chunkY⟩ : IntCoord) →
        Table_get (get_or_create_chunk s chunkX chunkY).1.chunks k = Table_get s.chunks k) ∧
      (get_or_create_chunk s chunkX chunkY).1
        = { s with chunks := (get_or_create_chunk s chunkX chunkY).1.chunks }) := by
  refine ⟨fun e he => get_or_create_chunk_of_some s chunkX chunkY e he, ?_⟩
  intro hnone
  refine ⟨get_or_create_chunk_get_same s chunkX chunkY, ?_, ?_, ?_, ?_, ?_, ?_, ?_, ?_,
    get_or_create_chunk_system s chunkX chunkY⟩
  · rw [get_or_create_chunk_of_none s chunkX chunkY hnone]; rfl
  · rw [get_or_create_chunk_of_none s chunkX chunkY hnone]; rfl
  · rw [get_or_create_chunk_of_none s chunkX chunkY hnone]; rfl
  · rw [get_or_create_chunk_of_none s chunkX chunkY hnone]; rfl
  · rw [get_or_create_chunk_of_none s chunkX chunkY hnone]; rfl
  · intro hr
    obtain ⟨r, hr⟩ := Option.isSome_iff_exists.1 hr
    rw [get_or_create_chunk_of_none s chunkX chunkY hnone]
    refine ⟨Renderer_create_render_texture r (s.chunkSize * s.tileSize)
      (s.chunkSize * s.tileSize), ?_, rfl, rfl⟩
    simp [new_chunk, hr]
  · intro hr
    rw [get_or_create_chunk_of_none s chunkX chunkY hnone]
    simp [new_chunk, hr]
  · intro k hk
    exact get_or_create_chunk_get_other s chunkX chunkY k (fun h => hk h.symm)

/-- The instance of C16 (amended) at `small_system`, whose cache is empty and whose renderer is
present: the entry created for the chunk `(3, -2)` has a surface of 32 by 32 pixels. -/
theorem get_or_create_chunk_effect_witness :
    Table_get small_system.chunks ⟨3, -2⟩ = none ∧
    (get_or_create_chunk small_system 3 (-2)).2
      = { chunkX := 3, chunkY := -2, renderTexture := some ⟨32, 32, true⟩, isDirty := true,
          isLoaded := false, lastUpdateFrame := 0 } ∧
    Table_get (get_or_create_chunk small_system 3 (-2)).1.chunks ⟨3, -2⟩
      = some (get_or_create_chunk small_system 3 (-2)).2 :=
  ⟨by decide, by decide,
    ((get_or_create_chunk_effect small_system 3 (-2)).2 (by decide)).1⟩

/-! ### Observer registry -/

theorem is_entity_observer_iff (entity : EntityId) (o : Observer) :
    is_entity_observer entity o = true ↔ o = Observer.entity entity := by
  cases o with
  | entity id =>
    cases id; cases entity
    simp [is_entity_observer]
  | manual x y => simp [is_entity_observer]

theorem is_manual_observer_iff (tileX tileY : Int) (o : Observer) :
    is_manual_observer tileX tileY o = true ↔ o = Observer.manual tileX tileY := by
  cases o with
  | entity id => simp [is_manual_observer]
  | manual x y => simp [is_manual_observer]

theorem any_is_entity_observer (entity : EntityId) (obs : List Observer) :
    obs.any (is_entity_observer entity) = true ↔ Observer.entity entity ∈ obs := by
  rw [List.any_eq_true]
  constructor
  · rintro ⟨o, ho, h⟩
    rw [is_entity_observer_iff] at h
    rw [← h]; exact ho
  · intro h
    exact ⟨_, h, (is_entity_observer_iff entity _).2 rfl⟩

theorem any_is_manual_observer (tileX tileY : Int) (obs : List Observer) :
    obs.any (is_manual_observer tileX tileY) = true ↔ Observer.manual tileX tileY ∈ obs := by
  rw [List.any_eq_true]
  constructor
  · rintro ⟨o, ho, h⟩
    rw [is_manual_observer_iff] at h
    rw [← h]; exact ho
  · intro h
    exact ⟨_, h, (is_manual_observer_iff tileX tileY _).2 rfl⟩

theorem add_entity_observer_of_mem (s : ChunkRenderSystem) (ecs : ECS) (entity : EntityId)
    (pid : ComponentTypeId) (h : Observer.entity entity ∈ s.observers) :
    ChunkRenderSystem_add_entity_observer s ecs entity pid = s := by
  unfold ChunkRenderSystem_add_entity_observer
  rw [if_pos ((any_is_entity_observer entity s.observers).2 h)]

theorem add_entity_observer_of_not_mem (s : ChunkRenderSystem) (ecs : ECS) (entity : EntityId)
    (pid : ComponentTypeId) (h : Observer.entity entity ∉ s.observers) :
    ChunkRenderSystem_add_entity_observer s ecs entity pid =
      { s with
        observerCapacity := grow_capacity s
        observers := s.observers ++ [Observer.entity entity] } := by
  unfold ChunkRenderSystem_add_entity_observer
  rw [if_neg (fun h' => h ((any_is_entity_observer entity s.observers).1 h'))]

theorem add_manual_observer_of_mem (s : ChunkRenderSystem) (tileX tileY : Int)
    (h : Observer.manual tileX tileY ∈ s.observers) :
    ChunkRenderSystem_add_manual_observer s tileX tileY = s := by
  unfold ChunkRenderSystem_add_manual_observer
  rw [if_pos ((any_is_manual_observer tileX tileY s.observers).2 h)]

theorem add_manual_observer_of_not_mem (s : ChunkRenderSystem) (tileX tileY : Int)
    (h : Observer.manual tileX tileY ∉ s.observers) :
    ChunkRenderSystem_add_manual_observer s tileX tileY =
      { s with
        observerCapacity := grow_capacity s
        observers := s.observers ++ [Observer.manual tileX tileY] } := by
  unfold ChunkRenderSystem_add_manual_observer
  rw [if_neg (fun h' => h ((any_is_manual_observer tileX tileY s.observers).1 h'))]

theorem mem_add_entity_observer (s : ChunkRenderSystem) (ecs : ECS) (entity : EntityId)
    (pid : ComponentTypeId) :
    Observer.entity entity ∈ (ChunkRenderSystem_add_entity_observer s ecs entity pid).observers := by
  by_cases h : Observer.entity entity ∈ s.observers
  · rw [add_entity_observer_of_mem s ecs entity pid h]; exact h
  · rw [add_entity_observer_of_not_mem s ecs entity pid h]
    simp

theorem mem_add_manual_observer (s : ChunkRenderSystem) (tileX tileY : Int) :
    Observer.manual tileX tileY ∈ (ChunkRenderSystem_add_manual_observer s tileX tileY).observers := by
  by_cases h : Observer.manual tileX tileY ∈ s.observers
  · rw [add_manual_observer_of_mem s tileX tileY h]; exact h
  · rw [add_manual_observer_of_not_mem s tileX tileY h]
    simp

/-- C13: adding an observer twice gives the state that adding it once gives, for an entity
observer (whatever entity store and component type the two calls are given) and for a manual
observer; adding an observer that is registered leaves the state as it was, and adding one that is
not registered appends it to the observers and raises `observerCount` by one. -/
theorem add_observer_idempotent (s : ChunkRenderSystem) (ecs ecs' : ECS) (entity : EntityId)
    (pid pid' : ComponentTypeId) (tileX tileY : Int) :
    ChunkRenderSystem_add_entity_observer
        (ChunkRenderSystem_add_entity_observer s ecs entity pid) ecs' entity pid'
      = ChunkRenderSystem_add_entity_observer s ecs entity pid ∧
    ChunkRenderSystem_add_manual_observer
        (ChunkRenderSystem_add_manual_observer s tileX tileY) tileX tileY
      = ChunkRenderSystem_add_manual_observer s tileX tileY ∧
    (Observer.entity entity ∈ s.observers →
      ChunkRenderSystem_add_entity_observer s ecs entity pid = s) ∧
    (Observer.manual tileX tileY ∈ s.observers →
      ChunkRenderSystem_add_manual_observer s tileX tileY = s) ∧
    (Observer.entity entity ∉ s.observers →
      (ChunkRenderSystem_add_entity_observer s ecs entity pid).observers
        = s.observers ++ [Observer.entity entity] ∧
      (ChunkRenderSystem_add_entity_observer s ecs entity pid).observerCount
        = s.observerCount + 1) ∧
    (Observer.manual tileX tileY ∉ s.observers →
      (ChunkRenderSystem_add_manual_observer s tileX tileY).observers
        = s.observers ++ [Observer.manual tileX tileY] ∧
      (ChunkRenderSystem_add_manual_observer s tileX tileY).observerCount
        = s.observerCount + 1) := by
  refine ⟨?_, ?_, ?_, ?_, ?_, ?_⟩
  · exact add_entity_observer_of_mem _ ecs' entity pid' (mem_add_entity_observer s ecs entity pid)
  · exact add_manual_observer_of_mem _ tileX tileY (mem_add_manual_observer s tileX tileY)
  · exact add_entity_observer_of_mem s ecs entity pid
  · exact add_manual_observer_of_mem s tileX tileY
  · intro h
    rw [add_entity_observer_of_not_mem s ecs entity pid h]
    exact ⟨rfl, by simp [ChunkRenderSystem.observerCount]⟩
  · intro h
    rw [add_manual_observer_of_not_mem s tileX tileY h]
    exact ⟨rfl, by simp [ChunkRenderSystem.observerCount]⟩

/-- The instance of C13 at `two_observers`: adding the entity `(0, 7)` appends it as the third
observer, adding it again changes nothing, and adding the manual observer at `(1, 0)`, which is
registered, changes nothing. -/
theorem add_observer_idempotent_witness :
    (ChunkRenderSystem_add_entity_observer two_observers ⟨[]⟩ ⟨0, 7⟩ 0).observers
      = [Observer.manual 0 0, Observer.manual 1 0, Observer.entity ⟨0, 7⟩] ∧
    ChunkRenderSystem_add_entity_observer
        (ChunkRenderSystem_add_entity_observer two_observers ⟨[]⟩ ⟨0, 7⟩ 0) ⟨[]⟩ ⟨0, 7⟩ 0
      = ChunkRenderSystem_add_entity_observer two_observers ⟨[]⟩ ⟨0, 7⟩ 0 ∧
    ChunkRenderSystem_add_manual_observer two_observers 1 0 = two_observers :=
  ⟨by decide,
    (add_observer_idempotent two_observers ⟨[]⟩ ⟨[]⟩ ⟨0, 7⟩ 0 0 1 0).1,
    (add_observer_idempotent two_observers ⟨[]⟩ ⟨[]⟩ ⟨0, 7⟩ 0 0 1 0).2.2.2.1 (by decide)⟩

/-- The removal step keeps every observer but the one in the slot: the observers before it are a
rearrangement of that observer followed by the observers after it. -/
theorem swap_remove_perm (obs : List Observer) (i : Nat) (a : Observer)
    (h : obs[i]? = some a) : obs.Perm (a :: swap_remove obs i) := by
  induction obs generalizing i with
  | nil => simp at h
  | cons b l ih =>
    cases l with
    | nil =>
      cases i with
      | zero =>
        simp only [List.getElem?_cons_zero, Option.some.injEq] at h
        subst h
        simp [swap_remove]
      | succ j => simp at h
    | cons c l' =>
      have hlast : (b :: c :: l').getLast? = (c :: l').getLast? := List.getLast?_cons_cons
      obtain ⟨last, hl⟩ : ∃ last, (c :: l').getLast? = some last := by
        cases hg : (c :: l').getLast? with
        | none => simp at hg
        | some x => exact ⟨x, rfl⟩
      cases i with
      | zero =>
        simp only [List.getElem?_cons_zero, Option.some.injEq] at h
        subst h
        unfold swap_remove
        rw [hlast, hl]
        simp only [List.set_cons_zero]
        rw [List.dropLast_cons_of_ne_nil (List.cons_ne_nil c l')]
        apply List.Perm.cons
        have hd := List.dropLast_append_getLast? last hl
        conv_lhs => rw [← hd]
        exact List.perm_append_comm
      | succ j =>
        simp only [List.getElem?_cons_succ] at h
        have ih' := ih j h
        have hsr : swap_remove (b :: c :: l') (j + 1) = b :: swap_remove (c :: l') j := by
          unfold swap_remove
          rw [hlast, hl]
          simp only [List.set_cons_succ]
          rw [List.dropLast_cons_of_ne_nil]
          intro hnil
          have := congrArg List.length hnil
          simp at this
        rw [hsr]
        exact (List.Perm.cons b ih').trans (List.Perm.swap a b _)

theorem swap_remove_getElem? (obs : List Observer) (i j : Nat) (hi : i < obs.length)
    (hj : j < obs.length - 1) :
    (swap_remove obs i)[j]? = if j = i then obs.getLast? else obs[j]? := by
  obtain ⟨last, hl⟩ : ∃ last, obs.getLast? = some last := by
    cases hg : obs.getLast? with
    | none =>
      rw [List.getLast?_eq_none_iff] at hg
      subst hg
      simp at hi
    | some x => exact ⟨x, rfl⟩
  unfold swap_remove
  rw [hl]
  simp only []
  rw [List.getElem?_dropLast, List.length_set, if_pos hj, List.getElem?_set]
  by_cases hji : j = i
  · subst hji
    simp [hi]
  · rw [if_neg (fun h => hji h.symm), if_neg hji]

theorem findIdx?_some_getElem? (p : Observer → Bool) (obs : List Observer) (i : Nat)
    (h : obs.findIdx? p = some i) : ∃ a, obs[i]? = some a ∧ p a = true := by
  have h' := List.findIdx?_of_eq_some h
  cases hg : obs[i]? with
  | none => rw [hg] at h'; simp at h'
  | some a => rw [hg] at h'; exact ⟨a, rfl, h'⟩

theorem remove_entity_observer_of_not_mem (s : ChunkRenderSystem) (entity : EntityId)
    (h : Observer.entity entity ∉ s.observers) :
    ChunkRenderSystem_remove_entity_observer s entity = s := by
  have hnone : s.observers.findIdx? (is_entity_observer entity) = none := by
    rw [List.findIdx?_eq_none_iff]
    intro o ho
    cases hp : is_entity_observer entity o with
    | false => rfl
    | true =>
      rw [is_entity_observer_iff] at hp
      subst hp
      exact absurd ho h
  unfold ChunkRenderSystem_remove_entity_observer
  rw [hnone]

theorem remove_manual_observer_of_not_mem (s : ChunkRenderSystem) (tileX tileY : Int)
    (h : Observer.manual tileX tileY ∉ s.observers) :
    ChunkRenderSystem_remove_manual_observer s tileX tileY = s := by
  have hnone : s.observers.findIdx? (is_manual_observer tileX tileY) = none := by
    rw [List.findIdx?_eq_none_iff]
    intro o ho
    cases hp : is_manual_observer tileX tileY o with
    | false => rfl
    | true =>
      rw [is_manual_observer_iff] at hp
      subst hp
      exact absurd ho h
  unfold ChunkRenderSystem_remove_manual_observer
  rw [hnone]

theorem remove_entity_observer_of_mem (s : ChunkRenderSystem) (entity : EntityId)
    (h : Observer.entity entity ∈ s.observers) :
    ∃ i, s.observers[i]? = some (Observer.entity entity) ∧
      ChunkRenderSystem_remove_entity_observer s entity
        = { s with observers := swap_remove s.observers i } := by
  cases hf : s.observers.findIdx? (is_entity_observer entity) with
  | none =>
    rw [List.findIdx?_eq_none_iff] at hf
    have := hf _ h
    rw [(is_entity_observer_iff entity _).2 rfl] at this
    cases this
  | some i =>
    obtain ⟨a, ha, hp⟩ := findIdx?_some_getElem? _ _ _ hf
    rw [is_entity_observer_iff] at hp
    subst hp
    refine ⟨i, ha, ?_⟩
    unfold ChunkRenderSystem_remove_entity_observer
    rw [hf]

theorem remove_manual_observer_of_mem (s : ChunkRenderSystem) (tileX tileY : Int)
    (h : Observer.manual tileX tileY ∈ s.observers) :
    ∃ i, s.observers[i]? = some (Observer.manual tileX tileY) ∧
      ChunkRenderSystem_remove_manual_observer s tileX tileY
        = { s with observers := swap_remove s.observers i } := by
  cases hf : s.observers.findIdx? (is_manual_observer tileX tileY) with
  | none =>
    rw [List.findIdx?_eq_none_iff] at hf
    have := hf _ h
    rw [(is_manual_observer_iff tileX tileY _).2 rfl] at this
    cases this
  | some i =>
    obtain ⟨a, ha, hp⟩ := findIdx?_some_getElem? _ _ _ hf
    rw [is_manual_observer_iff] at hp
    subst hp
    refine ⟨i, ha, ?_⟩
    unfold ChunkRenderSystem_remove_manual_observer
    rw [hf]

/-- C14: removing a manual observer at a tile coordinate that no manual observer holds leaves the
whole state, so the observers, `observerCount` and `observerCapacity`, as it was, also for the
empty registry, and likewise removing an entity observer that is not registered; removing a manual
observer keeps every entity observer as often as it was registered, and removing an entity
observer keeps every manual observer. -/
theorem remove_absent_observer_is_noop (s : ChunkRenderSystem) (entity : EntityId)
    (tileX tileY : Int) :
    (Observer.manual tileX tileY ∉ s.observers →
      ChunkRenderSystem_remove_manual_observer s tileX tileY = s) ∧
    (Observer.entity entity ∉ s.observers →
      ChunkRenderSystem_remove_entity_observer s entity = s) ∧
    (s.observers = [] →
      ChunkRenderSystem_remove_manual_observer s tileX tileY = s ∧
      ChunkRenderSystem_remove_entity_observer s entity = s) ∧
    (∀ e, List.count (Observer.entity e)
        (ChunkRenderSystem_remove_manual_observer s tileX tileY).observers
      = List.count (Observer.entity e) s.observers) ∧
    (∀ x y, List.count (Observer.manual x y)
        (ChunkRenderSystem_remove_entity_observer s entity).observers
      = List.count (Observer.manual x y) s.observers) := by
  refine ⟨remove_manual_observer_of_not_mem s tileX tileY,
    remove_entity_observer_of_not_mem s entity, ?_, ?_, ?_⟩
  · intro hnil
    exact ⟨remove_manual_observer_of_not_mem s tileX tileY (by rw [hnil]; simp),
      remove_entity_observer_of_not_mem s entity (by rw [hnil]; simp)⟩
  · intro e
    by_cases h : Observer.manual tileX tileY ∈ s.observers
    · obtain ⟨i, hi, hrem⟩ := remove_manual_observer_of_mem s tileX tileY h
      rw [hrem]
      have hperm := swap_remove_perm s.observers i _ hi
      rw [hperm.count_eq (Observer.entity e)]
      simp
    · rw [remove_manual_observer_of_not_mem s tileX tileY h]
  · intro x y
    by_cases h : Observer.entity entity ∈ s.observers
    · obtain ⟨i, hi, hrem⟩ := remove_entity_observer_of_mem s entity h
      rw [hrem]
      have hperm := swap_remove_perm s.observers i _ hi
      rw [hperm.count_eq (Observer.manual x y)]
      simp
    · rw [remove_entity_observer_of_not_mem s entity h]

/-- The instance of C14 at `two_observers` and at the empty registry of `small_system`: removing
the manual observer at `(5, 5)` and the entity `(0, 7)`, which are not registered, changes
nothing. -/
theorem remove_absent_observer_is_noop_witness :
    two_observers.observers = [Observer.manual 0 0, Observer.manual 1 0] ∧
    ChunkRenderSystem_remove_manual_observer two_observers 5 5 = two_observers ∧
    ChunkRenderSystem_remove_entity_observer two_observers ⟨0, 7⟩ = two_observers ∧
    small_system.observers = [] ∧
    ChunkRenderSystem_remove_manual_observer small_system 5 5 = small_system :=
  ⟨by decide,
    (remove_absent_observer_is_noop two_observers ⟨0, 7⟩ 5 5).1 (by decide),
    (remove_absent_observer_is_noop two_observers ⟨0, 7⟩ 5 5).2.1 (by decide),
    by decide,
    ((remove_absent_observer_is_noop small_system ⟨0, 7⟩ 5 5).2.2.1 (by decide)).1⟩

theorem remove_observer_of_mem (s : ChunkRenderSystem) (o : Observer) (h : o ∈ s.observers) :
    ∃ i, s.observers[i]? = some o ∧
      remove_observer s o = { s with observers := swap_remove s.observers i } := by
  cases o with
  | entity entityId => exact remove_entity_observer_of_mem s entityId h
  | manual tileX tileY => exact remove_manual_observer_of_mem s tileX tileY h

/-- C20: in a registry without duplicates, the remove operation that matches a registered observer
lowers `observerCount` by one and puts the former last observer into the slot of the removed one,
the other slots staying as they were; afterwards the removed observer is not registered, the
registry has no duplicates, and its observers are those registered before other than the removed
one, each exactly once. -/
theorem remove_observer_swaps_with_last (s : ChunkRenderSystem) (o : Observer)
    (hnodup : s.observers.Nodup) (ho : o ∈ s.observers) :
    (remove_observer s o).observerCount + 1 = s.observerCount ∧
    (∃ i, s.observers[i]? = some o ∧
      ∀ j, j < (remove_observer s o).observerCount →
        (remove_observer s o).observers[j]?
          = if j = i then s.observers.getLast? else s.observers[j]?) ∧
    o ∉ (remove_observer s o).observers ∧
    (remove_observer s o).observers.Nodup ∧
    (∀ o', o' ∈ (remove_observer s o).observers ↔ o' ∈ s.observers ∧ o' ≠ o) ∧
    (∀ o', o' ∈ s.observers → o' ≠ o → List.count o' (remove_observer s o).observers = 1) := by
  obtain ⟨i, hi, hrem⟩ := remove_observer_of_mem s o ho
  have hperm := swap_remove_perm s.observers i o hi
  have hnd : (o :: swap_remove s.observers i).Nodup := hperm.nodup_iff.1 hnodup
  rw [List.nodup_cons] at hnd
  have hlen : (swap_remove s.observers i).length + 1 = s.observers.length := by
    have := hperm.length_eq
    simp only [List.length_cons] at this
    omega
  have hmem : ∀ o', o' ∈ swap_remove s.observers i ↔ o' ∈ s.observers ∧ o' ≠ o := by
    intro o'
    rw [hperm.mem_iff, List.mem_cons]
    constructor
    · intro h
      exact ⟨Or.inr h, fun heq => hnd.1 (heq ▸ h)⟩
    · rintro ⟨h | h, hne⟩
      · exact absurd h hne
      · exact h
  have hilt : i < s.observers.length := by
    by_contra hge
    rw [List.getElem?_eq_none (by omega)] at hi
    cases hi
  rw [hrem]
  refine ⟨hlen, ⟨i, hi, ?_⟩, hnd.1, hnd.2, hmem, ?_⟩
  · intro j hj
    have hj' : j < s.observers.length - 1 := by
      simp only [ChunkRenderSystem.observerCount] at hj
      omega
    exact swap_remove_getElem? s.observers i j hilt hj'
  · intro o' h1 h2
    exact List.count_eq_one_of_mem hnd.2 ((hmem o').2 ⟨h1, h2⟩)

/-- The instance of C20 at `three_observers`: removing the manual observer at `(0, 0)`, the first of
three, puts the last observer, the entity `(0, 7)`, into the first slot. -/
theorem remove_observer_swaps_with_last_witness :
    three_observers.observers
      = [Observer.manual 0 0, Observer.manual 1 0, Observer.entity ⟨0, 7⟩] ∧
    (remove_observer three_observers (Observer.manual 0 0)).observers
      = [Observer.entity ⟨0, 7⟩, Observer.manual 1 0] ∧
    (remove_observer three_observers (Observer.manual 0 0)).observerCount + 1
      = three_observers.observerCount :=
  ⟨by decide, by decide,
    (remove_observer_swaps_with_last three_observers (Observer.manual 0 0) (by decide)
      (by decide)).1⟩

/-! ### The render pass and the cache -/

theorem render_unbound (s : ChunkRenderSystem) (ecs : ECS) (pid : ComponentTypeId)
    (camera : Option CameraHandle) (aspectFit : Option AspectFitHandle)
    (h : s.renderer = none ∨ camera = none ∨ aspectFit = none) :
    (ChunkRenderSystem_render s ecs pid camera aspectFit).2 = [] := by
  unfold ChunkRenderSystem_render
  rcases h with h | h | h
  · rw [h]
  · rw [h]; cases s.renderer <;> rfl
  · rw [h]; cases s.renderer <;> cases camera <;> rfl

/-- A chunk coordinate that a render pass composites has a loaded cache entry. -/
theorem render_composite_loaded (s : ChunkRenderSystem) (ecs : ECS) (pid : ComponentTypeId)
    (camera : Option CameraHandle) (aspectFit : Option AspectFitHandle) (c : IntCoord)
    (h : 0 < composite_count (ChunkRenderSystem_render s ecs pid camera aspectFit).2 c) :
    ∃ e, Table_get s.chunks c = some e ∧ e.isLoaded = true := by
  cases hr : s.renderer with
  | none =>
    rw [render_unbound s ecs pid camera aspectFit (Or.inl hr)] at h
    simp [composite_count] at h
  | some r =>
    cases hc : camera with
    | none =>
      rw [hc, render_unbound s ecs pid none aspectFit (Or.inr (Or.inl rfl))] at h
      simp [composite_count] at h
    | some cam =>
      cases ha : aspectFit with
      | none =>
        rw [ha, render_unbound s ecs pid camera none (Or.inr (Or.inr rfl))] at h
        simp [composite_count] at h
      | some af =>
        have hcount := (render_composite_count s r ecs pid camera aspectFit hr
          (by rw [hc]; rfl) (by rw [ha]; rfl) c).2
        by_cases hd : in_footprint s ecs pid c ∧ is_drawable s r c = true
        · have hdraw := hd.2
          unfold is_drawable at hdraw
          cases hget : Table_get s.chunks c with
          | none => rw [hget] at hdraw; simp at hdraw
          | some e =>
            rw [hget] at hdraw
            simp only [Bool.and_eq_true] at hdraw
            exact ⟨e, rfl, hdraw.1⟩
        · rw [hcount hd] at h
          exact absurd h (by decide)

/-- C11: every composite draw of a render pass is for a chunk coordinate whose cache entry is
loaded; a coordinate without cache entry and one whose entry is not loaded get no draw; the pass
leaves the system, so the chunk cache with all its entries and the frame counter, as it was. -/
theorem render_composites_only_loaded (s : ChunkRenderSystem) (ecs : ECS)
    (pid : ComponentTypeId) (camera : Option CameraHandle)
    (aspectFit : Option AspectFitHandle) :
    (∀ d ∈ (ChunkRenderSystem_render s ecs pid camera aspectFit).2,
      ∃ e, Table_get s.chunks d.coord = some e ∧ e.isLoaded = true) ∧
    (∀ c, Table_get s.chunks c = none →
      composite_count (ChunkRenderSystem_render s ecs pid camera aspectFit).2 c = 0) ∧
    (∀ c e, Table_get s.chunks c = some e → e.isLoaded = false →
      composite_count (ChunkRenderSystem_render s ecs pid camera aspectFit).2 c = 0) ∧
    (ChunkRenderSystem_render s ecs pid camera aspectFit).1.chunks = s.chunks ∧
    (ChunkRenderSystem_render s ecs pid camera aspectFit).1.currentFrame = s.currentFrame ∧
    (ChunkRenderSystem_render s ecs pid camera aspectFit).1 = s := by
  refine ⟨?_, ?_, ?_, ?_, ?_, render_system s ecs pid camera aspectFit⟩
  · intro d hd
    apply render_composite_loaded s ecs pid camera aspectFit d.coord
    unfold composite_count
    rw [List.countP_pos_iff]
    exact ⟨d, hd, by simp⟩
  · intro c hnone
    by_contra hne
    obtain ⟨e, he, _⟩ := render_composite_loaded s ecs pid camera aspectFit c
      (Nat.pos_of_ne_zero hne)
    rw [hnone] at he
    cases he
  · intro c e hget hl
    by_contra hne
    obtain ⟨e', he', hl'⟩ := render_composite_loaded s ecs pid camera aspectFit c
      (Nat.pos_of_ne_zero hne)
    rw [hget] at he'
    simp only [Option.some.injEq] at he'
    subst he'
    rw [hl] at hl'
    cases hl'
  · rw [render_system]
  · rw [render_system]

/-- An entry of the cache stays in the cache through the update scan, with its coordinates and
its surface, and stays loaded when it was. -/
theorem foldl_update_step_persists (HAS : Bool) (mgr : Option ChunkManagerSystem)
    (vs : List IntCoord) (st : ChunkRenderSystem × List RenderCall) (k : IntCoord)
    (e : ChunkRenderData) (he : Table_get st.1.chunks k = some e) :
    ∃ e', Table_get (vs.foldl (update_step HAS mgr) st).1.chunks k = some e' ∧
      e'.chunkX = e.chunkX ∧ e'.chunkY = e.chunkY ∧ e'.renderTexture = e.renderTexture ∧
      (e.isLoaded = true → e'.isLoaded = true) := by
  induction vs generalizing st e with
  | nil => exact ⟨e, he, rfl, rfl, rfl, id⟩
  | cons v vs ih =>
    rw [List.foldl_cons]
    have hstep : ∃ e1, Table_get (update_step HAS mgr st v).1.chunks k = some e1 ∧
        e1.chunkX = e.chunkX ∧ e1.chunkY = e.chunkY ∧ e1.renderTexture = e.renderTexture ∧
        (e.isLoaded = true → e1.isLoaded = true) := by
      by_cases hv : v = k
      · subst hv
        rw [update_step_get_same, he]
        simp only [Option.getD_some]
        split
        · refine ⟨_, rfl, ?_⟩
          rcases render_chunk_tiles_cases st.1 e with hc | hc
          · rw [hc.1]; exact ⟨rfl, rfl, rfl, id⟩
          · rw [hc.2.2.2.2.1]; exact ⟨rfl, rfl, rfl, fun _ => rfl⟩
        · exact ⟨e, rfl, rfl, rfl, rfl, id⟩
      · rw [update_step_get_other HAS mgr st v k hv]
        exact ⟨e, he, rfl, rfl, rfl, id⟩
    obtain ⟨e1, h1, hx, hy, ht, hl⟩ := hstep
    obtain ⟨e2, h2, hx2, hy2, ht2, hl2⟩ := ih (update_step HAS mgr st v) e1 h1
    exact ⟨e2, h2, hx2.trans hx, hy2.trans hy, ht2.trans ht, fun h => hl2 (hl h)⟩

/-- A public operation keeps every cache entry, with its coordinates, and keeps it loaded when it
was. -/
theorem step_persists (HAS : Bool) (s s' : ChunkRenderSystem) (hstep : Step HAS s s')
    (k : IntCoord) (e : ChunkRenderData) (he : Table_get s.chunks k = some e) :
    ∃ e', Table_get s'.chunks k = some e' ∧ e'.chunkX = e.chunkX ∧ e'.chunkY = e.chunkY ∧
      (e.isLoaded = true → e'.isLoaded = true) := by
  cases hstep with
  | add_entity_observer ecs entity pid =>
    rw [add_entity_observer_chunks]; exact ⟨e, he, rfl, rfl, id⟩
  | add_manual_observer tileX tileY =>
    rw [add_manual_observer_chunks]; exact ⟨e, he, rfl, rfl, id⟩
  | remove_entity_observer entity =>
    rw [remove_entity_observer_chunks]; exact ⟨e, he, rfl, rfl, id⟩
  | remove_manual_observer tileX tileY =>
    rw [remove_manual_observer_chunks]; exact ⟨e, he, rfl, rfl, id⟩
  | update ecs pid mgr =>
    rw [(ChunkRenderSystem_update_eq HAS s ecs pid mgr).1]
    obtain ⟨e', h1, hx, hy, _, hl⟩ := foldl_update_step_persists HAS mgr (scan_visits s ecs pid)
      ({ s with currentFrame := (s.currentFrame + 1) % 2 ^ 64 }, []) k e he
    exact ⟨e', h1, hx, hy, hl⟩
  | render ecs pid camera aspectFit =>
    rw [render_system]; exact ⟨e, he, rfl, rfl, id⟩
  | mark_chunk_dirty tileX tileY =>
    rw [mark_chunk_dirty_get]
    split
    · rw [he]; exact ⟨_, rfl, rfl, rfl, id⟩
    · exact ⟨e, he, rfl, rfl, id⟩
  | cleanup => exact ⟨e, he, rfl, rfl, id⟩

/-- C17: every public operation (adding and removing observers, update, render, marking a chunk
dirty, cleanup) keeps every cache entry: a chunk coordinate with an entry before the call has an
entry after it, with the same `chunkX` and `chunkY`. -/
theorem cache_grows_monotonically (HAS : Bool) (s s' : ChunkRenderSystem)
    (hstep : Step HAS s s') (k : IntCoord) (e : ChunkRenderData)
    (hentry : Table_get s.chunks k = some e) :
    ∃ e', Table_get s'.chunks k = some e' ∧ e'.chunkX = e.chunkX ∧ e'.chunkY = e.chunkY := by
  obtain ⟨e', h1, hx, hy, _⟩ := step_persists HAS s s' hstep k e hentry
  exact ⟨e', h1, hx, hy⟩

/-- The instance of C17 at `two_observers_loaded`, an update pass with a chunk manager that
reports the chunk `(0, 0)`, and the entry of that chunk. -/
theorem cache_grows_monotonically_witness :
    Table_get two_observers_loaded.chunks ⟨0, 0⟩ = some (loaded_entry 0 0) ∧
    ∃ e', Table_get
        (ChunkRenderSystem_update true two_observers_loaded ⟨[]⟩ 0
          (some ⟨[⟨0, 0⟩]⟩)).system.chunks ⟨0, 0⟩ = some e' ∧
      e'.chunkX = (loaded_entry 0 0).chunkX ∧ e'.chunkY = (loaded_entry 0 0).chunkY :=
  ⟨by decide,
    cache_grows_monotonically true two_observers_loaded _
      (Step.update two_observers_loaded ⟨[]⟩ 0 (some ⟨[⟨0, 0⟩]⟩)) ⟨0, 0⟩ (loaded_entry 0 0)
      (by decide)⟩

/-- The instance of C11 at `surfaceless_observed`, where the entry of the chunk `(0, 0)` is not
loaded and lies in the footprint of both observers: the render pass issues no draw for it. -/
theorem render_composites_only_loaded_witness :
    Table_get surfaceless_observed.chunks ⟨0, 0⟩
      = some { chunkX := 0, chunkY := 0, renderTexture := none, isDirty := true,
               isLoaded := false, lastUpdateFrame := 0 } ∧
    composite_count
      (ChunkRenderSystem_render surfaceless_observed ⟨[]⟩ 0 (some ⟨0⟩) (some ⟨0⟩)).2 ⟨0, 0⟩ = 0 ∧
    (ChunkRenderSystem_render surfaceless_observed ⟨[]⟩ 0 (some ⟨0⟩) (some ⟨0⟩)).1
      = surfaceless_observed :=
  ⟨by decide,
    (render_composites_only_loaded surfaceless_observed ⟨[]⟩ 0 (some ⟨0⟩) (some ⟨0⟩)).2.2.1
      ⟨0, 0⟩
      { chunkX := 0, chunkY := 0, renderTexture := none, isDirty := true, isLoaded := false,
        lastUpdateFrame := 0 } (by decide) (by decide),
    (render_composites_only_loaded surfaceless_observed ⟨[]⟩ 0 (some ⟨0⟩)
      (some ⟨0⟩)).2.2.2.2.2⟩

/-! ### The states of a cache entry -/

theorem update_step_dirty_or_loaded (HAS : Bool) (mgr : Option ChunkManagerSystem)
    (st : ChunkRenderSystem × List RenderCall) (v : IntCoord)
    (h : entries_dirty_or_loaded st.1) :
    entries_dirty_or_loaded (update_step HAS mgr st v).1 := by
  intro k e he
  have hsys := update_step_system HAS mgr st v
  have hfields : (update_step HAS mgr st v).1.tilemap = st.1.tilemap ∧
      (update_step HAS mgr st v).1.atlas = st.1.atlas ∧
      (update_step HAS mgr st v).1.renderer = st.1.renderer := by
    rw [hsys]; exact ⟨rfl, rfl, rfl⟩
  rw [hfields.1, hfields.2.1, hfields.2.2]
  by_cases hv : v = k
  · subst hv
    rw [update_step_get_same] at he
    have hold : (st.1.renderer.isSome = true →
          ((Table_get st.1.chunks v).getD (new_chunk st.1 v.x v.y)).renderTexture.isSome = true) ∧
        (st.1.tilemap.isSome = true → st.1.atlas.isSome = true → st.1.renderer.isSome = true →
          ((Table_get st.1.chunks v).getD (new_chunk st.1 v.x v.y)).isDirty = true ∨
          ((Table_get st.1.chunks v).getD (new_chunk st.1 v.x v.y)).isLoaded = true) := by
      cases hget : Table_get st.1.chunks v with
      | some e1 => exact h v e1 hget
      | none =>
        simp only [Option.getD_none]
        refine ⟨?_, fun _ _ _ => Or.inl rfl⟩
        intro hr
        obtain ⟨r, hr⟩ := Option.isSome_iff_exists.1 hr
        simp [new_chunk, hr]
    split at he
    · simp only [Option.some.injEq] at he
      subst he
      constructor
      · intro hr
        simp only []
        rw [render_chunk_tiles_renderTexture]
        exact hold.1 hr
      · intro h1 h2 h3
        right
        simp only []
        rw [(render_chunk_tiles_of_guard st.1 _ h1 h2 h3 (hold.1 h3)).1]
    · simp only [Option.some.injEq] at he
      subst he
      exact hold
  · rw [update_step_get_other HAS mgr st v k hv] at he
    exact h k e he

theorem foldl_update_step_dirty_or_loaded (HAS : Bool) (mgr : Option ChunkManagerSystem)
    (vs : List IntCoord) (st : ChunkRenderSystem × List RenderCall)
    (h : entries_dirty_or_loaded st.1) :
    entries_dirty_or_loaded (vs.foldl (update_step HAS mgr) st).1 := by
  induction vs generalizing st with
  | nil => exact h
  | cons v vs ih =>
    rw [List.foldl_cons]
    exact ih _ (update_step_dirty_or_loaded HAS mgr st v h)

/-- In every reachable state an entry has its surface when the renderer is present, and has its
dirty flag set or is loaded when tilemap, atlas and renderer are present. -/
theorem reachable_dirty_or_loaded (HAS : Bool) (s : ChunkRenderSystem) (h : Reachable HAS s) :
    entries_dirty_or_loaded s := by
  induction h with
  | init tilemap atlas renderer tileSize chunkSize renderRadius simulationRadius =>
    intro k e he
    simp [ChunkRenderSystem_init, Table_get] at he
  | add_entity_observer ecs entity pid _ ih =>
    rw [add_entity_observer_chunks]; exact ih
  | add_manual_observer tileX tileY _ ih =>
    rw [add_manual_observer_chunks]; exact ih
  | remove_entity_observer entity _ ih =>
    rw [remove_entity_observer_chunks]; exact ih
  | remove_manual_observer tileX tileY _ ih =>
    rw [remove_manual_observer_chunks]; exact ih
  | update ecs pid mgr _ ih =>
    rw [(ChunkRenderSystem_update_eq HAS _ ecs pid mgr).1]
    apply foldl_update_step_dirty_or_loaded
    exact ih
  | render ecs pid camera aspectFit _ ih =>
    rw [render_system]; exact ih
  | @mark_chunk_dirty s0 tileX tileY _ ih =>
    intro k e he
    rw [mark_chunk_dirty_system]
    rw [mark_chunk_dirty_get] at he
    split at he
    · cases hget : Table_get s0.chunks k with
      | none => rw [hget] at he; simp at he
      | some e0 =>
        rw [hget] at he
        simp only [Option.map_some', Option.some.injEq] at he
        subst he
        exact ⟨(ih k e0 hget).1, fun _ _ _ => Or.inl rfl⟩
    · exact ih k e he
  | cleanup _ ih => exact ih

/-- C12 (as stated, refuted): a system initialised without tilemap, atlas and renderer, with one
manual observer, reaches by one update pass a state in which the entry of the chunk `(0, 0)` has
its dirty flag clear and is not loaded. -/
theorem update_without_renderer_clean_and_unloaded :
    Reachable true (ChunkRenderSystem_update true example_observed ⟨[]⟩ 0 none).system ∧
    Table_get (ChunkRenderSystem_update true example_observed ⟨[]⟩ 0 none).system.chunks ⟨0, 0⟩
      = some { chunkX := 0, chunkY := 0, renderTexture := none, isDirty := false,
               isLoaded := false, lastUpdateFrame := 0 } :=
  ⟨Reachable.update ⟨[]⟩ 0 none
      (Reachable.add_manual_observer 0 0 (Reachable.init none none none 16 64 1 10)),
    by decide⟩

/-- C12 (amended): in every state reachable from `ChunkRenderSystem_init` by the public operations
in which tilemap, atlas and renderer are present, every cache entry is in one of the three states
dirty and not loaded, clean and loaded, dirty and loaded; and no public operation, in any state,
takes an entry from loaded to not loaded. -/
theorem entry_state_machine (HAS : Bool) (s : ChunkRenderSystem) :
    (Reachable HAS s → s.tilemap.isSome = true → s.atlas.isSome = true →
      s.renderer.isSome = true →
      ∀ k e, Table_get s.chunks k = some e →
        (e.isDirty = true ∧ e.isLoaded = false) ∨ (e.isDirty = false ∧ e.isLoaded = true) ∨
        (e.isDirty = true ∧ e.isLoaded = true)) ∧
    (∀ s', Step HAS s s' → ∀ k e, Table_get s.chunks k = some e → e.isLoaded = true →
      ∃ e', Table_get s'.chunks k = some e' ∧ e'.isLoaded = true) := by
  constructor
  · intro hreach h1 h2 h3 k e he
    have h := (reachable_dirty_or_loaded HAS s hreach k e he).2 h1 h2 h3
    cases hd : e.isDirty <;> cases hl : e.isLoaded <;> simp [hd, hl] at h ⊢
  · intro s' hstep k e he hl
    obtain ⟨e', h1, _, _, hl'⟩ := step_persists HAS s s' hstep k e he
    exact ⟨e', h1, hl' hl⟩

/-- The instance of C12 (amended) at `two_observers_loaded`, which is reachable and has tilemap,
atlas and renderer: the entry of the chunk `(0, 0)` is clean and loaded, and stays loaded when a
tile of the chunk is marked dirty. -/
theorem entry_state_machine_witness :
    Table_get two_observers_loaded.chunks ⟨0, 0⟩ = some (loaded_entry 0 0) ∧
    ((loaded_entry 0 0).isDirty = true ∧ (loaded_entry 0 0).isLoaded = false ∨
      (loaded_entry 0 0).isDirty = false ∧ (loaded_entry 0 0).isLoaded = true ∨
      (loaded_entry 0 0).isDirty = true ∧ (loaded_entry 0 0).isLoaded = true) ∧
    ∃ e', Table_get (ChunkRenderSystem_mark_chunk_dirty two_observers_loaded 1 1).chunks ⟨0, 0⟩
        = some e' ∧ e'.isLoaded = true :=
  ⟨by decide,
    (entry_state_machine true two_observers_loaded).1 two_observers_loaded_reachable
      (by decide) (by decide) (by decide) ⟨0, 0⟩ (loaded_entry 0 0) (by decide),
    (entry_state_machine true two_observers_loaded).2 _
      (Step.mark_chunk_dirty two_observers_loaded 1 1) ⟨0, 0⟩ (loaded_entry 0 0) (by decide)
      (by decide)⟩

/-! ### The inverse round trip -/

theorem foldl_append_option {α β : Type} (l : List α) (f : α → Option β)
    (step : List β → α → List β) (hstep : ∀ acc a, step acc a = acc ++ (f a).toList)
    (init : List β) : l.foldl step init = init ++ l.filterMap f := by
  induction l generalizing init with
  | nil => simp
  | cons a l ih =>
    rw [List.foldl_cons, ih, hstep]
    cases h : f a with
    | none => simp [List.filterMap_cons, h]
    | some c => simp [List.filterMap_cons, h]

theorem foldl_append_lists {α β : Type} (l : List α) (g : α → List β) (init : List β) :
    l.foldl (fun acc a => acc ++ g a) init = init ++ l.flatMap g := by
  induction l generalizing init with
  | nil => simp
  | cons a l ih =>
    rw [List.foldl_cons, ih, List.flatMap_cons, List.append_assoc]

/-- The two loops of the rasterizer issue the texture commands of the local coordinates of the
chunk in their order, one for each local coordinate that has a command. -/
theorem render_tile_commands_eq (s : ChunkRenderSystem) (tm : Tilemap) (atlas : Atlas)
    (e : ChunkRenderData) :
    render_tile_commands s tm atlas e
      = (chunk_local_coords s.chunkSize).filterMap
          (fun p => render_tile_command s tm atlas e p.1 p.2) := by
  unfold render_tile_commands chunk_local_coords
  have hinner : ∀ (cmds : List RenderCommand) (ly : Nat),
      (List.range s.chunkSize.toNat).foldl
        (fun cmds (lx : Nat) =>
          match render_tile_command s tm atlas e (lx : Int) (ly : Int) with
          | some cmd => cmds ++ [cmd]
          | none => cmds) cmds
        = cmds ++ (List.range s.chunkSize.toNat).filterMap
            (fun (lx : Nat) => render_tile_command s tm atlas e (lx : Int) (ly : Int)) := by
    intro cmds ly
    apply foldl_append_option (List.range s.chunkSize.toNat)
      (fun (lx : Nat) => render_tile_command s tm atlas e (lx : Int) (ly : Int))
    intro acc lx
    cases render_tile_command s tm atlas e (lx : Int) (ly : Int) <;> simp
  simp only [hinner]
  rw [foldl_append_lists, List.nil_append, List.filterMap_flatMap]
  congr 1
  funext ly
  rw [List.filterMap_map]
  rfl

theorem mem_chunk_local_coords (chunkSize lx ly : Int) :
    (lx, ly) ∈ chunk_local_coords chunkSize ↔
      0 ≤ lx ∧ lx < chunkSize ∧ 0 ≤ ly ∧ ly < chunkSize := by
  unfold chunk_local_coords
  simp only [List.mem_flatMap, List.mem_map, List.mem_range, Prod.mk.injEq]
  constructor
  · rintro ⟨j, hj, i, hi, rfl, rfl⟩
    omega
  · rintro ⟨h1, h2, h3, h4⟩
    exact ⟨ly.toNat, by omega, lx.toNat, by omega, by omega, by omega⟩

theorem chunk_local_coords_length (chunkSize : Int) :
    (chunk_local_coords chunkSize).length = chunkSize.toNat * chunkSize.toNat := by
  unfold chunk_local_coords
  generalize chunkSize.toNat = n
  have h : ∀ (l : List Nat),
      (l.flatMap fun (ly : Nat) =>
        (List.range n).map fun (lx : Nat) => ((lx : Int), (ly : Int))).length
        = l.length * n := by
    intro l
    induction l with
    | nil => simp
    | cons a l ih =>
      rw [List.flatMap_cons, List.length_append, ih, List.length_map, List.length_range,
        List.length_cons]
      ring
  rw [h, List.length_range]

theorem chunk_local_coords_nodup (chunkSize : Int) : (chunk_local_coords chunkSize).Nodup := by
  unfold chunk_local_coords
  generalize chunkSize.toNat = n
  rw [List.nodup_flatMap]
  constructor
  · intro ly _
    apply List.Nodup.map _ (List.nodup_range n)
    intro a b hab
    simp only [Prod.mk.injEq, Nat.cast_inj, and_true] at hab
    exact hab
  · apply List.Pairwise.imp _ (List.nodup_range n)
    intro a b hab
    intro p hp1 hp2
    rw [List.mem_map] at hp1 hp2
    obtain ⟨i, _, rfl⟩ := hp1
    obtain ⟨j, _, hj⟩ := hp2
    simp only [Prod.mk.injEq, Nat.cast_inj] at hj
    exact hab hj.2.symm

theorem length_filterMap_eq_countP {α β : Type} (l : List α) (f : α → Option β) :
    (l.filterMap f).length = l.countP (fun a => (f a).isSome) := by
  induction l with
  | nil => rfl
  | cons a l ih =>
    cases h : f a with
    | none => simp [List.filterMap_cons, h, ih]
    | some c => simp [List.filterMap_cons, h, ih]

theorem render_tile_command_of_tile (s : ChunkRenderSystem) (tm : Tilemap) (atlas : Atlas)
    (e : ChunkRenderData) (lx ly : Int) (tile : Tile)
    (h : Tilemap_get_tile tm (e.chunkX * s.chunkSize + lx) (e.chunkY * s.chunkSize + ly)
      = some tile) :
    render_tile_command s tm atlas e lx ly
      = some (RenderCommand.texture ⟨lx * s.tileSize, ly * s.tileSize, s.tileSize, s.tileSize⟩
          color_white (Atlas_getRect atlas tile.tile_id)) := by
  simp [render_tile_command, h]

theorem render_tile_command_of_no_tile (s : ChunkRenderSystem) (tm : Tilemap) (atlas : Atlas)
    (e : ChunkRenderData) (lx ly : Int)
    (h : Tilemap_get_tile tm (e.chunkX * s.chunkSize + lx) (e.chunkY * s.chunkSize + ly)
      = none) :
    render_tile_command s tm atlas e lx ly = none := by
  simp [render_tile_command, h]

theorem render_tile_command_isSome (s : ChunkRenderSystem) (tm : Tilemap) (atlas : Atlas)
    (e : ChunkRenderData) (lx ly : Int) :
    (render_tile_command s tm atlas e lx ly).isSome
      = (Tilemap_get_tile tm (e.chunkX * s.chunkSize + lx)
          (e.chunkY * s.chunkSize + ly)).isSome := by
  cases h : Tilemap_get_tile tm (e.chunkX * s.chunkSize + lx) (e.chunkY * s.chunkSize + ly) with
  | none => rw [render_tile_command_of_no_tile s tm atlas e lx ly h]; rfl
  | some tile => rw [render_tile_command_of_tile s tm atlas e lx ly tile h]; rfl

/-- C22: with tilemap, atlas, renderer and the surface of the entry present, `render_chunk_tiles`
binds the surface, clears it, issues the tile draws and unbinds. The tile draws are, in the order
of the local coordinates `(lx, ly)` of `[0, chunkSize) × [0, chunkSize)`, each of which occurs once,
one draw for each local coordinate whose tile
`(chunkX * chunkSize + lx, chunkY * chunkSize + ly)` is in the tilemap and none for the others:
the draw has the destination `(lx * tileSize, ly * tileSize)` and the size `tileSize` by
`tileSize`; their number is the number of local coordinates with a tile, at most
`chunkSize * chunkSize`. Afterwards the entry is clean, loaded and last updated in the current
frame. -/
theorem render_chunk_tiles_draws_present_tiles (s : ChunkRenderSystem) (e : ChunkRenderData)
    (tm : Tilemap) (atlas : Atlas) (rt : RenderTexture)
    (htilemap : s.tilemap = some tm) (hatlas : s.atlas = some atlas)
    (hrenderer : s.renderer.isSome = true) (hsurface : e.renderTexture = some rt) :
    (render_chunk_tiles s e).1
      = { e with isDirty := false, isLoaded := true, lastUpdateFrame := s.currentFrame } ∧
    (render_chunk_tiles s e).2
      = [RendererCall.begin_render_texture rt,
          RendererCall.execute_command
            (RenderCommand.rectangle
              ⟨0, 0, s.chunkSize * s.tileSize, s.chunkSize * s.tileSize⟩ color_black)]
        ++ ((chunk_local_coords s.chunkSize).filterMap
              (fun p => render_tile_command s tm atlas e p.1 p.2)).map
            RendererCall.execute_command
        ++ [RendererCall.end_render_texture] ∧
    (∀ lx ly tile,
      Tilemap_get_tile tm (e.chunkX * s.chunkSize + lx) (e.chunkY * s.chunkSize + ly)
        = some tile →
      render_tile_command s tm atlas e lx ly
        = some (RenderCommand.texture
            ⟨lx * s.tileSize, ly * s.tileSize, s.tileSize, s.tileSize⟩
            color_white (Atlas_getRect atlas tile.tile_id))) ∧
    (∀ lx ly,
      Tilemap_get_tile tm (e.chunkX * s.chunkSize + lx) (e.chunkY * s.chunkSize + ly) = none →
      render_tile_command s tm atlas e lx ly = none) ∧
    (chunk_local_coords s.chunkSize).Nodup ∧
    (∀ lx ly, (lx, ly) ∈ chunk_local_coords s.chunkSize ↔
      0 ≤ lx ∧ lx < s.chunkSize ∧ 0 ≤ ly ∧ ly < s.chunkSize) ∧
    ((chunk_local_coords s.chunkSize).filterMap
        (fun p => render_tile_command s tm atlas e p.1 p.2)).length
      = (chunk_local_coords s.chunkSize).countP
          (fun p => (Tilemap_get_tile tm (e.chunkX * s.chunkSize + p.1)
            (e.chunkY * s.chunkSize + p.2)).isSome) ∧
    ((chunk_local_coords s.chunkSize).filterMap
        (fun p => render_tile_command s tm atlas e p.1 p.2)).length
      ≤ s.chunkSize.toNat * s.chunkSize.toNat := by
  obtain ⟨r, hr⟩ := Option.isSome_iff_exists.1 hrenderer
  have hlen : ((chunk_local_coords s.chunkSize).filterMap
        (fun p => render_tile_command s tm atlas e p.1 p.2)).length
      = (chunk_local_coords s.chunkSize).countP
          (fun p => (Tilemap_get_tile tm (e.chunkX * s.chunkSize + p.1)
            (e.chunkY * s.chunkSize + p.2)).isSome) := by
    rw [length_filterMap_eq_countP]
    congr 1
    funext p
    exact render_tile_command_isSome s tm atlas e p.1 p.2
  refine ⟨?_, ?_, render_tile_command_of_tile s tm atlas e,
    render_tile_command_of_no_tile s tm atlas e, chunk_local_coords_nodup s.chunkSize,
    mem_chunk_local_coords s.chunkSize, hlen, ?_⟩
  · unfold render_chunk_tiles
    rw [htilemap, hatlas, hr, hsurface]
  · unfold render_chunk_tiles
    rw [htilemap, hatlas, hr, hsurface]
    simp only []
    rw [render_tile_commands_eq]
  · rw [hlen, ← chunk_local_coords_length]
    exact List.countP_le_length _

/-- The instance of C22 at `small_system` and the entry it creates for the chunk `(-1, -1)`, whose
four tiles are `(-2, -2)`, `(-1, -2)`, `(-2, -1)` and `(-1, -1)`: only the last is in the tilemap,
with tile id `4`, and gets the one tile draw, at the destination `(16, 16)`. -/
theorem render_chunk_tiles_draws_present_tiles_witness :
    chunk_local_coords small_system.chunkSize = [(0, 0), (1, 0), (0, 1), (1, 1)] ∧
    (render_chunk_tiles small_system (new_chunk small_system (-1) (-1))).2
      = [RendererCall.begin_render_texture ⟨32, 32, true⟩,
          RendererCall.execute_command (RenderCommand.rectangle ⟨0, 0, 32, 32⟩ color_black),
          RendererCall.execute_command
            (RenderCommand.texture ⟨16, 16, 16, 16⟩ color_white ⟨16, 0, 16, 16⟩),
          RendererCall.end_render_texture] ∧
    (render_chunk_tiles small_system (new_chunk small_system (-1) (-1))).1
      = { new_chunk small_system (-1) (-1) with
          isDirty := false, isLoaded := true, lastUpdateFrame := small_system.currentFrame } :=
  ⟨by decide, by decide,
    (render_chunk_tiles_draws_present_tiles small_system (new_chunk small_system (-1) (-1))
      small_tilemap small_atlas ⟨32, 32, true⟩ (by decide) (by decide) (by decide)
      (by decide)).1⟩

/-! ### The registry invariant -/

theorem grow_capacity_eq (s : ChunkRenderSystem) (h : s.observerCount ≤ s.observerCapacity) :
    grow_capacity s
      = if s.observerCount = s.observerCapacity then 2 * s.observerCapacity
        else s.observerCapacity := by
  unfold grow_capacity
  by_cases heq : s.observerCount = s.observerCapacity
  · rw [if_pos (by omega), if_pos heq]; ring
  · rw [if_neg (by omega), if_neg heq]

theorem registry_invariant_append (s : ChunkRenderSystem) (o : Observer)
    (h : registry_invariant s) (ho : o ∉ s.observers) :
    registry_invariant
      { s with observerCapacity := grow_capacity s, observers := s.observers ++ [o] } := by
  obtain ⟨hnodup, hcount, k, hk⟩ := h
  have hpos : 0 < s.observerCapacity := by
    rw [hk]; positivity
  refine ⟨?_, ?_, ?_⟩
  · show (s.observers ++ [o]).Nodup
    rw [List.nodup_append]
    refine ⟨hnodup, List.nodup_singleton o, ?_⟩
    intro a ha hb
    rw [List.mem_singleton] at hb
    subst hb
    exact ho ha
  · show (s.observers ++ [o]).length ≤ grow_capacity s
    rw [grow_capacity_eq s hcount, List.length_append, List.length_singleton]
    simp only [ChunkRenderSystem.observerCount] at hcount ⊢
    split <;> omega
  · show ∃ k' : Nat, grow_capacity s = 16 * 2 ^ k'
    rw [grow_capacity_eq s hcount]
    split
    · exact ⟨k + 1, by rw [hk]; ring⟩
    · exact ⟨k, hk⟩

theorem registry_invariant_swap_remove (s : ChunkRenderSystem) (i : Nat) (o : Observer)
    (h : registry_invariant s) (hi : s.observers[i]? = some o) :
    registry_invariant { s with observers := swap_remove s.observers i } := by
  obtain ⟨hnodup, hcount, hk⟩ := h
  have hperm := swap_remove_perm s.observers i o hi
  have hnd : (o :: swap_remove s.observers i).Nodup := hperm.nodup_iff.1 hnodup
  rw [List.nodup_cons] at hnd
  refine ⟨hnd.2, ?_, hk⟩
  show (swap_remove s.observers i).length ≤ s.observerCapacity
  have := hperm.length_eq
  simp only [List.length_cons, ChunkRenderSystem.observerCount] at this hcount
  omega

theorem registry_invariant_add_entity_observer (s : ChunkRenderSystem) (ecs : ECS)
    (entity : EntityId) (pid : ComponentTypeId) (h : registry_invariant s) :
    registry_invariant (ChunkRenderSystem_add_entity_observer s ecs entity pid) := by
  by_cases hm : Observer.entity entity ∈ s.observers
  · rw [add_entity_observer_of_mem s ecs entity pid hm]; exact h
  · rw [add_entity_observer_of_not_mem s ecs entity pid hm]
    exact registry_invariant_append s _ h hm

theorem registry_invariant_add_manual_observer (s : ChunkRenderSystem) (tileX tileY : Int)
    (h : registry_invariant s) :
    registry_invariant (ChunkRenderSystem_add_manual_observer s tileX tileY) := by
  by_cases hm : Observer.manual tileX tileY ∈ s.observers
  · rw [add_manual_observer_of_mem s tileX tileY hm]; exact h
  · rw [add_manual_observer_of_not_mem s tileX tileY hm]
    exact registry_invariant_append s _ h hm

theorem registry_invariant_remove_entity_observer (s : ChunkRenderSystem) (entity : EntityId)
    (h : registry_invariant s) :
    registry_invariant (ChunkRenderSystem_remove_entity_observer s entity) := by
  by_cases hm : Observer.entity entity ∈ s.observers
  · obtain ⟨i, hi, hrem⟩ := remove_entity_observer_of_mem s entity hm
    rw [hrem]
    exact registry_invariant_swap_remove s i _ h hi
  · rw [remove_entity_observer_of_not_mem s entity hm]; exact h

theorem registry_invariant_remove_manual_observer (s : ChunkRenderSystem) (tileX tileY : Int)
    (h : registry_invariant s) :
    registry_invariant (ChunkRenderSystem_remove_manual_observer s tileX tileY) := by
  by_cases hm : Observer.manual tileX tileY ∈ s.observers
  · obtain ⟨i, hi, hrem⟩ := remove_manual_observer_of_mem s tileX tileY hm
    rw [hrem]
    exact registry_invariant_swap_remove s i _ h hi
  · rw [remove_manual_observer_of_not_mem s tileX tileY hm]; exact h

theorem registry_invariant_init (tilemap : Option Tilemap) (atlas : Option Atlas)
    (renderer : Option Renderer) (tileSize chunkSize renderRadius simulationRadius : Int) :
    registry_invariant
      (ChunkRenderSystem_init tilemap atlas renderer tileSize chunkSize renderRadius
        simulationRadius) :=
  ⟨List.nodup_nil, Nat.zero_le _, 0, rfl⟩

theorem registry_reachable_invariant (s : ChunkRenderSystem) (h : RegistryReachable s) :
    registry_invariant s := by
  induction h with
  | init tilemap atlas renderer tileSize chunkSize renderRadius simulationRadius =>
    exact registry_invariant_init _ _ _ _ _ _ _
  | add_entity_observer ecs entity pid _ ih =>
    exact registry_invariant_add_entity_observer _ ecs entity pid ih
  | add_manual_observer tileX tileY _ ih =>
    exact registry_invariant_add_manual_observer _ tileX tileY ih
  | remove_entity_observer entity _ ih =>
    exact registry_invariant_remove_entity_observer _ entity ih
  | remove_manual_observer tileX tileY _ ih =>
    exact registry_invariant_remove_manual_observer _ tileX tileY ih

/-- The registry invariant also holds in every state reached by all public operations: update,
render, marking a chunk dirty and cleanup do not write the registry. -/
theorem reachable_registry_invariant (HAS : Bool) (s : ChunkRenderSystem)
    (h : Reachable HAS s) : registry_invariant s := by
  induction h with
  | init tilemap atlas renderer tileSize chunkSize renderRadius simulationRadius =>
    exact registry_invariant_init _ _ _ _ _ _ _
  | add_entity_observer ecs entity pid _ ih =>
    exact registry_invariant_add_entity_observer _ ecs entity pid ih
  | add_manual_observer tileX tileY _ ih =>
    exact registry_invariant_add_manual_observer _ tileX tileY ih
  | remove_entity_observer entity _ ih =>
    exact registry_invariant_remove_entity_observer _ entity ih
  | remove_manual_observer tileX tileY _ ih =>
    exact registry_invariant_remove_manual_observer _ tileX tileY ih
  | update ecs pid mgr _ ih =>
    rw [update_system]; exact ih
  | render ecs pid camera aspectFit _ ih =>
    rw [render_system]; exact ih
  | mark_chunk_dirty tileX tileY _ ih =>
    rw [mark_chunk_dirty_system]; exact ih
  | cleanup _ ih => exact ih

/-- C23: in every state reached from `ChunkRenderSystem_init` by the four observer operations the
registered observers are pairwise different, `observerCount` is at most `observerCapacity`, and
`observerCapacity` is `16 * 2 ^ k` for some `k`. The capacity only changes by doubling: an add of
an observer that is not registered, which is an add that reaches the capacity test, doubles it
when `observerCount = observerCapacity` and keeps it otherwise; an add of a registered observer
returns before the test and keeps it, and so does every remove. -/
theorem registry_invariant_reachable (s : ChunkRenderSystem) (h : RegistryReachable s) :
    s.observers.Nodup ∧ s.observerCount ≤ s.observerCapacity ∧
    (∃ k : Nat, s.observerCapacity = 16 * 2 ^ k) ∧
    (∀ ecs entity pid, Observer.entity entity ∉ s.observers →
      (ChunkRenderSystem_add_entity_observer s ecs entity pid).observerCapacity
        = if s.observerCount = s.observerCapacity then 2 * s.observerCapacity
          else s.observerCapacity) ∧
    (∀ tileX tileY, Observer.manual tileX tileY ∉ s.observers →
      (ChunkRenderSystem_add_manual_observer s tileX tileY).observerCapacity
        = if s.observerCount = s.observerCapacity then 2 * s.observerCapacity
          else s.observerCapacity) ∧
    (∀ ecs entity pid, Observer.entity entity ∈ s.observers →
      (ChunkRenderSystem_add_entity_observer s ecs entity pid).observerCapacity
        = s.observerCapacity) ∧
    (∀ tileX tileY, Observer.manual tileX tileY ∈ s.observers →
      (ChunkRenderSystem_add_manual_observer s tileX tileY).observerCapacity
        = s.observerCapacity) ∧
    (∀ entity, (ChunkRenderSystem_remove_entity_observer s entity).observerCapacity
      = s.observerCapacity) ∧
    (∀ tileX tileY, (ChunkRenderSystem_remove_manual_observer s tileX tileY).observerCapacity
      = s.observerCapacity) := by
  obtain ⟨hnodup, hcount, hk⟩ := registry_reachable_invariant s h
  refine ⟨hnodup, hcount, hk, ?_, ?_, ?_, ?_, ?_, ?_⟩
  · intro ecs entity pid hm
    rw [add_entity_observer_of_not_mem s ecs entity pid hm]
    exact grow_capacity_eq s hcount
  · intro tileX tileY hm
    rw [add_manual_observer_of_not_mem s tileX tileY hm]
    exact grow_capacity_eq s hcount
  · intro ecs entity pid hm
    rw [add_entity_observer_of_mem s ecs entity pid hm]
  · intro tileX tileY hm
    rw [add_manual_observer_of_mem s tileX tileY hm]
  · intro entity
    rw [remove_entity_observer_chunks]
  · intro tileX tileY
    rw [remove_manual_observer_chunks]

theorem foldl_add_manual_observer_reachable (l : List Nat) (s : ChunkRenderSystem)
    (h : RegistryReachable s) :
    RegistryReachable
      (l.foldl (fun system (i : Nat) => ChunkRenderSystem_add_manual_observer system (i : Int) 0)
        s) := by
  induction l generalizing s with
  | nil => exact h
  | cons i l ih =>
    rw [List.foldl_cons]
    exact ih _ (RegistryReachable.add_manual_observer (i : Int) 0 h)

theorem full_registry_reachable : RegistryReachable full_registry :=
  foldl_add_manual_observer_reachable (List.range 16) small_system
    (RegistryReachable.init (some small_tilemap) (some small_atlas) (some ⟨0⟩) 16 2 1 10)

/-- The instance of C23 at `full_registry`, with sixteen observers and the capacity `16`: adding
the manual observer at `(16, 0)`, which is not registered, doubles the capacity to `32`; adding
the one at `(3, 0)`, which is registered, and removing it keep the capacity. -/
theorem registry_invariant_reachable_witness :
    full_registry.observerCount = 16 ∧ full_registry.observerCapacity = 16 ∧
    (ChunkRenderSystem_add_manual_observer full_registry 16 0).observerCapacity = 32 ∧
    (ChunkRenderSystem_add_manual_observer full_registry 3 0).observerCapacity = 16 ∧
    (ChunkRenderSystem_remove_manual_observer full_registry 3 0).observerCount = 15 ∧
    (full_registry.observers.Nodup ∧ full_registry.observerCount ≤ full_registry.observerCapacity ∧
      ∃ k : Nat, full_registry.observerCapacity = 16 * 2 ^ k) :=
  ⟨by decide, by decide, by decide, by decide, by decide,
    (registry_invariant_reachable full_registry full_registry_reachable).1,
    (registry_invariant_reachable full_registry full_registry_reachable).2.1,
    (registry_invariant_reachable full_registry full_registry_reachable).2.2.1⟩

end Gramarye
